import Mathlib

/-!
# The ZStack edge SDK client: asynchronous-operation protocol

A shallow embedding of the vendored HTTP client of the provider
(`vendor/zstack.io/edge-go-sdk/pkg/client/edge_http_client.go`,
`.../pkg/auth/transport.go`), of its configuration
(`.../pkg/client/edge_client_config.go`), of the cluster and node operations
(`.../pkg/client/cluster_actions.go`, `node_actions.go`) and of the password
encryption (`.../pkg/util/utils/aes.go`), and the properties of the poll loop,
the envelope handling, the request signer and the retry budget.

Conventions of the embedding.

* Go `int` and `time.Duration` are 64 bits wide: they are `Int` here and every
  arithmetic step that can leave the range is followed by `wrapInt64`.
* Side effects (HTTP requests, `time.Sleep`, the clock) are explicit: a `World`
  carries the history of effects and the monotonic clock, and effectful code is
  a function from `World` to a result and a new `World`.
* A Go loop without a syntactic bound is a function with a fuel argument that
  ends as `Outcome.outOfFuel` when the fuel runs out; separate theorems show
  that the fuel handed in by the callers is always enough.
* Helpers of the SDK that are not part of the sources at hand (`pkg/errors`
  apart from its constants, `pkg/util/httputils`, `pkg/util/jsonutils`), the Go
  standard library and third-party packages are either fields of a parameter
  structure (`Env`, `Crypto`, `Cipher`, `Marshaller`) or definitions marked
  `Modelled from the spec`.
* A method that assigns to a field of the client returns the configuration
  after the call next to its result; where the identity of a `*ZeConfig` matters
  (the mutators of the configuration) configurations live in a `ConfigHeap`.
-/

namespace ZStackEdge

/-! ## Machine integers -/

/-- Two to the power 63, the first value above the Go `int` range. -/
def int64Bound : Int := 9223372036854775808

/-- Wrap-around of 64-bit signed arithmetic (Go `int`, `int64`, `time.Duration`). -/
def wrapInt64 (x : Int) : Int :=
  (x + int64Bound) % (2 * int64Bound) - int64Bound

/-- The values a Go `int` can hold. -/
def IsInt64 (x : Int) : Prop := -int64Bound ≤ x ∧ x < int64Bound

instance (x : Int) : Decidable (IsInt64 x) := by
  unfold IsInt64; exact inferInstance

/-- Nanoseconds in `time.Second`. -/
def timeSecond : Int := 1000000000

/-- The duration `time.Duration(interval) * time.Second`, in nanoseconds. -/
def secondsDuration (interval : Int) : Int := wrapInt64 (interval * timeSecond)

/-! ## JSON values, headers, errors -/

/-- The type `http.Header`, as an association list. -/
abbrev Header := List (String × String)

/-- Modelled from the spec: `jsonutils.JSONObject`, the parsed JSON tree of a
response envelope (`pkg/util/jsonutils` is not among the sources). Numbers are
integers; floating point values are outside the model. -/
inductive JSON where
  | null : JSON
  | bool (b : Bool) : JSON
  | int (n : Int) : JSON
  | str (s : String) : JSON
  | arr (items : List JSON) : JSON
  | dict (fields : List (String × JSON)) : JSON

instance : Inhabited JSON := ⟨JSON.null⟩

/-- Modelled from the spec: the errors of `pkg/errors` (only `consts.go` of that
package is among the sources). `jobRunning` is what `errors.NewJobRunningError`
builds, `wrap` what `errors.Wrap` and `errors.Wrapf` build, and `plain` is every
error that is only a message (`fmt.Errorf`, `errors.New`, transport and parse
errors of the helper packages). -/
inductive GoError where
  | plain (msg : String) : GoError
  | jobRunning (msg : String) : GoError
  | wrap (cause : GoError) (msg : String) : GoError
  deriving DecidableEq

/-- Modelled from the spec: `errors.IsJobRunningError`, the test for the
poller-specific "job still running" class. -/
def IsJobRunningError : GoError → Bool
  | GoError.jobRunning _ => true
  | _ => false

/-- Modelled from the spec: `err.Error()`, the message of an error; a wrapped
error prefixes the message of its cause with the context. -/
def GoError.Error : GoError → String
  | GoError.plain msg => msg
  | GoError.jobRunning msg => msg
  | GoError.wrap cause msg => msg ++ ": " ++ cause.Error

/-! ## Effects -/

/-- One observable effect of the client. -/
inductive Event where
  /-- A call of `httputils.JSONRequest(client, ctx, method, url, body, debug)`. -/
  | jsonRequest (method url : String) (body : Option JSON) : Event
  /-- A call of `httputils.Request(client, ctx, method, url, header, nil, debug)`. -/
  | request (method url : String) (header : Option Header) : Event
  /-- A call of `time.Sleep(d)`, `d` in nanoseconds. -/
  | sleep (nanos : Int) : Event

/-- The state of everything outside the client: the effects so far, oldest
first, and the monotonic clock in nanoseconds. -/
structure World where
  trace : List Event
  now : Int

/-- The call `time.Sleep(d)`: a negative or zero duration returns at once. -/
def World.sleep (d : Int) (w : World) : World :=
  { trace := w.trace ++ [Event.sleep d], now := w.now + max d 0 }

/-- How a call ends: it returns, it panics (a nil dereference at run time), or
the embedding ran out of fuel before the loop of the source ended. -/
inductive Outcome (α : Type) where
  | ret (a : α) : Outcome α
  | panic (what : String) : Outcome α
  | outOfFuel : Outcome α
  deriving DecidableEq

/-- Post-process the value of a call that returned. -/
def Outcome.map {α β : Type} (f : α → β) : Outcome α → Outcome β
  | Outcome.ret a => Outcome.ret (f a)
  | Outcome.panic what => Outcome.panic what
  | Outcome.outOfFuel => Outcome.outOfFuel

/-- Continue after a call that returned. -/
def Outcome.bind {α β : Type} (o : Outcome α) (f : α → Outcome β) : Outcome β :=
  match o with
  | Outcome.ret a => f a
  | Outcome.panic what => Outcome.panic what
  | Outcome.outOfFuel => Outcome.outOfFuel

/-! ## The poll loop -/

/-- What the callback handed to `retryCallback` returns:
`(http.Header, jsonutils.JSONObject, error)`. -/
structure PollResult where
  header : Option Header
  body : Option JSON
  err : Option GoError

/-- The return values of `retryCallback` together with the world it leaves and
three ghost observations: how often `fn` was invoked, the durations of the
`time.Sleep` calls in order, and the value of the local `retryTimes` at the
return. -/
structure RetryRun where
  header : Option Header
  body : Option JSON
  err : Option GoError
  world : World
  polls : Nat
  sleeps : List Int
  remaining : Int

/-- The bookkeeping of one more iteration in front of a finished run. -/
def RetryRun.afterRetry (d : Int) (run : RetryRun) : RetryRun :=
  { run with polls := run.polls + 1, sleeps := d :: run.sleeps }

/-- The `for` loop of `retryCallback` (edge_http_client.go, lines 437-455):
`fuel` bounds the number of iterations. -/
def retryLoop (fn : World → PollResult × World) (interval : Int) :
    Nat → Int → World → Outcome RetryRun
  | 0, _, _ => Outcome.outOfFuel
  | fuel + 1, retryTimes, w =>
    let r := fn w
    match r.1.err with
    | none =>
      Outcome.ret { header := r.1.header, body := r.1.body, err := none, world := r.2,
                    polls := 1, sleeps := [], remaining := retryTimes }
    | some err =>
      if retryTimes = 0 then
        Outcome.ret { header := r.1.header, body := r.1.body, err := some err, world := r.2,
                      polls := 1, sleeps := [], remaining := retryTimes }
      else if !IsJobRunningError err then
        Outcome.ret { header := r.1.header, body := r.1.body, err := some err, world := r.2,
                      polls := 1, sleeps := [], remaining := retryTimes }
      else
        (retryLoop fn interval fuel (wrapInt64 (retryTimes - 1))
            (r.2.sleep (secondsDuration interval))).map
          (RetryRun.afterRetry (secondsDuration interval))

/-- Iterations after which the 64-bit counter of `retryCallback` has passed
through zero whatever its start value: two to the power 64, plus one. -/
def retryFuel : Nat := 18446744073709551617

set_option linter.unusedVariables false in
/-- The function `retryCallback` (edge_http_client.go, lines 437-455). The
arguments `action`, `requestURL` and `params` only feed the debug log. -/
def retryCallback (fn : World → PollResult × World) (action requestURL params : String)
    (interval retryTimes : Int) (w : World) : Outcome RetryRun :=
  retryLoop fn interval retryFuel retryTimes w

/-- The world in which poll number `i` (counting from zero) of a poll loop
starts: every earlier poll was followed by one sleep of `d` nanoseconds. -/
def pollStart (fn : World → PollResult × World) (d : Int) : Nat → World → World
  | 0, w => w
  | i + 1, w => pollStart fn d i ((fn w).2.sleep d)

/-- The result of poll number `i` of a poll loop that started in `w`. -/
def pollAt (fn : World → PollResult × World) (d : Int) (i : Nat) (w : World) : PollResult :=
  (fn (pollStart fn d i w)).1

/-- The world right after poll number `i` of a poll loop that started in `w`. -/
def pollEnd (fn : World → PollResult × World) (d : Int) (i : Nat) (w : World) : World :=
  (fn (pollStart fn d i w)).2

/-- A poll result that carries an error of the job-still-running class. -/
def PollResult.stillRunning (r : PollResult) : Bool :=
  match r.err with
  | some err => IsJobRunningError err
  | none => false

/-! ## Strings and numbers of the standard library -/

/-- Whether the characters `p` start the characters `s`. -/
def startsWithChars : List Char → List Char → Bool
  | [], _ => true
  | _ :: _, [] => false
  | a :: p, b :: s => a == b && startsWithChars p s

/-- Whether the characters `sub` occur in `s` as a contiguous block. -/
def containsChars (sub : List Char) : List Char → Bool
  | [] => sub.isEmpty
  | c :: s => startsWithChars sub (c :: s) || containsChars sub s

/-- The function `strings.Contains(s, substr)`. -/
def stringsContains (s substr : String) : Bool :=
  containsChars substr.data s.data

/-- The function `strings.Replace(s, old, "", 1)` on characters: the first
occurrence of `old` is cut out; an empty `old` matches at the start and leaves
`s` as it is. -/
def removeFirstChars (old : List Char) : List Char → List Char
  | [] => []
  | c :: s =>
    if startsWithChars old (c :: s) then (c :: s).drop old.length
    else c :: removeFirstChars old s

/-- The function `strings.Replace(s, old, "", 1)`. -/
def stringsRemoveFirst (s old : String) : String :=
  String.mk (removeFirstChars old.data s.data)

/-- The decimal digit `d` as a character. -/
def digitChar (d : Nat) : Char := Char.ofNat (48 + d % 10)

/-- The decimal digits of `n` in front of `acc`, most significant first. -/
def decimalDigits : Nat → Nat → List Char → List Char
  | 0, _, acc => acc
  | fuel + 1, n, acc =>
    if n < 10 then digitChar n :: acc
    else decimalDigits fuel (n / 10) (digitChar n :: acc)

/-- The verb `%d` of `fmt` (and `strconv.FormatInt(n, 10)`): the decimal text
of an integer. -/
def decimal : Int → String
  | Int.ofNat n => String.mk (decimalDigits (n + 1) n [])
  | Int.negSucc n => String.mk ('-' :: decimalDigits (n + 2) (n + 1) [])

/-- The value of a decimal digit character, if it is one. -/
def digitValue (c : Char) : Option Nat :=
  if 48 ≤ c.toNat ∧ c.toNat ≤ 57 then some (c.toNat - 48) else none

/-- Read decimal digits onto the accumulator `acc`. -/
def parseDigits : List Char → Nat → Option Nat
  | [], acc => some acc
  | c :: cs, acc =>
    match digitValue c with
    | some d => parseDigits cs (acc * 10 + d)
    | none => none

/-- The integer written by an optional sign and at least one decimal digit. -/
def parseDecimal : List Char → Option Int
  | [] => none
  | '-' :: cs => if cs.isEmpty then none else (parseDigits cs 0).map (fun n => -(n : Int))
  | '+' :: cs => if cs.isEmpty then none else (parseDigits cs 0).map (fun n => (n : Int))
  | c :: cs => (parseDigits (c :: cs) 0).map (fun n => (n : Int))

/-- The lower-case hexadecimal digit of `d`. -/
def hexDigit (d : Nat) : Char :=
  if d % 16 < 10 then Char.ofNat (48 + d % 16) else Char.ofNat (87 + d % 16)

/-- What `strconv.Quote` writes for one character: a backslash in front of the
double quote and of the backslash, the printable ASCII characters as they are,
the control characters as their escapes. A character beyond ASCII is taken as
printable and kept, where Go escapes the ones its tables call unprintable. -/
def quoteChar (c : Char) : List Char :=
  if c.toNat = 34 then [Char.ofNat 92, Char.ofNat 34]
  else if c.toNat = 92 then [Char.ofNat 92, Char.ofNat 92]
  else if 32 ≤ c.toNat ∧ c.toNat < 127 then [c]
  else if c.toNat = 7 then [Char.ofNat 92, 'a']
  else if c.toNat = 8 then [Char.ofNat 92, 'b']
  else if c.toNat = 12 then [Char.ofNat 92, 'f']
  else if c.toNat = 10 then [Char.ofNat 92, 'n']
  else if c.toNat = 13 then [Char.ofNat 92, 'r']
  else if c.toNat = 9 then [Char.ofNat 92, 't']
  else if c.toNat = 11 then [Char.ofNat 92, 'v']
  else if c.toNat < 128 then [Char.ofNat 92, 'x', hexDigit (c.toNat / 16), hexDigit c.toNat]
  else [c]

/-- The function `strconv.Quote`: the text between double quotes. -/
def strconvQuote (s : String) : String :=
  String.mk (Char.ofNat 34 :: (s.data.flatMap quoteChar ++ [Char.ofNat 34]))

/-- The function `strconv.Atoi`: the value and the error. A text that is not a
number gives zero, a number outside the `int` range the nearest bound, each with
an error that names the quoted text. -/
def strconvAtoi (s : String) : Int × Option GoError :=
  match parseDecimal s.data with
  | none =>
    (0, some (GoError.plain ("strconv.Atoi: parsing " ++ strconvQuote s ++ ": invalid syntax")))
  | some n =>
    if int64Bound ≤ n then
      (int64Bound - 1,
        some (GoError.plain ("strconv.Atoi: parsing " ++ strconvQuote s ++ ": value out of range")))
    else if n < -int64Bound then
      (-int64Bound,
        some (GoError.plain ("strconv.Atoi: parsing " ++ strconvQuote s ++ ": value out of range")))
    else (n, none)

/-! ## The JSON helpers -/

/-- The value stored under `key` in an association list. -/
def lookupField (key : String) : List (String × JSON) → Option JSON
  | [] => none
  | (k, v) :: rest => if k = key then some v else lookupField key rest

/-- Modelled from the spec: `JSONObject.Get(key)`; an absent key, or a value
that is not an object, gives the "key not found" error. -/
def JSON.Get (j : JSON) (key : String) : Except GoError JSON :=
  match j with
  | JSON.dict fields =>
    match lookupField key fields with
    | some v => Except.ok v
    | none => Except.error (GoError.plain ("key not found: " ++ key))
  | _ => Except.error (GoError.plain ("key not found: " ++ key))

/-- Modelled from the spec: `JSONObject.Get(keys...)`, the navigation along a
key path. -/
def JSON.GetPath (j : JSON) : List String → Except GoError JSON
  | [] => Except.ok j
  | key :: keys =>
    match j.Get key with
    | Except.ok v => v.GetPath keys
    | Except.error e => Except.error e

/-- Modelled from the spec: `JSONObject.Contains(key)`. -/
def JSON.Contains (j : JSON) (key : String) : Bool :=
  match j with
  | JSON.dict fields => (lookupField key fields).isSome
  | _ => false

/-- Modelled from the spec: `JSONObject.GetString(keys...)`: the value at the
key path as a text. A string is its content, an integer its decimal text, a
boolean `true` or `false`; anything else is not a text. -/
def JSON.GetString (j : JSON) (keys : List String) : Except GoError String :=
  match j.GetPath keys with
  | Except.ok (JSON.str s) => Except.ok s
  | Except.ok (JSON.int n) => Except.ok (decimal n)
  | Except.ok (JSON.bool b) => Except.ok (if b then "true" else "false")
  | Except.ok _ => Except.error (GoError.plain "not a string")
  | Except.error e => Except.error e

/-- Modelled from the spec: `JSONObject.Unmarshal(retVal, keys...)`: the value
at the key path is what is deserialised into the target. The target `retVal`
holds the JSON value it was filled from; an absent key leaves it as it was and
gives the "key not found" error. -/
def JSON.Unmarshal (j : JSON) (retVal : JSON) (keys : List String) : JSON × Option GoError :=
  match j.GetPath keys with
  | Except.ok v => (v, none)
  | Except.error e => (retVal, some e)

/-! ## Query parameters -/

/-- The type `url.Values`, a map from keys to lists of values, as an
association list with one entry per key. -/
abbrev Values := List (String × List String)

/-- The method `url.Values.Get`: the first value of the key, or the empty text. -/
def Values.Get : Values → String → String
  | [], _ => ""
  | (k, vs) :: rest, key => if k = key then vs.headD "" else Values.Get rest key

/-- The method `url.Values.Set`: the key gets the single value. -/
def Values.Set (v : Values) (key value : String) : Values :=
  v.filter (fun kv => kv.1 != key) ++ [(key, [value])]

/-- The type `param.QueryParam`. -/
structure QueryParam where
  values : Values

/-- The method `QueryParam.ReplyWithCount` (query_params.go, lines 59-62). -/
def QueryParam.ReplyWithCount (params : QueryParam) (replyWithCount : Bool) : QueryParam :=
  { values := params.values.Set "replyWithCount" (if replyWithCount then "true" else "false") }

/-! ## The environment of the client -/

/-- The type `*http.Response` as far as the client looks at it: the status code;
the rest is read by `httputils.ParseJSONResponse` only. -/
structure HttpResponse where
  statusCode : Int
  header : Header
  body : String

/-- The four return values of `httputils.JSONRequest`: the header map that the
wait later hands back to `httputils.Request`, the response header, the parsed
body (absent when the response carries no JSON) and the error. -/
structure JSONReply where
  header : Option Header
  respHeader : Option Header
  resp : Option JSON
  err : Option GoError

/-- The helpers that are not among the sources, as parameters. The remote side
is deterministic in the history: the answer to a request is a function of all
effects up to and including that request (the last event of the history). -/
structure Env where
  /-- The answer of `httputils.JSONRequest` to the request that ends the history. -/
  jsonRequest : List Event → JSONReply
  /-- The answer of `httputils.Request` to the request that ends the history:
  the response, or the error. -/
  request : List Event → Except GoError HttpResponse
  /-- The return values of `httputils.ParseJSONResponse("", resp, debug, nil)`. -/
  parseJSONResponse : HttpResponse → PollResult
  /-- Nanoseconds that the request that ends the history takes. -/
  elapsed : List Event → Nat
  /-- The method `JSONObject.String()`, the serialised form. -/
  jsonString : JSON → String
  /-- The method `url.Values.Encode()`. -/
  encodeValues : Values → String

/-- Perform the request `e`: it joins the history and the clock moves on by the
time it takes. -/
def World.perform (env : Env) (e : Event) (w : World) : World :=
  { trace := w.trace ++ [e], now := w.now + (env.elapsed (w.trace ++ [e]) : Int) }

/-- The verb `%v` of `fmt` on a `jsonutils.JSONObject`. -/
def fmtJSON (env : Env) : Option JSON → String
  | none => "<nil>"
  | some j => env.jsonString j

/-- The verb `%v` of `fmt` on an `error`. -/
def fmtError : Option GoError → String
  | none => "<nil>"
  | some e => e.Error

/-! ## Configuration and URLs -/

/-- The struct `ZeConfig` (edge_client_config.go, lines 13-29); a `ZeHttpClient`
and a `ZeClient` embed a pointer to it, so the functions below that assign to a
field hand back the changed configuration. -/
structure ZeConfig where
  protocol : String
  hostname : String
  port : Int
  contextPath : String
  insecureSkipVerify : Bool
  accessKeyId : String
  accessKeySecret : String
  retryInterval : Int
  retryTimes : Int
  timeout : Int
  debug : Bool

/-- The method `getRequestURL` (edge_http_client.go, lines 395-397). -/
def getRequestURL (cli : ZeConfig) (resource : String) : String :=
  cli.protocol ++ "://" ++ cli.hostname ++ ":" ++ decimal cli.port ++ cli.contextPath ++ resource

/-- The method `getURL` (edge_http_client.go, lines 384-393). -/
def getURL (cli : ZeConfig) (resource resourceId spec : String) : String :=
  let url := getRequestURL cli resource
  if resourceId.length > 0 then
    let url := url ++ "/" ++ resourceId
    if spec.length > 0 then url ++ "/" ++ spec else url
  else url

/-- The method `getGetURL` (edge_http_client.go, lines 172-178); a nil
`urlValues` is the empty list. -/
def getGetURL (env : Env) (cli : ZeConfig) (resource resourceId spec : String)
    (urlValues : Values) : String :=
  let url := getURL cli resource resourceId spec
  if urlValues.length > 0 then url ++ "?" ++ env.encodeValues urlValues else url

/-- The method `getPostURL` (edge_http_client.go, lines 235-237). -/
def getPostURL (cli : ZeConfig) (resource resourceId spec : String) : String :=
  getURL cli resource resourceId spec

/-- The method `getPutURL` (edge_http_client.go, lines 293-295). -/
def getPutURL (cli : ZeConfig) (resource resourceId spec : String) : String :=
  getURL cli resource resourceId spec

/-- The method `getDeleteURL` (edge_http_client.go, lines 342-352). -/
def getDeleteURL (cli : ZeConfig) (resource resourceId spec paramsStr : String) : String :=
  let url := getURL cli resource resourceId spec
  if paramsStr.length > 0 then
    if stringsContains url "?" then url ++ "&" ++ paramsStr else url ++ "?" ++ paramsStr
  else url

/-! ## The wait for an action -/

/-- The function `parseJSONResponseForHttpWait` (edge_http_client.go, lines
424-435): an error of the parser drops header and body. -/
def parseJSONResponseForHttpWait (env : Env) (resp : HttpResponse) : PollResult :=
  let r := env.parseJSONResponse resp
  match r.err with
  | some err => { header := none, body := none, err := some err }
  | none => { header := r.header, body := r.body, err := none }

/-- The URL that `httpWait` polls for the action `actionID`. -/
def waitLocation (env : Env) (cli : ZeConfig) (actionID : String) : String :=
  getGetURL env cli "/open-api/v1/result" actionID "" []

/-- The closure that `httpWait` hands to `retryCallback` (edge_http_client.go,
lines 404-421): one GET on the result endpoint. -/
def httpWaitPoll (env : Env) (cli : ZeConfig) (header : Option Header) (actionID : String)
    (w : World) : PollResult × World :=
  let location := waitLocation env cli actionID
  let w1 := w.perform env (Event.request "GET" location header)
  match env.request w1.trace with
  | Except.error err =>
    ({ header := none, body := none,
       err := some (GoError.wrap err ("wait location " ++ location)) }, w1)
  | Except.ok resp =>
    if resp.statusCode ≠ 200 then
      if resp.statusCode = 202 then
        ({ header := none, body := none,
           err := some (GoError.jobRunning
             ("StatusCode: " ++ decimal resp.statusCode ++ ", Job Still Running")) }, w1)
      else
        let parsed := parseJSONResponseForHttpWait env resp
        ({ header := none, body := none,
           err := some (GoError.plain
             ("StatusCode: " ++ decimal resp.statusCode ++ ", Reponse: " ++ fmtJSON env parsed.body
               ++ ", Error: " ++ fmtError parsed.err)) }, w1)
    else (parseJSONResponseForHttpWait env resp, w1)

/-- The method `httpWait` (edge_http_client.go, lines 403-422). -/
def httpWait (env : Env) (cli : ZeConfig) (header : Option Header)
    (action requestURL : String) (params : JSON) (actionID : String) (w : World) :
    Outcome RetryRun :=
  retryCallback (httpWaitPoll env cli header actionID) action requestURL (env.jsonString params)
    cli.retryInterval cli.retryTimes w

/-! ## POST, PUT and DELETE -/

/-- The return values `(string, http.Header, jsonutils.JSONObject, error)` of
`httpPost`, `httpPut` and `httpDelete`, and the world they leave. -/
structure HttpResult where
  actionID : String
  header : Option Header
  body : Option JSON
  err : Option GoError
  world : World

/-- The action ID of a response (edge_http_client.go, lines 221-224, 280-283 and
329-332, the same three lines in `httpPost`, `httpPut` and `httpDelete`): the
text under `content.actionId`, and the empty text when there is none. -/
def extractActionID (resp : JSON) : String :=
  match resp.Get "content" with
  | Except.ok content =>
    if content.Contains "actionId" then
      match content.GetString ["actionId"] with
      | Except.ok actionID => actionID
      | Except.error _ => ""
    else ""
  | Except.error _ => ""

/-- What `httpPost`, `httpPut` and `httpDelete` return after a wait. -/
def HttpResult.ofWait (actionID : String) (run : RetryRun) : HttpResult :=
  { actionID := actionID, header := run.header, body := run.body, err := run.err,
    world := run.world }

/-- The method `httpPost` (edge_http_client.go, lines 212-233). -/
def httpPost (env : Env) (cli : ZeConfig) (urlStr : String) (params : JSON) (async : Bool)
    (w : World) : Outcome HttpResult :=
  let w1 := w.perform env (Event.jsonRequest "POST" urlStr (some params))
  let reply := env.jsonRequest w1.trace
  match reply.err with
  | some err =>
    Outcome.ret { actionID := "", header := none, body := none,
                  err := some (GoError.wrap err
                    ("POST" ++ " " ++ urlStr ++ " " ++ env.jsonString params)),
                  world := w1 }
  | none =>
    match reply.resp with
    | some resp =>
      let actionID := extractActionID resp
      if !async then
        (httpWait env cli reply.header "POST" urlStr params actionID w1).map
          (HttpResult.ofWait actionID)
      else
        Outcome.ret { actionID := actionID, header := reply.respHeader, body := reply.resp,
                      err := none, world := w1 }
    | none =>
      Outcome.ret { actionID := "", header := reply.respHeader, body := reply.resp,
                    err := none, world := w1 }

/-- The method `httpPut` (edge_http_client.go, lines 272-291). -/
def httpPut (env : Env) (cli : ZeConfig) (urlStr : String) (params : JSON) (async : Bool)
    (w : World) : Outcome HttpResult :=
  let w1 := w.perform env (Event.jsonRequest "PUT" urlStr (some params))
  let reply := env.jsonRequest w1.trace
  match reply.err with
  | some err =>
    Outcome.ret { actionID := "", header := none, body := none,
                  err := some (GoError.wrap err
                    ("PUT" ++ " " ++ urlStr ++ " " ++ env.jsonString params)),
                  world := w1 }
  | none =>
    match reply.resp with
    | some resp =>
      let actionID := extractActionID resp
      if !async then
        (httpWait env cli reply.header "PUT" urlStr params actionID w1).map
          (HttpResult.ofWait actionID)
      else
        Outcome.ret { actionID := actionID, header := reply.respHeader, body := reply.resp,
                      err := none, world := w1 }
    | none =>
      Outcome.ret { actionID := "", header := reply.respHeader, body := reply.resp,
                    err := none, world := w1 }

/-- The method `httpDelete` (edge_http_client.go, lines 322-340); the wait gets
an empty dictionary, `jsonutils.NewDict()`, as its parameters. -/
def httpDelete (env : Env) (cli : ZeConfig) (urlStr : String) (async : Bool)
    (w : World) : Outcome HttpResult :=
  let w1 := w.perform env (Event.jsonRequest "DELETE" urlStr none)
  let reply := env.jsonRequest w1.trace
  match reply.err with
  | some err =>
    Outcome.ret { actionID := "", header := none, body := none,
                  err := some (GoError.wrap err ("DELETE" ++ " " ++ urlStr)),
                  world := w1 }
  | none =>
    match reply.resp with
    | some resp =>
      let actionID := extractActionID resp
      if !async then
        (httpWait env cli reply.header "DELETE" urlStr (JSON.dict []) actionID w1).map
          (HttpResult.ofWait actionID)
      else
        Outcome.ret { actionID := actionID, header := reply.respHeader, body := reply.resp,
                      err := none, world := w1 }
    | none =>
      Outcome.ret { actionID := "", header := reply.respHeader, body := reply.resp,
                    err := none, world := w1 }

/-- The return values `(string, error)` of the `...WithAsync` methods, the
target `retVal` after the call (`none` is a nil `retVal`, `some v` a target that
holds `v`) and the world they leave. -/
structure CallResult where
  location : String
  err : Option GoError
  retVal : Option JSON
  world : World

/-- The last lines of `PostWithAsync` and `PutWithAsync` (edge_http_client.go,
lines 197-209 and 257-269): what becomes of the result of the request. A
response that is nil cannot be unmarshalled: the method call on it panics. -/
def finishCall (responseKey : String) (retVal : Option JSON) (async : Bool)
    (r : HttpResult) : Outcome CallResult :=
  match r.err with
  | some err =>
    Outcome.ret { location := r.actionID, err := some err, retVal := retVal, world := r.world }
  | none =>
    match async, retVal with
    | true, _ =>
      Outcome.ret { location := r.actionID, err := none, retVal := retVal, world := r.world }
    | false, none =>
      Outcome.ret { location := r.actionID, err := none, retVal := none, world := r.world }
    | false, some target =>
      match r.body with
      | none => Outcome.panic "nil pointer dereference: resp.Unmarshal"
      | some resp =>
        let u := if responseKey.length = 0 then resp.Unmarshal target []
                 else resp.Unmarshal target [responseKey]
        Outcome.ret { location := r.actionID, err := u.2, retVal := some u.1, world := r.world }

/-- The method `PostWithAsync` (edge_http_client.go, lines 194-210); `params` is
the JSON object that `jsonMarshal` makes of the parameters. -/
def PostWithAsync (env : Env) (cli : ZeConfig) (resource resourceId spec responseKey : String)
    (params : JSON) (retVal : Option JSON) (async : Bool) (w : World) : Outcome CallResult :=
  let urlStr := getPostURL cli resource resourceId spec
  (httpPost env cli urlStr params async w).bind (finishCall responseKey retVal async)

/-- The method `PutWithAsync` (edge_http_client.go, lines 254-270). -/
def PutWithAsync (env : Env) (cli : ZeConfig) (resource resourceId spec responseKey : String)
    (params : JSON) (retVal : Option JSON) (async : Bool) (w : World) : Outcome CallResult :=
  let urlStr := getPutURL cli resource resourceId spec
  (httpPut env cli urlStr params async w).bind (finishCall responseKey retVal async)

/-- The last lines of `DeleteWithAsync` (edge_http_client.go, lines 311-319):
the response is unmarshalled under the key that is the empty text. -/
def finishDelete (retVal : Option JSON) (async : Bool) (r : HttpResult) : Outcome CallResult :=
  match r.err with
  | some err =>
    Outcome.ret { location := r.actionID, err := some err, retVal := retVal, world := r.world }
  | none =>
    match async, retVal with
    | true, _ =>
      Outcome.ret { location := r.actionID, err := none, retVal := retVal, world := r.world }
    | false, none =>
      Outcome.ret { location := r.actionID, err := none, retVal := none, world := r.world }
    | false, some target =>
      match r.body with
      | none => Outcome.panic "nil pointer dereference: resp.Unmarshal"
      | some resp =>
        let u := resp.Unmarshal target [""]
        Outcome.ret { location := r.actionID, err := u.2, retVal := some u.1, world := r.world }

/-- The method `DeleteWithAsync` (edge_http_client.go, lines 308-320). -/
def DeleteWithAsync (env : Env) (cli : ZeConfig) (resource resourceId spec paramsStr : String)
    (retVal : Option JSON) (async : Bool) (w : World) : Outcome CallResult :=
  let urlStr := getDeleteURL cli resource resourceId spec paramsStr
  (httpDelete env cli urlStr async w).bind (finishDelete retVal async)

/-- The method `DeleteWithSpec` (edge_http_client.go, lines 303-306): the error
of the synchronous `DeleteWithAsync`. -/
def DeleteWithSpec (env : Env) (cli : ZeConfig) (resource resourceId spec paramsStr : String)
    (retVal : Option JSON) (w : World) : Outcome CallResult :=
  DeleteWithAsync env cli resource resourceId spec paramsStr retVal false w

/-- The function `joinStrings` (cloud_actions.go, lines 81-90). -/
def joinStrings (strs : List String) : String :=
  (strs.enum.foldl
    (fun result p => (if p.1 > 0 then result ++ "," else result) ++ p.2) "")

/-- The method `DeleteNode` (node_actions.go, lines 28-33): the configuration
after the assignment `cli.retryTimes = 300`, and the outcome of the call. -/
def DeleteNode (env : Env) (cli : ZeConfig) (clusterId : Int) (nodenames : List String)
    (w : World) : ZeConfig × Outcome CallResult :=
  let path := "/open-api/v1/cluster/" ++ decimal clusterId ++ "/node"
  let paramsStr := "nodenames=" ++ joinStrings nodenames
  let cli1 := { cli with retryTimes := 300 }
  (cli1, DeleteWithSpec env cli1 path "" "" paramsStr none w)

/-! ## GET, lists and pages -/

/-- Nanoseconds in `time.Minute`. -/
def timeMinute : Int := 60 * timeSecond

/-- The return values `(http.Header, jsonutils.JSONObject, error)` of `httpGet`
and the world it leaves. -/
structure GetResult where
  header : Option Header
  body : Option JSON
  err : Option GoError
  world : World

/-- The `for` loop of `httpGet` (edge_http_client.go, lines 155-169), `fuel`
bounds the number of iterations: while less than five minutes have passed since
`startTime` the request is sent; a header timeout sleeps five seconds and tries
again, any other error returns, wrapped, and an answer leaves the loop. When the
loop condition fails, the variables `respHeader` and `resp` are still nil and the
error that is returned is nil. -/
def httpGetLoop (env : Env) (urlStr : String) (startTime : Int) : Nat → World → Outcome GetResult
  | 0, _ => Outcome.outOfFuel
  | fuel + 1, w =>
    if w.now - startTime < 5 * timeMinute then
      let w1 := w.perform env (Event.jsonRequest "GET" urlStr none)
      let reply := env.jsonRequest w1.trace
      match reply.err with
      | some err =>
        if stringsContains err.Error "exceeded while awaiting headers" then
          httpGetLoop env urlStr startTime fuel (w1.sleep (timeSecond * 5))
        else
          Outcome.ret { header := none, body := none,
                        err := some (GoError.wrap err ("GET" ++ " " ++ urlStr)), world := w1 }
      | none =>
        Outcome.ret { header := reply.respHeader, body := reply.resp, err := none, world := w1 }
    else
      Outcome.ret { header := none, body := none, err := none, world := w }

/-- Iterations that `httpGet` can make at most: every iteration but the last
sleeps five seconds, so after sixty of them five minutes have passed. -/
def httpGetFuel : Nat := 61

/-- The method `httpGet` (edge_http_client.go, lines 151-170). -/
def httpGet (env : Env) (urlStr : String) (w : World) : Outcome GetResult :=
  httpGetLoop env urlStr w.now httpGetFuel w

/-- The return value of the `List...` methods, the target `retVal` and the
parameters after the call, and the world they leave. -/
structure ListResult where
  err : Option GoError
  retVal : JSON
  params : Option QueryParam
  world : World

/-- The lines of `ListWithSpec` after the request (edge_http_client.go, lines
94-113). A response that is nil cannot be read: the method call on it panics. -/
def finishList (responseKey : String) (params : Option QueryParam) (retVal : JSON)
    (r : GetResult) : Outcome ListResult :=
  match r.err with
  | some err => Outcome.ret { err := some err, retVal := retVal, params := params, world := r.world }
  | none =>
    match r.body with
    | none => Outcome.panic "nil pointer dereference: resp"
    | some resp =>
      if responseKey.length = 0 then
        let u := resp.Unmarshal retVal []
        Outcome.ret { err := u.2, retVal := u.1, params := params, world := r.world }
      else
        match params with
        | some qp =>
          if (qp.values.Get "replyWithCount").length > 0 then
            match resp.GetString [responseKey, "totalCount"] with
            | Except.error err =>
              Outcome.ret { err := some err, retVal := retVal, params := params, world := r.world }
            | Except.ok total =>
              let qp1 : QueryParam := { values := qp.values.Set "totalCount" total }
              let u := resp.Unmarshal retVal [responseKey, "result"]
              Outcome.ret { err := u.2, retVal := u.1, params := some qp1, world := r.world }
          else
            let u := resp.Unmarshal retVal [responseKey]
            Outcome.ret { err := u.2, retVal := u.1, params := params, world := r.world }
        | none =>
          let u := resp.Unmarshal retVal [responseKey]
          Outcome.ret { err := u.2, retVal := u.1, params := params, world := r.world }

/-- The method `ListWithSpec` (edge_http_client.go, lines 85-114); `params` is
`none` for a nil pointer. -/
def ListWithSpec (env : Env) (cli : ZeConfig) (resource resourceId spec responseKey : String)
    (params : Option QueryParam) (retVal : JSON) (w : World) : Outcome ListResult :=
  let urlStr :=
    match params with
    | some qp => getGetURL env cli resource resourceId spec qp.values
    | none => getGetURL env cli resource resourceId spec []
  (httpGet env urlStr w).bind (finishList responseKey params retVal)

/-- The method `ListWithRespKey` (edge_http_client.go, lines 81-83). -/
def ListWithRespKey (env : Env) (cli : ZeConfig) (resource responseKey : String)
    (params : Option QueryParam) (retVal : JSON) (w : World) : Outcome ListResult :=
  ListWithSpec env cli resource "" "" responseKey params retVal w

/-- The return values `(int, error)` of the `Page...` methods, the target
`retVal` and the parameters after the call, and the world they leave. -/
structure PageResult where
  total : Int
  err : Option GoError
  retVal : JSON
  params : Option QueryParam
  world : World

/-- The lines of `PageWithRespKey` after the list call (edge_http_client.go,
lines 70-74). -/
def finishPage (r : ListResult) : PageResult :=
  match r.err with
  | some err =>
    { total := 0, err := some err, retVal := r.retVal, params := r.params, world := r.world }
  | none =>
    let total :=
      match r.params with
      | some qp => strconvAtoi (qp.values.Get "totalCount")
      | none => strconvAtoi ""
    { total := total.1, err := total.2, retVal := r.retVal, params := r.params, world := r.world }

/-- The method `PageWithRespKey` (edge_http_client.go, lines 67-75); calling
`ReplyWithCount` on a nil `params` panics. -/
def PageWithRespKey (env : Env) (cli : ZeConfig) (resource responseKey : String)
    (params : Option QueryParam) (retVal : JSON) (w : World) : Outcome PageResult :=
  match params with
  | none => Outcome.panic "nil pointer dereference: params"
  | some qp =>
    (ListWithRespKey env cli resource responseKey (some (qp.ReplyWithCount true)) retVal w).map
      finishPage

/-- The method `Page` (edge_http_client.go, lines 63-65). -/
def Page (env : Env) (cli : ZeConfig) (resource : String) (params : Option QueryParam)
    (retVal : JSON) (w : World) : Outcome PageResult :=
  PageWithRespKey env cli resource "content" params retVal w

/-! ## The request signer -/

/-- The standard library functions that the signer calls, as parameters. -/
structure Crypto where
  /-- The MAC `hmac.New(sha1.New, key)` of a message: key, message, the MAC bytes. -/
  hmacSha1 : String → String → List Nat
  /-- The function `base64.StdEncoding.EncodeToString`. -/
  base64 : List Nat → String
  /-- The text `t.Format(time.RFC1123Z)` of a clock reading. -/
  formatRFC1123Z : Int → String

/-- The type `*http.Request` as far as the signer and the wrapped round-tripper
see it. -/
structure HttpRequest where
  method : String
  urlPath : String
  url : String
  header : Header
  body : Option String

/-- The struct `ZeAuthProviderTransport` (transport.go, lines 13-19) without the
embedded round-tripper, which is an argument of `RoundTrip`. -/
structure ZeAuthProviderTransport where
  Ak : String
  Sk : String
  ContextPath : String

/-- The method `http.Header.Set` for a key in canonical form. -/
def headerSet (h : Header) (key value : String) : Header :=
  h.filter (fun kv => kv.1 != key) ++ [(key, value)]

/-- The method `http.Header.Get` for a key in canonical form. -/
def headerGet : Header → String → String
  | [], _ => ""
  | (k, v) :: rest, key => if k = key then v else headerGet rest key

/-- The message that is signed (transport.go, line 31): the format
`%s\n%s\n%s` of method, date and URI. -/
def signedMessage (method date uri : String) : String :=
  method ++ "\n" ++ date ++ "\n" ++ uri

/-- The signature (transport.go, lines 29-32): the base64 text of the
HMAC-SHA1 of the signed message under the secret key. -/
def signature (std : Crypto) (sk method date uri : String) : String :=
  std.base64 (std.hmacSha1 sk (signedMessage method date uri))

/-- The URI that is signed (transport.go, line 30). -/
def signedURI (t : ZeAuthProviderTransport) (req : HttpRequest) : String :=
  stringsRemoveFirst req.urlPath t.ContextPath

/-- The request that `RoundTrip` forwards when the clock reads `now`
(transport.go, lines 28-34). -/
def signRequest (std : Crypto) (t : ZeAuthProviderTransport) (now : Int) (req : HttpRequest) :
    HttpRequest :=
  let date := std.formatRFC1123Z now
  let uri := signedURI t req
  let sig := signature std t.Sk req.method date uri
  let header1 := headerSet req.header "Authorization" ("Zstack " ++ t.Ak ++ ":" ++ sig)
  { req with header := headerSet header1 "Date" date }

/-- The method `RoundTrip` (transport.go, lines 27-37); `inner` is the embedded
round-tripper. The print of the header on standard output is left out. -/
def RoundTrip {α : Type} (std : Crypto) (t : ZeAuthProviderTransport)
    (inner : HttpRequest → World → α × World) (req : HttpRequest) (w : World) : α × World :=
  inner (signRequest std t w.now req) w

/-! ## Observations of a run

Names for the requests, histories and results that the statements below speak
about. -/

/-- The run of a poll loop that ends with poll number `k`. -/
def stoppedRun (fn : World → PollResult × World) (d : Int) (k : Nat) (retryTimes : Int)
    (w : World) : RetryRun :=
  { header := (pollAt fn d k w).header, body := (pollAt fn d k w).body,
    err := (pollAt fn d k w).err, world := pollEnd fn d k w, polls := k + 1,
    sleeps := List.replicate k d, remaining := retryTimes - k }

/-- The request that `httpWait` sends for every poll of the action `actionID`. -/
def pollEvent (env : Env) (cli : ZeConfig) (header : Option Header) (actionID : String) : Event :=
  Event.request "GET" (waitLocation env cli actionID) header

/-- The effects of `i` polls, each followed by a sleep of `d` nanoseconds. -/
def waitHistory (poll : Event) (d : Int) : Nat → List Event
  | 0 => []
  | i + 1 => poll :: Event.sleep d :: waitHistory poll d i

/-- The answer of the result endpoint to poll number `i` (counting from zero) of
a wait that starts in `w`: the polls before it were each followed by the sleep
of the configured interval. -/
def pollAnswer (env : Env) (cli : ZeConfig) (header : Option Header) (actionID : String)
    (w : World) (i : Nat) : Except GoError HttpResponse :=
  env.request (w.trace ++ waitHistory (pollEvent env cli header actionID)
    (secondsDuration cli.retryInterval) i ++ [pollEvent env cli header actionID])

/-- The URL of the DELETE request of `DeleteNode` (node_actions.go, lines 29-32
with `getDeleteURL`). -/
def deleteNodeURL (cli : ZeConfig) (clusterId : Int) (nodenames : List String) : String :=
  getDeleteURL { cli with retryTimes := 300 }
    ("/open-api/v1/cluster/" ++ decimal clusterId ++ "/node") "" ""
    ("nodenames=" ++ joinStrings nodenames)

/-- The world right after the DELETE request of `DeleteNode`. -/
def afterDeleteNodeRequest (env : Env) (cli : ZeConfig) (clusterId : Int)
    (nodenames : List String) (w : World) : World :=
  w.perform env (Event.jsonRequest "DELETE" (deleteNodeURL cli clusterId nodenames) none)

/-- The GET request that `Page` sends for `resource` with the parameters `qp`. -/
def pageEvent (env : Env) (cli : ZeConfig) (resource : String) (qp : QueryParam) : Event :=
  Event.jsonRequest "GET" (getGetURL env cli resource "" "" (qp.ReplyWithCount true).values) none

/-- The envelope of a page: the list under `content.result` and the total under
`content.totalCount`. -/
def pageEnvelope (L : List JSON) (n : Int) : JSON :=
  JSON.dict [("content", JSON.dict [("result", JSON.arr L), ("totalCount", JSON.int n)])]

/-! ## Sample backends -/

/-- The number of `httputils.Request` calls in a history. -/
def countRequests : List Event → Nat
  | [] => 0
  | Event.request _ _ _ :: rest => countRequests rest + 1
  | _ :: rest => countRequests rest

/-- A backend that accepts every POST, PUT and DELETE with the action ID `a-1`
and answers poll number `i` of the result endpoint with the status `script i`
and an empty JSON object. -/
def scriptedEnv (script : Nat → Int) : Env :=
  { jsonRequest := fun _ =>
      { header := none, respHeader := some [],
        resp := some (JSON.dict [("content", JSON.dict [("actionId", JSON.str "a-1")])]),
        err := none }
    request := fun history =>
      Except.ok { statusCode := script (countRequests history - 1), header := [], body := "{}" }
    parseJSONResponse := fun resp =>
      { header := some resp.header, body := some (JSON.dict []), err := none }
    elapsed := fun _ => 0
    jsonString := fun _ => "{}"
    encodeValues := fun _ => "" }

/-- The configuration `DefaultZeConfig("edge.local")` with another retry budget. -/
def sampleConfig (retryInterval retryTimes : Int) : ZeConfig :=
  { protocol := "http", hostname := "edge.local", port := 80, contextPath := "/ze",
    insecureSkipVerify := false, accessKeyId := "", accessKeySecret := "",
    retryInterval := retryInterval, retryTimes := retryTimes, timeout := 60 * timeSecond,
    debug := false }

/-- The world before anything has happened. -/
def World.initial : World := { trace := [], now := 0 }

/-- A poll function whose every answer is the job-still-running error. -/
def pollAlwaysRunning : World → PollResult × World := fun w =>
  ({ header := none, body := none,
     err := some (GoError.jobRunning "StatusCode: 202, Job Still Running") }, w)

/-- A poll function that reports a running job as long as nothing has happened
in the world, and a server error from then on. -/
def pollRunningOnce : World → PollResult × World := fun w =>
  (if w.trace.length = 0 then
     { header := none, body := none,
       err := some (GoError.jobRunning "StatusCode: 202, Job Still Running") }
   else
     { header := none, body := none,
       err := some (GoError.plain "StatusCode: 500, Reponse: <nil>, Error: <nil>") }, w)

/-- A backend that answers every GET with the page envelope of `L` and `n`. -/
def pageEnv (L : List JSON) (n : Int) : Env :=
  { jsonRequest := fun _ =>
      { header := none, respHeader := some [], resp := some (pageEnvelope L n), err := none }
    request := fun _ => Except.ok { statusCode := 200, header := [], body := "{}" }
    parseJSONResponse := fun resp =>
      { header := some resp.header, body := some (JSON.dict []), err := none }
    elapsed := fun _ => 0
    jsonString := fun _ => "{}"
    encodeValues := fun _ => "replyWithCount=true" }

/-! ## Construction and mutation of the configuration -/

/-- The function `NewZeConfig` (edge_client_config.go, lines 31-41); the fields
it does not name have their zero values. -/
def NewZeConfig (protocol hostname : String) (port : Int) (contextPath : String) : ZeConfig :=
  { protocol := protocol, hostname := hostname, port := port, contextPath := contextPath,
    insecureSkipVerify := false, accessKeyId := "", accessKeySecret := "",
    retryInterval := 2, retryTimes := 150, timeout := 60 * timeSecond, debug := false }

/-- The constant `defaultProtocol`. -/
def defaultProtocol : String := "http"

/-- The constant `defaultEdgePort`. -/
def defaultEdgePort : Int := 80

/-- The constant `defaultEdgeContextPath`. -/
def defaultEdgeContextPath : String := "/ze"

/-- The function `DefaultZeConfig` (edge_client_config.go, lines 43-45). -/
def DefaultZeConfig (hostname : String) : ZeConfig :=
  NewZeConfig defaultProtocol hostname defaultEdgePort defaultEdgeContextPath

/-- A pointer `*ZeConfig`: the address of a configuration. -/
abbrev ConfigRef := Nat

/-- The configurations in memory, by address. -/
abbrev ConfigHeap := ConfigRef → ZeConfig

/-- The assignment through a pointer: the cell at `p` gets `c`, every other
cell stays. -/
def ConfigHeap.store (h : ConfigHeap) (p : ConfigRef) (c : ZeConfig) : ConfigHeap :=
  fun q => if q = p then c else h q

/-- The method `(*ZeConfig).InsecureSkipVerify` (edge_client_config.go, lines
47-50): the pointer it returns and the memory it leaves. -/
def ZeConfig.InsecureSkipVerify (config : ConfigRef) (insecureSkipVerify : Bool)
    (h : ConfigHeap) : ConfigRef × ConfigHeap :=
  (config, h.store config { h config with insecureSkipVerify := insecureSkipVerify })

/-- The method `(*ZeConfig).AccessKey` (edge_client_config.go, lines 52-56). -/
def ZeConfig.AccessKey (config : ConfigRef) (accessKeyId accessKeySecret : String)
    (h : ConfigHeap) : ConfigRef × ConfigHeap :=
  (config, h.store config
    { h config with accessKeyId := accessKeyId, accessKeySecret := accessKeySecret })

/-- The method `(*ZeConfig).GetAccessKeySecret` (edge_client_config.go, lines
57-59). -/
def ZeConfig.GetAccessKeySecret (config : ConfigRef) (h : ConfigHeap) : String :=
  (h config).accessKeySecret

/-- The method `(*ZeConfig).RetryInterval` (edge_client_config.go, lines 61-64). -/
def ZeConfig.RetryInterval (config : ConfigRef) (retryInterval : Int)
    (h : ConfigHeap) : ConfigRef × ConfigHeap :=
  (config, h.store config { h config with retryInterval := retryInterval })

/-- The method `(*ZeConfig).RetryTimes` (edge_client_config.go, lines 66-69). -/
def ZeConfig.RetryTimes (config : ConfigRef) (retryTimes : Int)
    (h : ConfigHeap) : ConfigRef × ConfigHeap :=
  (config, h.store config { h config with retryTimes := retryTimes })

/-- The method `(*ZeConfig).Timeout` (edge_client_config.go, lines 71-74). -/
def ZeConfig.Timeout (config : ConfigRef) (timeout : Int)
    (h : ConfigHeap) : ConfigRef × ConfigHeap :=
  (config, h.store config { h config with timeout := timeout })

/-- The method `(*ZeConfig).Debug` (edge_client_config.go, lines 76-79). -/
def ZeConfig.Debug (config : ConfigRef) (debug : Bool)
    (h : ConfigHeap) : ConfigRef × ConfigHeap :=
  (config, h.store config { h config with debug := debug })

/-! ## Parameters of the cluster and node operations -/

/-- The struct `param.ClusterCreateNodeParam` (cluster_params.go, lines 25-31). -/
structure ClusterCreateNodeParam where
  Name : String
  Roles : List String
  GPUProduct : String
  ManagementIPv4Addr : String
  BusinessIPv4Addr : String

/-- The struct `param.ClusterCreateParam` (cluster_params.go, lines 4-23); a Go
map is an association list. -/
structure ClusterCreateParam where
  EnableHA : Bool
  Name : String
  Nodes : List ClusterCreateNodeParam
  NetCombined : Bool
  Port : Int
  Password : String
  ManagementVipV4 : String
  BusinessVipV4 : String
  MaxPodPerNode : Int
  DataDisk : List (String × List String)
  ImageDataDisk : List (String × List String)
  PodCidrV4 : String
  ServiceCidrV4 : String
  DNSServer : String
  IstioEnabled : Bool
  K8sVersion : String
  IluvatarGpuModel : String
  IluvatarLicense : String

/-- The struct `param.NodeAddObjParam` (node_params.go, lines 43-51). -/
structure NodeAddObjParam where
  Name : String
  IP : String
  BusinessIp : String
  IP6 : String
  Port : Int
  Roles : List String
  GPUProduct : String

/-- The struct `param.NodeAddParam` (node_params.go, lines 34-41). -/
structure NodeAddParam where
  ClusterID : Int
  Nodes : List NodeAddObjParam
  ContainerRuntime : String
  DNSServer : String
  ImageDataDisk : List (String × List String)
  IluvatarLicense : String

/-- The struct `param.NodeAddParamOpenApi` (node_params.go, lines 29-32). -/
structure NodeAddParamOpenApi where
  NodeAddParam : NodeAddParam
  Password : String

/-- The struct `param.ExternalNetworkCreateParam` (external_network_params.go). -/
structure ExternalNetworkCreateParam where
  ClusterID : Int
  Description : String
  Gateway : String
  Iface : String
  Name : String
  Netmask : String

/-- The function `jsonutils.Marshal`, which is not among the sources, on the
values the operations below hand to it. -/
structure Marshaller where
  cluster : ClusterCreateParam → JSON
  node : NodeAddParamOpenApi → JSON
  externalNetwork : ExternalNetworkCreateParam → JSON
  /-- The JSON value of a nil `params`. -/
  nil : JSON

/-- The primitives of `EncryptByAccessKey` that belong to the standard library
and to the `openssl` package, as parameters. -/
structure Cipher where
  /-- The text `fmt.Sprintf("%x", md5.Sum([]byte(key)))`. -/
  md5Hex : String → String
  /-- The bytes `openssl.AesCBCEncrypt(src, key, iv, openssl.PKCS7_PADDING)`,
  nil when it fails: source, key, initialisation vector. -/
  aesCBCEncrypt : String → String → String → List Nat

/-- The function `EncryptByAccessKey` (aes.go, lines 113-122); the first
sixteen bytes of the hexadecimal digest are its first sixteen characters. The
two prints on standard output are left out. -/
def EncryptByAccessKey (std : Crypto) (cph : Cipher) (key value : String) : String :=
  let sumStr := cph.md5Hex key
  let iv := String.mk (sumStr.data.take 16)
  let cbcDecrypt := cph.aesCBCEncrypt value sumStr iv
  std.base64 cbcDecrypt

/-! ## The cluster and node operations -/

/-- The method `CreateCluster` (cluster_actions.go, lines 22-28): the
configuration after the two assignments, and the outcome of the call. The
argument `params` is a copy of the struct of the caller, and it is the copy that
gets the encrypted password. -/
def CreateCluster (env : Env) (m : Marshaller) (std : Crypto) (cph : Cipher) (cli : ZeConfig)
    (params : ClusterCreateParam) (async : Bool) (w : World) : ZeConfig × Outcome CallResult :=
  let params1 := { params with
    Password := EncryptByAccessKey std cph cli.accessKeySecret params.Password }
  let cli1 := { cli with retryInterval := 10 }
  let cli2 := { cli1 with retryTimes := 500 }
  (cli2, PostWithAsync env cli2 "/open-api/v1/cluster" "" "" "" (m.cluster params1) none async w)

/-- The method `DeleteCluster` (cluster_actions.go, lines 30-35). -/
def DeleteCluster (env : Env) (cli : ZeConfig) (clusterId : Int) (async : Bool) (w : World) :
    ZeConfig × Outcome CallResult :=
  let cli1 := { cli with retryInterval := 10 }
  let cli2 := { cli1 with retryTimes := 500 }
  (cli2, DeleteWithAsync env cli2 "/open-api/v1/cluster" (decimal clusterId) "" "" none async w)

/-- The method `RecreateCluster` (cluster_actions.go, lines 72-78). -/
def RecreateCluster (env : Env) (m : Marshaller) (cli : ZeConfig) (clusterId : Int)
    (async : Bool) (w : World) : ZeConfig × Outcome CallResult :=
  let cli1 := { cli with retryInterval := 10 }
  let cli2 := { cli1 with retryTimes := 500 }
  let path := "/open-api/v1/cluster/" ++ decimal clusterId ++ "/recreate"
  (cli2, PostWithAsync env cli2 path "" "" "" m.nil none async w)

/-- The method `AddNode` (node_actions.go, lines 19-25). -/
def AddNode (env : Env) (m : Marshaller) (std : Crypto) (cph : Cipher) (cli : ZeConfig)
    (clusterId : Int) (params : NodeAddParamOpenApi) (async : Bool) (w : World) :
    ZeConfig × Outcome CallResult :=
  let params1 := { params with
    Password := EncryptByAccessKey std cph cli.accessKeySecret params.Password }
  let path := "/open-api/v1/cluster/" ++ decimal clusterId ++ "/node"
  let cli1 := { cli with retryTimes := 300 }
  (cli1, PostWithAsync env cli1 path "" "" "" (m.node params1) none async w)

/-- The method `PostWithSpec` (edge_http_client.go, lines 190-193). -/
def PostWithSpec (env : Env) (cli : ZeConfig) (resource resourceId spec responseKey : String)
    (params : JSON) (retVal : Option JSON) (w : World) : Outcome CallResult :=
  PostWithAsync env cli resource resourceId spec responseKey params retVal false w

/-- The method `PostWithRespKey` (edge_http_client.go, lines 186-188). -/
def PostWithRespKey (env : Env) (cli : ZeConfig) (resource responseKey : String)
    (params : JSON) (retVal : Option JSON) (w : World) : Outcome CallResult :=
  PostWithSpec env cli resource "" "" responseKey params retVal w

/-- The method `Post` (edge_http_client.go, lines 182-184). -/
def Post (env : Env) (cli : ZeConfig) (resource : String) (params : JSON)
    (retVal : Option JSON) (w : World) : Outcome CallResult :=
  PostWithRespKey env cli resource "" params retVal w

/-- The method `Delete` (edge_http_client.go, lines 299-301). -/
def Delete (env : Env) (cli : ZeConfig) (resource resourceId deleteMode : String)
    (w : World) : Outcome CallResult :=
  DeleteWithSpec env cli resource resourceId "" ("deleteMode=" ++ deleteMode) none w

/-- The method `CreateExternalNetwork` (external_network_actions.go, lines
10-13); the variable `resp` starts as the empty text. It assigns to no field of
the configuration. -/
def CreateExternalNetwork (env : Env) (m : Marshaller) (cli : ZeConfig)
    (params : ExternalNetworkCreateParam) (w : World) : ZeConfig × Outcome CallResult :=
  (cli, Post env cli ("/open-api/v1/external-network/" ++ decimal params.ClusterID)
    (m.externalNetwork params) (some (JSON.str "")) w)

/-- The method `DeleteProject` (cloud_actions.go, lines 28-31). It assigns to no
field of the configuration. -/
def DeleteProject (env : Env) (cli : ZeConfig) (uuid : String) (w : World) :
    ZeConfig × Outcome CallResult :=
  (cli, Delete env cli "/open-api/v1/cloud/projects" uuid "" w)

/-! ## Observations for the later statements -/

/-- The text that `getURL` puts after host and port: the context path, the
resource and the segments of ID and spec. It is the `URL.Path` of a request for
that URL only when resource, ID and spec hold no percent escape, no `?` and no
`#`: parsing the URL decodes the escapes of the path and ends the path at `?`
or `#`. -/
def getURLPath (cli : ZeConfig) (resource resourceId spec : String) : String :=
  cli.contextPath ++
    (if resourceId.length > 0 then
      (if spec.length > 0 then resource ++ "/" ++ resourceId ++ "/" ++ spec
       else resource ++ "/" ++ resourceId)
     else resource)

/-- A request with the given method and URL path and nothing else. -/
def bareRequest (method urlPath : String) : HttpRequest :=
  { method := method, urlPath := urlPath, url := urlPath, header := [], body := none }

/-- The poll loop that a synchronous call enters after its request `ev` was
answered with the JSON body `r`, run with the budget `interval` and
`retryTimes`: `retryCallback` on the poll of `httpWait`, with the header of the
answer and the action ID of `r`, in the world right after the request. -/
def waitAfter (env : Env) (cli : ZeConfig) (ev : Event) (action requestURL : String)
    (params : JSON) (r : JSON) (interval retryTimes : Int) (w : World) : Outcome RetryRun :=
  retryCallback
    (httpWaitPoll env cli (env.jsonRequest (w.perform env ev).trace).header (extractActionID r))
    action requestURL (env.jsonString params) interval retryTimes (w.perform env ev)

/-- What a synchronous call without a target `retVal` returns after its wait. -/
def afterWait (r : JSON) (run : RetryRun) : CallResult :=
  { location := extractActionID r, err := run.err, retVal := none, world := run.world }

/-- The durations of the `time.Sleep` calls in a history, in order. -/
def sleepDurations : List Event → List Int
  | [] => []
  | Event.sleep d :: rest => d :: sleepDurations rest
  | _ :: rest => sleepDurations rest

/-- The POST request of `CreateCluster` for the payload `body`. -/
def createClusterEvent (cli : ZeConfig) (body : JSON) : Event :=
  Event.jsonRequest "POST"
    (getPostURL { cli with retryInterval := 10, retryTimes := 500 } "/open-api/v1/cluster" "" "")
    (some body)

/-- The DELETE request of `DeleteCluster`. -/
def deleteClusterEvent (cli : ZeConfig) (clusterId : Int) : Event :=
  Event.jsonRequest "DELETE"
    (getDeleteURL { cli with retryInterval := 10, retryTimes := 500 } "/open-api/v1/cluster"
      (decimal clusterId) "" "") none

/-- The POST request of `RecreateCluster`. -/
def recreateClusterEvent (m : Marshaller) (cli : ZeConfig) (clusterId : Int) : Event :=
  Event.jsonRequest "POST"
    (getPostURL { cli with retryInterval := 10, retryTimes := 500 }
      ("/open-api/v1/cluster/" ++ decimal clusterId ++ "/recreate") "" "")
    (some m.nil)

/-- The POST request of `AddNode` for the payload `body`. -/
def addNodeEvent (cli : ZeConfig) (clusterId : Int) (body : JSON) : Event :=
  Event.jsonRequest "POST"
    (getPostURL { cli with retryTimes := 300 }
      ("/open-api/v1/cluster/" ++ decimal clusterId ++ "/node") "" "")
    (some body)

/-- The DELETE request of `DeleteNode`. -/
def deleteNodeEvent (cli : ZeConfig) (clusterId : Int) (nodenames : List String) : Event :=
  Event.jsonRequest "DELETE" (deleteNodeURL cli clusterId nodenames) none

/-- The DELETE request of `DeleteProject`. -/
def deleteProjectEvent (cli : ZeConfig) (uuid : String) : Event :=
  Event.jsonRequest "DELETE"
    (getDeleteURL cli "/open-api/v1/cloud/projects" uuid "" ("deleteMode=" ++ "")) none

/-- The payload that `CreateCluster` hands to `jsonutils.Marshal`. -/
def clusterPayload (std : Crypto) (cph : Cipher) (cli : ZeConfig) (params : ClusterCreateParam) :
    ClusterCreateParam :=
  { params with Password := EncryptByAccessKey std cph cli.accessKeySecret params.Password }

/-- The payload that `AddNode` hands to `jsonutils.Marshal`. -/
def nodePayload (std : Crypto) (cph : Cipher) (cli : ZeConfig) (params : NodeAddParamOpenApi) :
    NodeAddParamOpenApi :=
  { params with Password := EncryptByAccessKey std cph cli.accessKeySecret params.Password }

/-! ## Sample values -/

/-- A marshaller that renders the password of a payload and nothing else. -/
def sampleMarshaller : Marshaller :=
  { cluster := fun p => JSON.dict [("password", JSON.str p.Password)]
    node := fun p => JSON.dict [("password", JSON.str p.Password)]
    externalNetwork := fun p => JSON.dict [("name", JSON.str p.Name)]
    nil := JSON.null }

/-- Stand-ins for the signer primitives of the right shape: the base64 text of
`n` bytes has `4 * ((n + 2) / 3)` characters. -/
def sampleCrypto : Crypto :=
  { hmacSha1 := fun _ _ => List.replicate 20 0
    base64 := fun bytes => String.mk (List.replicate (4 * ((bytes.length + 2) / 3)) 'A')
    formatRFC1123Z := fun _ => "Mon, 02 Jan 2006 15:04:05 -0700" }

/-- Stand-ins for the cipher primitives of the right shape: a digest of 32
hexadecimal digits, and a ciphertext that is the padded length of the source. -/
def sampleCipher : Cipher :=
  { md5Hex := fun _ => "d41d8cd98f00b204e9800998ecf8427e"
    aesCBCEncrypt := fun src _ _ => List.replicate (16 * (src.utf8ByteSize / 16 + 1)) 0 }

/-- A cluster of one node with the password `secret`. -/
def sampleCluster : ClusterCreateParam :=
  { EnableHA := false, Name := "cluster-1",
    Nodes := [{ Name := "k8s-node1", Roles := ["Master", "Worker"], GPUProduct := "",
                ManagementIPv4Addr := "172.31.13.100", BusinessIPv4Addr := "172.32.4.100" }],
    NetCombined := true, Port := 22, Password := "secret",
    ManagementVipV4 := "172.31.13.100", BusinessVipV4 := "172.32.4.100", MaxPodPerNode := 110,
    DataDisk := [], ImageDataDisk := [], PodCidrV4 := "10.233.64.0/18",
    ServiceCidrV4 := "10.233.0.0/18", DNSServer := "223.5.5.5", IstioEnabled := false,
    K8sVersion := "1.24", IluvatarGpuModel := "", IluvatarLicense := "" }

/-- One node to add, with the password `secret`. -/
def sampleNode : NodeAddParamOpenApi :=
  { NodeAddParam :=
      { ClusterID := 7,
        Nodes := [{ Name := "k8s-node2", IP := "192.168.30.100", BusinessIp := "", IP6 := "",
                    Port := 22, Roles := ["Worker"], GPUProduct := "" }],
        ContainerRuntime := "containerd", DNSServer := "223.5.5.5", ImageDataDisk := [],
        IluvatarLicense := "" },
    Password := "secret" }

/-- The POST request of `CreateExternalNetwork` for the payload `body`. -/
def createExternalNetworkEvent (cli : ZeConfig) (clusterID : Int) (body : JSON) : Event :=
  Event.jsonRequest "POST"
    (getPostURL cli ("/open-api/v1/external-network/" ++ decimal clusterID) "" "") (some body)

/-- The configuration of a client after a cluster operation. -/
def afterClusterOperation (cli : ZeConfig) : ZeConfig :=
  { cli with retryInterval := 10, retryTimes := 500 }

/-- The effects that can follow the request of a call: nothing, or the polls
and sleeps of one wait. -/
def IsWaitTail (env : Env) (cli : ZeConfig) (rest : List Event) : Prop :=
  rest = [] ∨ ∃ (header : Option Header) (actionID : String) (k : Nat),
    rest = waitHistory (pollEvent env cli header actionID)
      (secondsDuration cli.retryInterval) k ++ [pollEvent env cli header actionID]

/-- The number of `httputils.JSONRequest` calls in a history. -/
def countJSONRequests : List Event → Nat
  | [] => 0
  | Event.jsonRequest _ _ _ :: rest => countJSONRequests rest + 1
  | _ :: rest => countJSONRequests rest

/-- A backend on which every request fails with the error `failure`. -/
def failingEnv (failure : GoError) : Env :=
  { jsonRequest := fun _ =>
      { header := none, respHeader := none, resp := none, err := some failure }
    request := fun _ => Except.error failure
    parseJSONResponse := fun _ => { header := none, body := none, err := some failure }
    elapsed := fun _ => 0
    jsonString := fun _ => "{}"
    encodeValues := fun _ => "" }

/-- The error of a refused connection. -/
def connectionRefused : GoError :=
  GoError.plain "dial tcp 10.0.0.1:80: connect: connection refused"

/-- The error of a stalled response: the client timeout passed before the
response headers arrived. -/
def headerTimeout : GoError :=
  GoError.plain "context deadline exceeded (Client.Timeout exceeded while awaiting headers)"

/-! ## Sorting and filtering of a query -/

/-- The function `strings.HasPrefix(s, pre)`. -/
def stringsHasPrefix (s pre : String) : Bool :=
  startsWithChars pre.data s.data

/-- The function `NewQueryParam` (query_params.go, lines 16-20). -/
def NewQueryParam : QueryParam := { values := [] }

/-- The method `url.Values.Add`: the value joins the values of the key. -/
def Values.Add (v : Values) (key value : String) : Values :=
  if v.any (fun kv => kv.1 == key) then
    v.map (fun kv => if kv.1 = key then (kv.1, kv.2 ++ [value]) else kv)
  else v ++ [(key, [value])]

/-- The method `QueryParam.AddQ` (query_params.go, lines 24-31). -/
def QueryParam.AddQ (params : QueryParam) (q : String) : QueryParam :=
  if params.values.Get "q" = "" then { values := params.values.Set "q" q }
  else { values := params.values.Add "q" q }

/-- The method `QueryParam.Sort` (query_params.go, lines 73-85). The slice
`sort[1:]` is taken after the one-byte sign `+`, so it drops one character. -/
def QueryParam.Sort (params : QueryParam) (sort : String) : QueryParam :=
  if stringsHasPrefix sort "+" then
    { values := (params.values.Set "sortDirection" "asc").Set "sort"
        (String.mk (sort.data.drop 1)) }
  else if stringsHasPrefix sort "-" then
    { values := (params.values.Set "sortDirection" "desc").Set "sort" sort }
  else
    { values := (params.values.Set "sortDirection" "asc").Set "sort" sort }

/-- A backend that answers every GET with the plain list `L` under `content`,
the envelope of a list that was asked for without a count. -/
def plainListEnv (L : List JSON) : Env :=
  { jsonRequest := fun _ =>
      { header := none, respHeader := some [],
        resp := some (JSON.dict [("content", JSON.arr L)]), err := none }
    request := fun _ => Except.ok { statusCode := 200, header := [], body := "{}" }
    parseJSONResponse := fun resp =>
      { header := some resp.header, body := some (JSON.dict []), err := none }
    elapsed := fun _ => 0
    jsonString := fun _ => "{}"
    encodeValues := fun _ => "replyWithCount=false" }

/-! ## The padding of the cipher -/

/-- The function `PKCS5Padding` (aes.go, lines 73-77) on bytes as numbers below
256. The remainder `%` of Go truncates toward zero and panics on a zero
divisor, the conversion `byte(padding)` keeps the low eight bits, and
`bytes.Repeat` panics on a negative count. -/
def PKCS5Padding (ciphertext : List Nat) (blockSize : Int) : Outcome (List Nat) :=
  if blockSize = 0 then Outcome.panic "integer divide by zero"
  else
    let padding := blockSize - Int.tmod (ciphertext.length : Int) blockSize
    if padding < 0 then Outcome.panic "bytes: negative Repeat count"
    else Outcome.ret (ciphertext ++ List.replicate padding.toNat (padding % 256).toNat)

/-- The function `PKCS5UnPadding` (aes.go, lines 80-84): the last byte says how
many bytes to cut off the end. Indexing an empty slice panics, and so does a
slice bound below zero. -/
def PKCS5UnPadding (origData : List Nat) : Outcome (List Nat) :=
  match origData.getLast? with
  | none => Outcome.panic "index out of range [-1]"
  | some last =>
    let length : Int := origData.length
    let uLen : Int := last
    if length - uLen < 0 then Outcome.panic "slice bounds out of range"
    else Outcome.ret (origData.take (length - uLen).toNat)

/-! ## The cluster resource of the provider -/

/-- The fields of `view.ClusterView` (cluster_view.go, lines 7-35) that the
cluster resource reads. -/
structure ClusterView where
  ID : Int
  Status : String

/-- The fields of `view.ClusterDetailsView` that `readCluster` copies into the
state (cluster_resource.go, lines 505-510). -/
structure ClusterDetailsView where
  Status : String
  Version : String
  NodeCount : Int
  CreateTime : String
  PrometheusURL : String

/-- The calls of the cluster resource on its SDK client `r.client`. -/
inductive SdkCall where
  | PageCluster (params : QueryParam) : SdkCall
  | CreateCluster (params : ClusterCreateParam) (async : Bool) : SdkCall
  | RecreateCluster (clusterId : Int) (async : Bool) : SdkCall
  | GetClusterDetails (clusterId : Int) : SdkCall

/-- Whether an SDK call changes the backend: `CreateCluster` and
`RecreateCluster` send a POST (cluster_actions.go, lines 23-28 and 68-73),
`PageCluster` and `GetClusterDetails` a GET (lines 11-15 and 38-41). -/
def SdkCall.mutates : SdkCall → Bool
  | SdkCall.CreateCluster _ _ => true
  | SdkCall.RecreateCluster _ _ => true
  | SdkCall.PageCluster _ => false
  | SdkCall.GetClusterDetails _ => false

/-- The SDK client as the resource sees it: what a call returns is a function
of the calls made so far, the call itself being the last of them. -/
structure Sdk where
  /-- The return values `([]view.ClusterView, int, error)` of `PageCluster`. -/
  PageCluster : List SdkCall → List ClusterView × Int × Option GoError
  /-- The return values `(string, error)` of `CreateCluster`. -/
  CreateCluster : List SdkCall → String × Option GoError
  /-- The return values `(string, error)` of `RecreateCluster`. -/
  RecreateCluster : List SdkCall → String × Option GoError
  /-- The return values `(*view.ClusterDetailsView, error)` of `GetClusterDetails`. -/
  GetClusterDetails : List SdkCall → ClusterDetailsView × Option GoError

/-- An error diagnostic of the response: summary and detail. -/
structure Diagnostic where
  summary : String
  detail : String

/-- What a run of `ClusterResource.Create` leaves: the SDK calls it made, in
order, the error diagnostics of the response, the task ID it logged, and the
state it set, the ID of the cluster with the details read for it. -/
structure CreateRun where
  calls : List SdkCall
  diagnostics : List Diagnostic
  taskID : String
  state : Option (Int × ClusterDetailsView)

/-- The method `readCluster` (cluster_resource.go, lines 493-516) as `Create`
uses it, and the end of `Create` (lines 404-413): the details of the cluster
are read; an error is reported, otherwise the state is set. -/
def ClusterResource.readCluster (sdk : Sdk) (calls : List SdkCall) (taskID : String)
    (clusterID : Int) : CreateRun :=
  let calls1 := calls ++ [SdkCall.GetClusterDetails clusterID]
  let details := sdk.GetClusterDetails calls1
  match details.2 with
  | some err =>
    { calls := calls1,
      diagnostics := [{ summary := "Error reading cluster",
                        detail := "Unable to read cluster " ++ decimal clusterID
                          ++ ", got error: " ++ err.Error }],
      taskID := taskID, state := none }
  | none => { calls := calls1, diagnostics := [], taskID := taskID,
              state := some (clusterID, details.1) }

/-- The second half of `ClusterResource.Create` (cluster_resource.go, lines
373-413): the cluster is looked up by name once more, the first match gives the
ID, and the details are read. -/
def ClusterResource.adopt (sdk : Sdk) (name : String) (calls : List SdkCall)
    (taskID : String) : CreateRun :=
  let queryParam := NewQueryParam.AddQ ("name=" ++ name)
  let calls1 := calls ++ [SdkCall.PageCluster queryParam]
  let page := sdk.PageCluster calls1
  match page.2.2 with
  | some err =>
    { calls := calls1,
      diagnostics := [{ summary := "Error querying created cluster",
                        detail := "Unable to query cluster by name '" ++ name
                          ++ "', got error: " ++ err.Error }],
      taskID := taskID, state := none }
  | none =>
    match page.1 with
    | [] =>
      { calls := calls1,
        diagnostics := [{ summary := "Cluster not found",
                          detail := "Created cluster '" ++ name
                            ++ "' not found in query results" }],
        taskID := taskID, state := none }
    | first :: _ => ClusterResource.readCluster sdk calls1 taskID first.ID

/-- The method `ClusterResource.Create` (cluster_resource.go, lines 245-414).
The plan is decoded by the plugin framework (lines 246-338), which is not among
the sources: `plan` is what that part yields, the creation parameters, or the
error diagnostics at which `Create` returns before it calls the client. The
diagnostics that setting the state may add are left out. -/
def ClusterResource.Create (sdk : Sdk) (plan : Except (List Diagnostic) ClusterCreateParam) :
    CreateRun :=
  match plan with
  | Except.error diags => { calls := [], diagnostics := diags, taskID := "", state := none }
  | Except.ok createParam =>
    let name := createParam.Name
    let queryParam := NewQueryParam.AddQ ("name=" ++ name)
    let calls1 := [SdkCall.PageCluster queryParam]
    let page := sdk.PageCluster calls1
    match page.2.2 with
    | some err =>
      { calls := calls1,
        diagnostics := [{ summary := "Error querying created cluster",
                          detail := "Unable to query cluster by name '" ++ name
                            ++ "', got error: " ++ err.Error }],
        taskID := "", state := none }
    | none =>
      match page.1 with
      | first :: _ =>
        if first.Status = "Status_Cluster_Create_Failed" then
          let calls2 := calls1 ++ [SdkCall.RecreateCluster first.ID false]
          let recreated := sdk.RecreateCluster calls2
          match recreated.2 with
          | some err =>
            { calls := calls2,
              diagnostics := [{ summary := "Error recreate cluster",
                                detail := "Unable to create cluster, got error: "
                                  ++ err.Error }],
              taskID := recreated.1, state := none }
          | none => ClusterResource.adopt sdk name calls2 recreated.1
        else ClusterResource.adopt sdk name calls1 ""
      | [] =>
        let calls2 := calls1 ++ [SdkCall.CreateCluster createParam false]
        let created := sdk.CreateCluster calls2
        match created.2 with
        | some err =>
          { calls := calls2,
            diagnostics := [{ summary := "Error creating cluster",
                              detail := "Unable to create cluster, got error: "
                                ++ err.Error }],
            taskID := created.1, state := none }
        | none => ClusterResource.adopt sdk name calls2 created.1

/-- The name-filtered lookup that `ClusterResource.Create` starts with. -/
def lookupByName (name : String) : SdkCall :=
  SdkCall.PageCluster (NewQueryParam.AddQ ("name=" ++ name))

/-- The SDK calls of a run that change the backend, in order. -/
def mutatingCalls (calls : List SdkCall) : List SdkCall :=
  calls.filter SdkCall.mutates

/-! ## Observations for the revised statements -/

/-- A run of the poll loop of `fn`, started in `w`, that returns the error of
its last poll, and an error of the job-still-running class only with a counter
that stands at zero. -/
def RetryRun.ReturnsLastError (run : RetryRun) (fn : World → PollResult × World) (d : Int)
    (w : World) : Prop :=
  ∃ k : Nat, run.polls = k + 1 ∧ run.err = (pollAt fn d k w).err ∧
    (∀ e, run.err = some e → IsJobRunningError e = true → run.remaining = 0) ∧
    (run.remaining ≠ 0 → ∀ e, run.err = some e → IsJobRunningError e = false)

/-- A backend that accepts a POST with the response `resp` and refuses every
other request, and answers every poll of the result endpoint with the status
`status` and an empty JSON object. -/
def postOnlyEnv (resp : Option JSON) (status : Int) : Env :=
  { jsonRequest := fun history =>
      match history.getLast? with
      | some (Event.jsonRequest method _ _) =>
        if method = "POST" then { header := none, respHeader := some [], resp := resp, err := none }
        else { header := none, respHeader := none, resp := none, err := some connectionRefused }
      | _ => { header := none, respHeader := none, resp := none, err := some connectionRefused }
    request := fun _ => Except.ok { statusCode := status, header := [], body := "{}" }
    parseJSONResponse := fun resp =>
      { header := some resp.header, body := some (JSON.dict []), err := none }
    elapsed := fun _ => 0
    jsonString := fun _ => "{}"
    encodeValues := fun _ => "" }

/-! ## The wait on a client in memory -/

/-- The closure that `httpWait` hands to `retryCallback` (edge_http_client.go,
lines 404-421) on a client that lives in memory at the address `cli`: every
poll reaches the client through the pointer, to build the URL of the result
endpoint, and assigns to none of its fields. It gives the poll and the memory
it leaves. -/
def httpWaitPollAt (env : Env) (cli : ConfigRef) (header : Option Header) (actionID : String)
    (h : ConfigHeap) (w : World) : (PollResult × World) × ConfigHeap :=
  (httpWaitPoll env (h cli) header actionID w, h)

/-- The `for` loop of `retryCallback` (edge_http_client.go, lines 437-455) with
the memory carried along, `fuel` bounds the number of iterations. The counter
`retryTimes` is the parameter of the function, a variable of the call, and it
is this variable that `retryTimes--` takes down; the memory changes only as `fn`
changes it. -/
def retryLoopAt (fn : ConfigHeap → World → (PollResult × World) × ConfigHeap)
    (interval : Int) : Nat → Int → ConfigHeap → World → Outcome (RetryRun × ConfigHeap)
  | 0, _, _, _ => Outcome.outOfFuel
  | fuel + 1, retryTimes, h, w =>
    let r := fn h w
    match r.1.1.err with
    | none =>
      Outcome.ret ({ header := r.1.1.header, body := r.1.1.body, err := none, world := r.1.2,
                     polls := 1, sleeps := [], remaining := retryTimes }, r.2)
    | some err =>
      if retryTimes = 0 then
        Outcome.ret ({ header := r.1.1.header, body := r.1.1.body, err := some err,
                       world := r.1.2, polls := 1, sleeps := [], remaining := retryTimes }, r.2)
      else if !IsJobRunningError err then
        Outcome.ret ({ header := r.1.1.header, body := r.1.1.body, err := some err,
                       world := r.1.2, polls := 1, sleeps := [], remaining := retryTimes }, r.2)
      else
        (retryLoopAt fn interval fuel (wrapInt64 (retryTimes - 1)) r.2
            (r.1.2.sleep (secondsDuration interval))).map
          (fun p => (p.1.afterRetry (secondsDuration interval), p.2))

set_option linter.unusedVariables false in
/-- The function `retryCallback` (edge_http_client.go, lines 437-455) with the
memory carried along; `interval` and `retryTimes` are passed by value. -/
def retryCallbackAt (fn : ConfigHeap → World → (PollResult × World) × ConfigHeap)
    (action requestURL params : String) (interval retryTimes : Int) (h : ConfigHeap)
    (w : World) : Outcome (RetryRun × ConfigHeap) :=
  retryLoopAt fn interval retryFuel retryTimes h w

/-- The method `httpWait` (edge_http_client.go, lines 403-422) on a client in
memory: the arguments `cli.retryInterval` and `cli.retryTimes` of
`retryCallback` are read from the client once, at the call. -/
def httpWaitAt (env : Env) (cli : ConfigRef) (header : Option Header)
    (action requestURL : String) (params : JSON) (actionID : String) (h : ConfigHeap)
    (w : World) : Outcome (RetryRun × ConfigHeap) :=
  retryCallbackAt (httpWaitPollAt env cli header actionID) action requestURL
    (env.jsonString params) (h cli).retryInterval (h cli).retryTimes h w

/-! ## Facts about machine integers -/

theorem wrapInt64_of_isInt64 (x : Int) (h : IsInt64 x) : wrapInt64 x = x := by
  unfold IsInt64 int64Bound at h
  unfold wrapInt64 int64Bound
  omega

theorem wrapInt64_pred (c : Int) (h0 : 0 < c) (h1 : c < int64Bound) :
    wrapInt64 (c - 1) = c - 1 := by
  apply wrapInt64_of_isInt64
  unfold IsInt64 int64Bound at *
  omega

/-! ## One iteration of the poll loop -/

theorem retryLoop_stop (fn : World → PollResult × World) (interval : Int) (fuel : Nat)
    (retryTimes : Int) (w : World)
    (h : (fn w).1.stillRunning = false ∨ retryTimes = 0) :
    retryLoop fn interval (fuel + 1) retryTimes w =
      Outcome.ret { header := (fn w).1.header, body := (fn w).1.body, err := (fn w).1.err,
                    world := (fn w).2, polls := 1, sleeps := [], remaining := retryTimes } := by
  unfold retryLoop
  cases herr : (fn w).1.err with
  | none => simp [herr]
  | some e =>
    rcases h with h | h
    · have he : IsJobRunningError e = false := by
        simpa [PollResult.stillRunning, herr] using h
      simp [herr, he]
    · simp [herr, h]

theorem retryLoop_retry (fn : World → PollResult × World) (interval : Int) (fuel : Nat)
    (retryTimes : Int) (w : World)
    (h : (fn w).1.stillRunning = true) (h0 : retryTimes ≠ 0) :
    retryLoop fn interval (fuel + 1) retryTimes w =
      (retryLoop fn interval fuel (wrapInt64 (retryTimes - 1))
        ((fn w).2.sleep (secondsDuration interval))).map
        (RetryRun.afterRetry (secondsDuration interval)) := by
  conv_lhs => unfold retryLoop
  cases herr : (fn w).1.err with
  | none => simp [PollResult.stillRunning, herr] at h
  | some e =>
    have he : IsJobRunningError e = true := by
      simpa [PollResult.stillRunning, herr] using h
    simp [herr, he, h0]

/-- The loop ends with poll number `k` when the polls before it report a running
job, the budget covers them, and poll `k` either reports something else or finds
the budget used up. -/
theorem retryLoop_stops_at (fn : World → PollResult × World) (interval : Int) :
    ∀ (k fuel : Nat) (retryTimes : Int) (w : World), k < fuel → (k : Int) ≤ retryTimes →
      retryTimes < int64Bound →
      (∀ i, i < k → (pollAt fn (secondsDuration interval) i w).stillRunning = true) →
      ((pollAt fn (secondsDuration interval) k w).stillRunning = false ∨ retryTimes = k) →
      retryLoop fn interval fuel retryTimes w =
        Outcome.ret (stoppedRun fn (secondsDuration interval) k retryTimes w) := by
  intro k
  induction k with
  | zero =>
    intro fuel retryTimes w hf _ _ _ hstop
    obtain ⟨f, rfl⟩ : ∃ f, fuel = f + 1 := ⟨fuel - 1, by omega⟩
    rw [retryLoop_stop fn interval f retryTimes w (by simpa [pollAt, pollStart] using hstop)]
    simp [stoppedRun, pollAt, pollEnd, pollStart]
  | succ k ih =>
    intro fuel retryTimes w hf hk hr hrun hstop
    obtain ⟨f, rfl⟩ : ∃ f, fuel = f + 1 := ⟨fuel - 1, by omega⟩
    have h0 : (fn w).1.stillRunning = true := by
      simpa [pollAt, pollStart] using hrun 0 (Nat.succ_pos k)
    have hpos : 0 < retryTimes := by push_cast at hk; omega
    rw [retryLoop_retry fn interval f retryTimes w h0 (by omega), wrapInt64_pred _ hpos hr]
    rw [ih f (retryTimes - 1) ((fn w).2.sleep (secondsDuration interval)) (by omega)
      (by push_cast at hk; omega) (by omega)
      (fun i hi => by simpa [pollAt, pollStart] using hrun (i + 1) (by omega))
      (by
        rcases hstop with h | h
        · left; simpa [pollAt, pollStart] using h
        · right; push_cast at h; omega)]
    simp [Outcome.map, RetryRun.afterRetry, stoppedRun, pollAt, pollEnd, pollStart,
      List.replicate_succ]
    omega


/-! ## The poll of `httpWait` -/

theorem httpWaitPoll_world (env : Env) (cli : ZeConfig) (header : Option Header)
    (actionID : String) (w : World) :
    (httpWaitPoll env cli header actionID w).2 =
      w.perform env (pollEvent env cli header actionID) := by
  unfold httpWaitPoll pollEvent
  simp only []
  split
  · rfl
  · split
    · split <;> rfl
    · rfl

theorem httpWaitPoll_result (env : Env) (cli : ZeConfig) (header : Option Header)
    (actionID : String) (w : World) (resp : HttpResponse)
    (h : env.request (w.trace ++ [pollEvent env cli header actionID]) = Except.ok resp) :
    (resp.statusCode = 202 →
      (httpWaitPoll env cli header actionID w).1 =
        { header := none, body := none,
          err := some (GoError.jobRunning
            ("StatusCode: " ++ decimal resp.statusCode ++ ", Job Still Running")) }) ∧
    (resp.statusCode = 200 →
      (httpWaitPoll env cli header actionID w).1 = parseJSONResponseForHttpWait env resp) ∧
    (resp.statusCode ≠ 200 → resp.statusCode ≠ 202 →
      (httpWaitPoll env cli header actionID w).1 =
        { header := none, body := none,
          err := some (GoError.plain
            ("StatusCode: " ++ decimal resp.statusCode ++ ", Reponse: "
              ++ fmtJSON env (parseJSONResponseForHttpWait env resp).body
              ++ ", Error: " ++ fmtError (parseJSONResponseForHttpWait env resp).err)) }) := by
  have h1 : env.request (w.perform env (Event.request "GET" (waitLocation env cli actionID)
      header)).trace = Except.ok resp := by
    simpa [World.perform, pollEvent] using h
  refine ⟨fun hs => ?_, fun hs => ?_, fun hs hs2 => ?_⟩
  · simp [httpWaitPoll, h1, hs]
  · simp [httpWaitPoll, h1, hs]
  · simp [httpWaitPoll, h1, hs, hs2]

theorem pollStart_httpWaitPoll_trace (env : Env) (cli : ZeConfig) (header : Option Header)
    (actionID : String) (d : Int) :
    ∀ (i : Nat) (w : World),
      (pollStart (httpWaitPoll env cli header actionID) d i w).trace =
        w.trace ++ waitHistory (pollEvent env cli header actionID) d i := by
  intro i
  induction i with
  | zero => intro w; simp [pollStart, waitHistory]
  | succ i ih =>
    intro w
    rw [pollStart, ih, httpWaitPoll_world]
    simp [World.sleep, World.perform, waitHistory]

theorem pollEnd_httpWaitPoll_trace (env : Env) (cli : ZeConfig) (header : Option Header)
    (actionID : String) (d : Int) (i : Nat) (w : World) :
    (pollEnd (httpWaitPoll env cli header actionID) d i w).trace =
      w.trace ++ waitHistory (pollEvent env cli header actionID) d i
        ++ [pollEvent env cli header actionID] := by
  rw [pollEnd, httpWaitPoll_world]
  simp [World.perform, pollStart_httpWaitPoll_trace]

theorem pollAt_httpWaitPoll (env : Env) (cli : ZeConfig) (header : Option Header)
    (actionID : String) (w : World) (i : Nat) (resp : HttpResponse)
    (h : pollAnswer env cli header actionID w i = Except.ok resp) :
    env.request ((pollStart (httpWaitPoll env cli header actionID)
        (secondsDuration cli.retryInterval) i w).trace
      ++ [pollEvent env cli header actionID]) = Except.ok resp := by
  rw [pollStart_httpWaitPoll_trace]
  exact h

theorem pollAt_running_of_202 (env : Env) (cli : ZeConfig) (header : Option Header)
    (actionID : String) (w : World) (i : Nat)
    (h : ∃ resp, pollAnswer env cli header actionID w i = Except.ok resp ∧
      resp.statusCode = 202) :
    pollAt (httpWaitPoll env cli header actionID) (secondsDuration cli.retryInterval) i w =
      { header := none, body := none,
        err := some (GoError.jobRunning "StatusCode: 202, Job Still Running") } := by
  obtain ⟨resp, hresp, hs⟩ := h
  have h1 := (httpWaitPoll_result env cli header actionID _ resp
    (pollAt_httpWaitPoll env cli header actionID w i resp hresp)).1 hs
  rw [pollAt, h1, hs]
  rfl

theorem parseJSONResponseForHttpWait_ok (env : Env) (resp : HttpResponse)
    (h : (env.parseJSONResponse resp).err = none) :
    parseJSONResponseForHttpWait env resp =
      { header := (env.parseJSONResponse resp).header,
        body := (env.parseJSONResponse resp).body, err := none } := by
  simp [parseJSONResponseForHttpWait, h]

theorem secondsDuration_of_isInt64 (interval : Int) (h : IsInt64 (interval * timeSecond)) :
    secondsDuration interval = interval * timeSecond :=
  wrapInt64_of_isInt64 _ h

theorem sleepDurations_append (a b : List Event) :
    sleepDurations (a ++ b) = sleepDurations a ++ sleepDurations b := by
  induction a with
  | nil => rfl
  | cons e rest ih => cases e <;> simp [sleepDurations, ih]

theorem sleepDurations_waitHistory (method url : String) (header : Option Header)
    (d : Int) (k : Nat) :
    sleepDurations (waitHistory (Event.request method url header) d k)
      = List.replicate k d := by
  induction k with
  | zero => rfl
  | succ k ih => simp [waitHistory, sleepDurations, List.replicate_succ, ih]

/-! ## The poll loop on 202 and 200 answers -/

/-- C1, the claim as stated fails for an interval whose seconds do not fit the
64-bit duration: with an interval of 9223372037 seconds, one answer 202 and
then a 200, the wait makes its two polls, but the sleep between them is
`time.Duration(interval) * time.Second` wrapped to a negative number of
nanoseconds: it returns at once, the clock has not moved, and it did not last
9223372037 seconds. -/
theorem httpWait_sleep_wraps_for_large_interval :
    (httpWait (scriptedEnv (fun i => if i < 1 then 202 else 200)) (sampleConfig 9223372037 5)
        none "POST" "http://edge.local:80/ze/open-api/v1/cluster" (JSON.dict []) "a-1"
        World.initial).map
      (fun run => (run.polls, run.sleeps, run.world.now, run.err))
      = Outcome.ret (2, [-9223372036709551616], 0, none) := by
  decide

/-- C1 as amended: for an interval that is not negative and whose seconds fit
the 64-bit duration (`interval * 10^9 < 2^63`), when the result endpoint answers
202 to the first `k` polls and 200, with a response that parses, to the next
one, and the retry budget is at least `k`, `httpWait` (that is `retryCallback`
on its poll) returns after exactly `k + 1` polls and `k` sleeps, one sleep of
`interval` seconds (`interval * 10^9` nanoseconds) after each of the first `k`
polls, with the header and the body of the 200 response and a nil error. -/
theorem httpWait_polls_until_done (env : Env) (cli : ZeConfig) (header : Option Header)
    (action requestURL : String) (params : JSON) (actionID : String) (w : World)
    (k : Nat) (done : HttpResponse)
    (hi0 : 0 ≤ cli.retryInterval) (hi : cli.retryInterval * timeSecond < int64Bound)
    (hbudget : (k : Int) ≤ cli.retryTimes) (hint : cli.retryTimes < int64Bound)
    (hrun : ∀ i, i < k → ∃ resp, pollAnswer env cli header actionID w i = Except.ok resp ∧
      resp.statusCode = 202)
    (hdone : pollAnswer env cli header actionID w k = Except.ok done)
    (h200 : done.statusCode = 200)
    (hparse : (env.parseJSONResponse done).err = none) :
    ∃ run, httpWait env cli header action requestURL params actionID w = Outcome.ret run ∧
      run.polls = k + 1 ∧
      run.sleeps = List.replicate k (cli.retryInterval * timeSecond) ∧
      sleepDurations run.world.trace = sleepDurations w.trace
        ++ List.replicate k (cli.retryInterval * timeSecond) ∧
      run.world.trace = w.trace ++ waitHistory (pollEvent env cli header actionID)
        (cli.retryInterval * timeSecond) k ++ [pollEvent env cli header actionID] ∧
      run.header = (env.parseJSONResponse done).header ∧
      run.body = (env.parseJSONResponse done).body ∧
      run.err = none := by
  have hd : secondsDuration cli.retryInterval = cli.retryInterval * timeSecond := by
    apply secondsDuration_of_isInt64
    have hpos : 0 ≤ cli.retryInterval * timeSecond := Int.mul_nonneg hi0 (by decide)
    exact ⟨by unfold int64Bound; omega, hi⟩
  have hlast : pollAt (httpWaitPoll env cli header actionID)
      (secondsDuration cli.retryInterval) k w =
      { header := (env.parseJSONResponse done).header,
        body := (env.parseJSONResponse done).body, err := none } := by
    rw [pollAt, (httpWaitPoll_result env cli header actionID _ done
      (pollAt_httpWaitPoll env cli header actionID w k done hdone)).2.1 h200]
    exact parseJSONResponseForHttpWait_ok env done hparse
  have hfuel : k < retryFuel := by
    unfold retryFuel; unfold int64Bound at hint; omega
  rw [← hd]
  refine ⟨_, retryLoop_stops_at _ cli.retryInterval k retryFuel cli.retryTimes w hfuel hbudget
    hint (fun i hi => ?_) (Or.inl ?_), ?_⟩
  · rw [pollAt_running_of_202 env cli header actionID w i (hrun i hi)]; rfl
  · rw [hlast]; rfl
  · simp [stoppedRun, hlast, pollEnd_httpWaitPoll_trace, sleepDurations_append,
      sleepDurations_waitHistory, pollEvent, sleepDurations]

/-- Witness of the amended C1: a backend that answers 202 twice and then 200,
polled with a budget of five retries every two seconds. -/
theorem httpWait_polls_until_done_witness :
    ∃ run, httpWait (scriptedEnv (fun i => if i < 2 then 202 else 200)) (sampleConfig 2 5) none
        "POST" "http://edge.local:80/ze/open-api/v1/cluster" (JSON.dict []) "a-1"
        World.initial = Outcome.ret run ∧
      run.polls = 2 + 1 ∧
      run.sleeps = List.replicate 2 ((sampleConfig 2 5).retryInterval * timeSecond) ∧
      sleepDurations run.world.trace = sleepDurations World.initial.trace
        ++ List.replicate 2 ((sampleConfig 2 5).retryInterval * timeSecond) ∧
      run.world.trace = World.initial.trace ++
        waitHistory (pollEvent (scriptedEnv (fun i => if i < 2 then 202 else 200))
          (sampleConfig 2 5) none "a-1") ((sampleConfig 2 5).retryInterval * timeSecond) 2
        ++ [pollEvent (scriptedEnv (fun i => if i < 2 then 202 else 200))
          (sampleConfig 2 5) none "a-1"] ∧
      run.header = some [] ∧ run.body = some (JSON.dict []) ∧ run.err = none :=
  httpWait_polls_until_done (scriptedEnv (fun i => if i < 2 then 202 else 200))
    (sampleConfig 2 5) none "POST" "http://edge.local:80/ze/open-api/v1/cluster" (JSON.dict [])
    "a-1" World.initial 2 { statusCode := 200, header := [], body := "{}" }
    (by decide) (by decide) (by decide) (by decide)
    (fun i hi => by
      have hi2 : i = 0 ∨ i = 1 := by omega
      rcases hi2 with rfl | rfl
      · exact ⟨{ statusCode := 202, header := [], body := "{}" }, rfl, rfl⟩
      · exact ⟨{ statusCode := 202, header := [], body := "{}" }, rfl, rfl⟩)
    rfl rfl rfl

/-- C2, the claim as stated fails: with a budget of one retry and a backend that
always answers 202, the wait makes two polls, not one, before it returns the
job-still-running error. -/
theorem httpWait_budget_one_polls_twice :
    (httpWait (scriptedEnv (fun _ => 202)) (sampleConfig 2 1) none "POST"
        "http://edge.local:80/ze/open-api/v1/cluster" (JSON.dict []) "a-1" World.initial).map
      (fun run => (run.polls, run.err.map IsJobRunningError)) = Outcome.ret (2, some true) := by
  decide

/-- C2 as amended: when every poll is answered 202 and the budget is
`retryTimes = n`, the wait stops after exactly `n + 1` polls (the first attempt
and `n` retries) and `n` sleeps, and returns the job-still-running error of the
last poll. -/
theorem httpWait_gives_up_after_budget (env : Env) (cli : ZeConfig) (header : Option Header)
    (action requestURL : String) (params : JSON) (actionID : String) (w : World) (n : Nat)
    (hn : cli.retryTimes = n) (hint : cli.retryTimes < int64Bound)
    (hrun : ∀ i, i ≤ n → ∃ resp, pollAnswer env cli header actionID w i = Except.ok resp ∧
      resp.statusCode = 202) :
    ∃ run, httpWait env cli header action requestURL params actionID w = Outcome.ret run ∧
      run.polls = n + 1 ∧
      run.sleeps = List.replicate n (secondsDuration cli.retryInterval) ∧
      run.world.trace = w.trace ++ waitHistory (pollEvent env cli header actionID)
        (secondsDuration cli.retryInterval) n ++ [pollEvent env cli header actionID] ∧
      run.err = some (GoError.jobRunning "StatusCode: 202, Job Still Running") ∧
      run.err = (pollAt (httpWaitPoll env cli header actionID)
        (secondsDuration cli.retryInterval) n w).err ∧
      run.header = none ∧ run.body = none ∧ run.remaining = 0 := by
  have hfuel : n < retryFuel := by
    unfold retryFuel; unfold int64Bound at hint; omega
  refine ⟨_, retryLoop_stops_at _ cli.retryInterval n retryFuel cli.retryTimes w hfuel
    (by omega) hint (fun i hi => ?_) (Or.inr hn), ?_⟩
  · rw [pollAt_running_of_202 env cli header actionID w i (hrun i (by omega))]; rfl
  · simp [stoppedRun, pollAt_running_of_202 env cli header actionID w n (hrun n le_rfl),
      pollEnd_httpWaitPoll_trace, hn]

/-- Witness of the amended C2: a backend that always answers 202, polled with a
budget of three retries. -/
theorem httpWait_gives_up_after_budget_witness :
    ∃ run, httpWait (scriptedEnv (fun _ => 202)) (sampleConfig 2 3) none "DELETE"
        "http://edge.local:80/ze/open-api/v1/cluster/7" (JSON.dict []) "a-1"
        World.initial = Outcome.ret run ∧
      run.polls = 3 + 1 ∧
      run.sleeps = List.replicate 3 (secondsDuration (sampleConfig 2 3).retryInterval) ∧
      run.world.trace = World.initial.trace ++
        waitHistory (pollEvent (scriptedEnv (fun _ => 202)) (sampleConfig 2 3) none "a-1")
          (secondsDuration (sampleConfig 2 3).retryInterval) 3
        ++ [pollEvent (scriptedEnv (fun _ => 202)) (sampleConfig 2 3) none "a-1"] ∧
      run.err = some (GoError.jobRunning "StatusCode: 202, Job Still Running") ∧
      run.err = (pollAt (httpWaitPoll (scriptedEnv (fun _ => 202)) (sampleConfig 2 3) none "a-1")
        (secondsDuration (sampleConfig 2 3).retryInterval) 3 World.initial).err ∧
      run.header = none ∧ run.body = none ∧ run.remaining = 0 :=
  httpWait_gives_up_after_budget (scriptedEnv (fun _ => 202)) (sampleConfig 2 3) none "DELETE"
    "http://edge.local:80/ze/open-api/v1/cluster/7" (JSON.dict []) "a-1" World.initial 3
    rfl (by decide)
    (fun _ _ => ⟨{ statusCode := 202, header := [], body := "{}" }, rfl, rfl⟩)

/-! ## A terminal status on the first poll -/

theorem httpWait_terminal_first_poll (env : Env) (cli : ZeConfig) (header : Option Header)
    (action requestURL : String) (params : JSON) (actionID : String) (w : World)
    (resp : HttpResponse)
    (hans : pollAnswer env cli header actionID w 0 = Except.ok resp)
    (h200 : resp.statusCode ≠ 200) (h202 : resp.statusCode ≠ 202) :
    ∃ run e, httpWait env cli header action requestURL params actionID w = Outcome.ret run ∧
      run.polls = 1 ∧ run.sleeps = [] ∧
      run.world.trace = w.trace ++ [pollEvent env cli header actionID] ∧
      run.err = some e ∧ IsJobRunningError e = false := by
  have hpoll := (httpWaitPoll_result env cli header actionID w resp
    (by simpa [pollAnswer, waitHistory] using hans)).2.2 h200 h202
  have hret : httpWait env cli header action requestURL params actionID w = _ :=
    retryLoop_stop (httpWaitPoll env cli header actionID) cli.retryInterval
      18446744073709551616 cli.retryTimes w (Or.inl (by rw [hpoll]; rfl))
  refine ⟨_, GoError.plain ("StatusCode: " ++ decimal resp.statusCode ++ ", Reponse: "
      ++ fmtJSON env (parseJSONResponseForHttpWait env resp).body
      ++ ", Error: " ++ fmtError (parseJSONResponseForHttpWait env resp).err),
    hret, rfl, rfl, ?_, ?_, rfl⟩
  · simp [httpWaitPoll_world, World.perform]
  · simp [hpoll]

theorem httpDelete_sync_of_reply (env : Env) (cli : ZeConfig) (urlStr : String) (w : World)
    (r0 : JSON)
    (herr : (env.jsonRequest (w.perform env (Event.jsonRequest "DELETE" urlStr none)).trace).err
      = none)
    (hresp : (env.jsonRequest (w.perform env (Event.jsonRequest "DELETE" urlStr none)).trace).resp
      = some r0) :
    httpDelete env cli urlStr false w =
      (httpWait env cli
        (env.jsonRequest (w.perform env (Event.jsonRequest "DELETE" urlStr none)).trace).header
        "DELETE" urlStr (JSON.dict []) (extractActionID r0)
        (w.perform env (Event.jsonRequest "DELETE" urlStr none))).map
        (HttpResult.ofWait (extractActionID r0)) := by
  simp [httpDelete, herr, hresp]

/-- C3: when the first poll of the result endpoint is answered with a status
other than 200 and 202, `httpWait` returns after that one poll, without a sleep,
with an error that is not of the job-still-running class, whatever the retry
budget and the action ID; and `DeleteNode`, whose DELETE request was accepted
with a JSON body, returns that error. -/
theorem httpWait_terminal_status_is_immediate :
    (∀ (env : Env) (cli : ZeConfig) (header : Option Header) (action requestURL : String)
        (params : JSON) (actionID : String) (w : World) (resp : HttpResponse),
      pollAnswer env cli header actionID w 0 = Except.ok resp →
      resp.statusCode ≠ 200 → resp.statusCode ≠ 202 →
      ∃ run e, httpWait env cli header action requestURL params actionID w = Outcome.ret run ∧
        run.polls = 1 ∧ run.sleeps = [] ∧
        run.world.trace = w.trace ++ [pollEvent env cli header actionID] ∧
        run.err = some e ∧ IsJobRunningError e = false) ∧
    (∀ (env : Env) (cli : ZeConfig) (clusterId : Int) (nodenames : List String) (w : World)
        (r0 : JSON) (resp : HttpResponse),
      (env.jsonRequest (afterDeleteNodeRequest env cli clusterId nodenames w).trace).err = none →
      (env.jsonRequest (afterDeleteNodeRequest env cli clusterId nodenames w).trace).resp
        = some r0 →
      pollAnswer env { cli with retryTimes := 300 }
        (env.jsonRequest (afterDeleteNodeRequest env cli clusterId nodenames w).trace).header
        (extractActionID r0) (afterDeleteNodeRequest env cli clusterId nodenames w) 0
        = Except.ok resp →
      resp.statusCode ≠ 200 → resp.statusCode ≠ 202 →
      ∃ c e, DeleteNode env cli clusterId nodenames w
          = ({ cli with retryTimes := 300 }, Outcome.ret c) ∧
        c.err = some e ∧ IsJobRunningError e = false ∧
        c.world.trace = w.trace ++
          [Event.jsonRequest "DELETE" (deleteNodeURL cli clusterId nodenames) none,
           pollEvent env { cli with retryTimes := 300 }
            (env.jsonRequest (afterDeleteNodeRequest env cli clusterId nodenames w).trace).header
            (extractActionID r0)]) := by
  refine ⟨fun env cli header action requestURL params actionID w resp hans h200 h202 =>
    httpWait_terminal_first_poll env cli header action requestURL params actionID w resp
      hans h200 h202, ?_⟩
  intro env cli clusterId nodenames w r0 resp herr hresp hans h200 h202
  obtain ⟨run, e, hrun, -, -, htrace, hrunerr, hclass⟩ :=
    httpWait_terminal_first_poll env { cli with retryTimes := 300 } _ "DELETE"
      (deleteNodeURL cli clusterId nodenames) (JSON.dict []) _ _ resp hans h200 h202
  have hdel := httpDelete_sync_of_reply env { cli with retryTimes := 300 }
    (deleteNodeURL cli clusterId nodenames) w r0 herr hresp
  refine ⟨{ location := extractActionID r0, err := some e, retVal := none, world := run.world },
    e, ?_, rfl, hclass, ?_⟩
  · simp only [DeleteNode, DeleteWithSpec, DeleteWithAsync]
    have hurl : getDeleteURL { cli with retryTimes := 300 }
        ("/open-api/v1/cluster/" ++ decimal clusterId ++ "/node") "" ""
        ("nodenames=" ++ joinStrings nodenames) = deleteNodeURL cli clusterId nodenames := rfl
    rw [hurl, hdel]
    have hrun2 : httpWait env { cli with retryTimes := 300 }
        (env.jsonRequest (w.perform env
          (Event.jsonRequest "DELETE" (deleteNodeURL cli clusterId nodenames) none)).trace).header
        "DELETE" (deleteNodeURL cli clusterId nodenames) (JSON.dict []) (extractActionID r0)
        (w.perform env (Event.jsonRequest "DELETE" (deleteNodeURL cli clusterId nodenames) none))
        = Outcome.ret run := hrun
    rw [hrun2]
    simp [Outcome.map, Outcome.bind, finishDelete, HttpResult.ofWait, hrunerr]
  · simp [htrace, afterDeleteNodeRequest, World.perform]

/-- Witness of C3: the delete-node scenario, the result endpoint answers 500. -/
theorem httpWait_terminal_status_is_immediate_witness :
    ∃ c e, DeleteNode (scriptedEnv (fun _ => 500)) (sampleConfig 2 150) 7 ["node-1", "node-2"]
        World.initial = ({ sampleConfig 2 150 with retryTimes := 300 }, Outcome.ret c) ∧
      c.err = some e ∧ IsJobRunningError e = false ∧
      c.world.trace = World.initial.trace ++
        [Event.jsonRequest "DELETE"
          (deleteNodeURL (sampleConfig 2 150) 7 ["node-1", "node-2"]) none,
         pollEvent (scriptedEnv (fun _ => 500)) { sampleConfig 2 150 with retryTimes := 300 }
          none "a-1"] :=
  httpWait_terminal_status_is_immediate.2 (scriptedEnv (fun _ => 500)) (sampleConfig 2 150) 7
    ["node-1", "node-2"] World.initial
    (JSON.dict [("content", JSON.dict [("actionId", JSON.str "a-1")])])
    { statusCode := 500, header := [], body := "{}" } rfl rfl rfl (by decide) (by decide)

/-! ## The retry counter -/

theorem isInt64_wrapInt64 (x : Int) : IsInt64 (wrapInt64 x) := by
  unfold IsInt64 wrapInt64 int64Bound
  omega

theorem retryLoop_returns_of_fuel (fn : World → PollResult × World) (interval : Int) :
    ∀ (u fuel : Nat) (c : Int) (w : World), IsInt64 c →
      (c % 18446744073709551616).toNat = u → u < fuel →
      ∃ run, retryLoop fn interval fuel c w = Outcome.ret run := by
  intro u
  induction u with
  | zero =>
    intro fuel c w hc hu hf
    obtain ⟨f, rfl⟩ : ∃ f, fuel = f + 1 := ⟨fuel - 1, by omega⟩
    have h0 : c = 0 := by
      unfold IsInt64 int64Bound at hc
      omega
    exact ⟨_, retryLoop_stop fn interval f c w (Or.inr h0)⟩
  | succ u ih =>
    intro fuel c w hc hu hf
    obtain ⟨f, rfl⟩ : ∃ f, fuel = f + 1 := ⟨fuel - 1, by omega⟩
    by_cases hs : (fn w).1.stillRunning = true
    · have h0 : c ≠ 0 := by
        intro h
        rw [h] at hu
        simp at hu
      obtain ⟨run, hrun⟩ := ih f (wrapInt64 (c - 1))
        ((fn w).2.sleep (secondsDuration interval)) (isInt64_wrapInt64 _)
        (by
          unfold IsInt64 int64Bound at hc
          unfold wrapInt64 int64Bound
          omega)
        (by omega)
      exact ⟨_, by rw [retryLoop_retry fn interval f c w hs h0, hrun]; rfl⟩
    · exact ⟨_, retryLoop_stop fn interval f c w (Or.inl (by simpa using hs))⟩

/-- The loop of `retryCallback` ends for every start value of the counter: a
64-bit counter that is decremented passes through zero. -/
theorem retryCallback_returns (fn : World → PollResult × World)
    (action requestURL params : String) (interval retryTimes : Int) (w : World) :
    ∃ run, retryCallback fn action requestURL params interval retryTimes w = Outcome.ret run := by
  unfold retryCallback
  by_cases hs : (fn w).1.stillRunning = true ∧ retryTimes ≠ 0
  · have hlt : ((wrapInt64 (retryTimes - 1)) % 18446744073709551616).toNat
        < 18446744073709551616 := by
      omega
    obtain ⟨run, hrun⟩ := retryLoop_returns_of_fuel fn interval _ 18446744073709551616
      (wrapInt64 (retryTimes - 1)) ((fn w).2.sleep (secondsDuration interval))
      (isInt64_wrapInt64 _) rfl hlt
    exact ⟨_, by
      show retryLoop fn interval (18446744073709551616 + 1) retryTimes w = _
      rw [retryLoop_retry fn interval _ retryTimes w hs.1 hs.2, hrun]; rfl⟩
  · refine ⟨_, retryLoop_stop fn interval 18446744073709551616 retryTimes w ?_⟩
    by_cases h1 : (fn w).1.stillRunning = true
    · right
      by_contra h2
      exact hs ⟨h1, h2⟩
    · left
      simpa using h1

theorem retryLoop_running_error_remaining (fn : World → PollResult × World) (interval : Int) :
    ∀ (fuel : Nat) (retryTimes : Int) (w : World) (run : RetryRun),
      retryLoop fn interval fuel retryTimes w = Outcome.ret run →
      ∀ e, run.err = some e → IsJobRunningError e = true → run.remaining = 0 := by
  intro fuel
  induction fuel with
  | zero =>
    intro retryTimes w run h
    simp [retryLoop] at h
  | succ f ih =>
    intro retryTimes w run h e he hclass
    by_cases hs : (fn w).1.stillRunning = true ∧ retryTimes ≠ 0
    · rw [retryLoop_retry fn interval f retryTimes w hs.1 hs.2] at h
      cases hin : retryLoop fn interval f (wrapInt64 (retryTimes - 1))
          ((fn w).2.sleep (secondsDuration interval)) with
      | ret run1 =>
        rw [hin] at h
        simp only [Outcome.map, Outcome.ret.injEq] at h
        subst h
        exact ih _ _ run1 hin e he hclass
      | panic what => rw [hin] at h; simp [Outcome.map] at h
      | outOfFuel => rw [hin] at h; simp [Outcome.map] at h
    · have hstop : (fn w).1.stillRunning = false ∨ retryTimes = 0 := by
        by_cases h1 : (fn w).1.stillRunning = true
        · right
          by_contra h2
          exact hs ⟨h1, h2⟩
        · left
          simpa using h1
      rw [retryLoop_stop fn interval f retryTimes w hstop] at h
      simp only [Outcome.ret.injEq] at h
      subst h
      rcases hstop with h1 | h1
      · simp only at he
        simp [PollResult.stillRunning, he, hclass] at h1
      · exact h1

theorem exists_stop_index (fn : World → PollResult × World) (d : Int) :
    ∀ (n : Nat) (w : World), ∃ k, k ≤ n ∧
      (∀ i, i < k → (pollAt fn d i w).stillRunning = true) ∧
      ((pollAt fn d k w).stillRunning = false ∨ k = n) := by
  intro n
  induction n with
  | zero => intro w; exact ⟨0, le_rfl, fun i hi => absurd hi (Nat.not_lt_zero i), Or.inr rfl⟩
  | succ n ih =>
    intro w
    by_cases hs : (fn w).1.stillRunning = true
    · obtain ⟨k, hk, hrun, hstop⟩ := ih ((fn w).2.sleep d)
      refine ⟨k + 1, by omega, fun i hi => ?_, ?_⟩
      · cases i with
        | zero => exact hs
        | succ j => exact hrun j (by omega)
      · rcases hstop with h | h
        · exact Or.inl h
        · exact Or.inr (by omega)
    · exact ⟨0, Nat.zero_le _, fun i hi => absurd hi (Nat.not_lt_zero i),
        Or.inl (by simpa [pollAt, pollStart] using hs)⟩

/-- C4, the claim as stated fails for a negative budget: started at -1 the
counter stands at -2 after one retry, farther from zero than before. -/
theorem retryCallback_negative_budget_moves_away :
    (retryCallback pollRunningOnce "POST" "http://edge.local:80/ze/open-api/v1/cluster" "{}"
        2 (-1) World.initial).map
      (fun run => (run.polls, run.remaining)) = Outcome.ret (2, -2) := by
  decide

/-- C4 as amended: for a budget `retryTimes` that is not negative, whatever the
poll function answers, `retryCallback` returns after `k + 1` polls for some
`k ≤ retryTimes`; each of the `k` retries took one from the counter, which ends
at `retryTimes - k`, not below zero; what is returned is the error of the last
poll; and when that last poll still reports a running job the counter is at
zero: the loop has given up. -/
theorem retryCallback_counts_down (fn : World → PollResult × World)
    (action requestURL params : String) (interval retryTimes : Int) (w : World)
    (h0 : 0 ≤ retryTimes) (hint : retryTimes < int64Bound) :
    ∃ run k, retryCallback fn action requestURL params interval retryTimes w = Outcome.ret run ∧
      run.polls = k + 1 ∧ (k : Int) ≤ retryTimes ∧
      run.sleeps.length = k ∧
      run.remaining = retryTimes - k ∧ 0 ≤ run.remaining ∧
      (∀ i, i < k → (pollAt fn (secondsDuration interval) i w).stillRunning = true) ∧
      run.err = (pollAt fn (secondsDuration interval) k w).err ∧
      ((pollAt fn (secondsDuration interval) k w).stillRunning = true → run.remaining = 0) := by
  obtain ⟨k, hk, hrun, hstop⟩ :=
    exists_stop_index fn (secondsDuration interval) retryTimes.toNat w
  have hkle : (k : Int) ≤ retryTimes := by omega
  have hfuel : k < retryFuel := by
    unfold retryFuel; unfold int64Bound at hint; omega
  have hstop2 : (pollAt fn (secondsDuration interval) k w).stillRunning = false
      ∨ retryTimes = k := by
    rcases hstop with h | h
    · exact Or.inl h
    · exact Or.inr (by omega)
  refine ⟨_, k, retryLoop_stops_at fn interval k retryFuel retryTimes w hfuel hkle hint hrun
    hstop2, rfl, hkle, by simp [stoppedRun], rfl, ?_, hrun, rfl, fun hs => ?_⟩
  · show 0 ≤ retryTimes - (k : Int)
    omega
  · show retryTimes - (k : Int) = 0
    rcases hstop2 with h | h
    · rw [h] at hs; cases hs
    · omega

/-- Witness of the amended C4: a poll function that always reports a running
job, with a budget of three retries. -/
theorem retryCallback_counts_down_witness :
    ∃ run k, retryCallback pollAlwaysRunning "POST" "http://edge.local:80/ze/open-api/v1/cluster"
        "{}" 2 3 World.initial = Outcome.ret run ∧
      run.polls = k + 1 ∧ (k : Int) ≤ 3 ∧
      run.sleeps.length = k ∧
      run.remaining = 3 - k ∧ 0 ≤ run.remaining ∧
      (∀ i, i < k → (pollAt pollAlwaysRunning (secondsDuration 2) i World.initial).stillRunning
        = true) ∧
      run.err = (pollAt pollAlwaysRunning (secondsDuration 2) k World.initial).err ∧
      ((pollAt pollAlwaysRunning (secondsDuration 2) k World.initial).stillRunning = true →
        run.remaining = 0) :=
  retryCallback_counts_down pollAlwaysRunning "POST"
    "http://edge.local:80/ze/open-api/v1/cluster" "{}" 2 3 World.initial (by decide) (by decide)

/-- C8, the claim as stated fails: when the budget (here three retries) is used
up while the job is still running, the error that `retryCallback` returns is of
the job-still-running class. -/
theorem retryCallback_returns_running_error :
    (retryCallback pollAlwaysRunning "DELETE" "http://edge.local:80/ze/open-api/v1/cluster/7"
        "{}" 2 3 World.initial).map
      (fun run => (run.err.map IsJobRunningError, run.remaining)) = Outcome.ret (some true, 0) := by
  decide

/-! ## Asynchronous calls and the action ID -/

/-- C5: called with `async = true`, each of `PostWithAsync`, `PutWithAsync` and
`DeleteWithAsync` whose request was answered without an error returns the
action ID of that answer (the empty text when the answer has no JSON body) and a
nil error, leaves `retVal` as it was, and has sent nothing but the one request:
no poll of the result endpoint, no sleep. -/
theorem async_calls_return_without_wait (env : Env) (cli : ZeConfig)
    (resource resourceId spec responseKey paramsStr : String) (params : JSON)
    (retVal : Option JSON) (w : World) :
    (∀ reply, reply = env.jsonRequest (w.trace ++
        [Event.jsonRequest "POST" (getPostURL cli resource resourceId spec) (some params)]) →
      reply.err = none →
      ∃ r, PostWithAsync env cli resource resourceId spec responseKey params retVal true w
          = Outcome.ret r ∧
        r.location = (match reply.resp with
          | some resp => extractActionID resp
          | none => "") ∧
        r.err = none ∧ r.retVal = retVal ∧
        r.world.trace = w.trace ++
          [Event.jsonRequest "POST" (getPostURL cli resource resourceId spec) (some params)]) ∧
    (∀ reply, reply = env.jsonRequest (w.trace ++
        [Event.jsonRequest "PUT" (getPutURL cli resource resourceId spec) (some params)]) →
      reply.err = none →
      ∃ r, PutWithAsync env cli resource resourceId spec responseKey params retVal true w
          = Outcome.ret r ∧
        r.location = (match reply.resp with
          | some resp => extractActionID resp
          | none => "") ∧
        r.err = none ∧ r.retVal = retVal ∧
        r.world.trace = w.trace ++
          [Event.jsonRequest "PUT" (getPutURL cli resource resourceId spec) (some params)]) ∧
    (∀ reply, reply = env.jsonRequest (w.trace ++
        [Event.jsonRequest "DELETE" (getDeleteURL cli resource resourceId spec paramsStr)
          none]) →
      reply.err = none →
      ∃ r, DeleteWithAsync env cli resource resourceId spec paramsStr retVal true w
          = Outcome.ret r ∧
        r.location = (match reply.resp with
          | some resp => extractActionID resp
          | none => "") ∧
        r.err = none ∧ r.retVal = retVal ∧
        r.world.trace = w.trace ++
          [Event.jsonRequest "DELETE" (getDeleteURL cli resource resourceId spec paramsStr)
            none]) := by
  refine ⟨?_, ?_, ?_⟩
  · intro reply hreply herr
    subst hreply
    cases hresp : (env.jsonRequest (w.trace ++
        [Event.jsonRequest "POST" (getPostURL cli resource resourceId spec) (some params)])).resp
      <;> simp [PostWithAsync, httpPost, World.perform, herr, hresp, Outcome.bind, finishCall]
  · intro reply hreply herr
    subst hreply
    cases hresp : (env.jsonRequest (w.trace ++
        [Event.jsonRequest "PUT" (getPutURL cli resource resourceId spec) (some params)])).resp
      <;> simp [PutWithAsync, httpPut, World.perform, herr, hresp, Outcome.bind, finishCall]
  · intro reply hreply herr
    subst hreply
    cases hresp : (env.jsonRequest (w.trace ++
        [Event.jsonRequest "DELETE" (getDeleteURL cli resource resourceId spec paramsStr)
          none])).resp
      <;> simp [DeleteWithAsync, httpDelete, World.perform, herr, hresp, Outcome.bind,
        finishDelete]

/-- Witness of C5: an asynchronous create on the sample backend returns the
action ID `a-1` at once. -/
theorem async_calls_return_without_wait_witness :
    ∃ r, PostWithAsync (scriptedEnv (fun _ => 202)) (sampleConfig 2 150) "/open-api/v1/cluster"
        "" "" "" (JSON.dict []) none true World.initial = Outcome.ret r ∧
      r.location = "a-1" ∧ r.err = none ∧ r.retVal = none ∧
      r.world.trace = World.initial.trace ++
        [Event.jsonRequest "POST"
          (getPostURL (sampleConfig 2 150) "/open-api/v1/cluster" "" "") (some (JSON.dict []))] :=
  (async_calls_return_without_wait (scriptedEnv (fun _ => 202)) (sampleConfig 2 150)
    "/open-api/v1/cluster" "" "" "" "" (JSON.dict []) none World.initial).1 _ rfl rfl

theorem extractActionID_of_field (resp : JSON) (fields cfields : List (String × JSON))
    (X : String) (hresp : resp = JSON.dict fields)
    (hcontent : lookupField "content" fields = some (JSON.dict cfields))
    (hid : lookupField "actionId" cfields = some (JSON.str X)) :
    extractActionID resp = X := by
  subst hresp
  simp [extractActionID, JSON.Get, JSON.Contains, JSON.GetString, JSON.GetPath, hcontent, hid]

theorem extractActionID_of_absent (resp : JSON)
    (h : (∃ e, resp.Get "content" = Except.error e) ∨
      (∃ c, resp.Get "content" = Except.ok c ∧ c.Contains "actionId" = false)) :
    extractActionID resp = "" := by
  rcases h with ⟨e, he⟩ | ⟨c, hc, hno⟩
  · simp [extractActionID, he]
  · simp [extractActionID, hc, hno]

theorem httpPost_of_reply (env : Env) (cli : ZeConfig) (urlStr : String) (params : JSON)
    (async : Bool) (w : World) (r : JSON)
    (herr : (env.jsonRequest (w.perform env
      (Event.jsonRequest "POST" urlStr (some params))).trace).err = none)
    (hresp : (env.jsonRequest (w.perform env
      (Event.jsonRequest "POST" urlStr (some params))).trace).resp = some r) :
    httpPost env cli urlStr params async w =
      if async then
        Outcome.ret { actionID := extractActionID r,
                      header := (env.jsonRequest (w.perform env
                        (Event.jsonRequest "POST" urlStr (some params))).trace).respHeader,
                      body := some r, err := none,
                      world := w.perform env (Event.jsonRequest "POST" urlStr (some params)) }
      else
        (httpWait env cli
          (env.jsonRequest (w.perform env
            (Event.jsonRequest "POST" urlStr (some params))).trace).header
          "POST" urlStr params (extractActionID r)
          (w.perform env (Event.jsonRequest "POST" urlStr (some params)))).map
          (HttpResult.ofWait (extractActionID r)) := by
  cases async <;> simp [httpPost, herr, hresp]

theorem httpPut_of_reply (env : Env) (cli : ZeConfig) (urlStr : String) (params : JSON)
    (async : Bool) (w : World) (r : JSON)
    (herr : (env.jsonRequest (w.perform env
      (Event.jsonRequest "PUT" urlStr (some params))).trace).err = none)
    (hresp : (env.jsonRequest (w.perform env
      (Event.jsonRequest "PUT" urlStr (some params))).trace).resp = some r) :
    httpPut env cli urlStr params async w =
      if async then
        Outcome.ret { actionID := extractActionID r,
                      header := (env.jsonRequest (w.perform env
                        (Event.jsonRequest "PUT" urlStr (some params))).trace).respHeader,
                      body := some r, err := none,
                      world := w.perform env (Event.jsonRequest "PUT" urlStr (some params)) }
      else
        (httpWait env cli
          (env.jsonRequest (w.perform env
            (Event.jsonRequest "PUT" urlStr (some params))).trace).header
          "PUT" urlStr params (extractActionID r)
          (w.perform env (Event.jsonRequest "PUT" urlStr (some params)))).map
          (HttpResult.ofWait (extractActionID r)) := by
  cases async <;> simp [httpPut, herr, hresp]

theorem httpDelete_of_reply (env : Env) (cli : ZeConfig) (urlStr : String)
    (async : Bool) (w : World) (r : JSON)
    (herr : (env.jsonRequest (w.perform env
      (Event.jsonRequest "DELETE" urlStr none)).trace).err = none)
    (hresp : (env.jsonRequest (w.perform env
      (Event.jsonRequest "DELETE" urlStr none)).trace).resp = some r) :
    httpDelete env cli urlStr async w =
      if async then
        Outcome.ret { actionID := extractActionID r,
                      header := (env.jsonRequest (w.perform env
                        (Event.jsonRequest "DELETE" urlStr none)).trace).respHeader,
                      body := some r, err := none,
                      world := w.perform env (Event.jsonRequest "DELETE" urlStr none) }
      else
        (httpWait env cli
          (env.jsonRequest (w.perform env (Event.jsonRequest "DELETE" urlStr none)).trace).header
          "DELETE" urlStr (JSON.dict []) (extractActionID r)
          (w.perform env (Event.jsonRequest "DELETE" urlStr none))).map
          (HttpResult.ofWait (extractActionID r)) := by
  cases async <;> simp [httpDelete, herr, hresp]

/-- C6: when the `content` object of a response envelope holds the string field
`actionId` = `X`, the action ID that `httpPost`, `httpPut` and `httpDelete`
extract is `X`: it is the ID they return in asynchronous mode and the ID they
hand to `httpWait` (and return after the wait) in synchronous mode. When the
envelope has no `content` key, or `content` has no `actionId` field, that ID is
the empty text. -/
theorem actionID_round_trip (env : Env) (cli : ZeConfig) (urlStr : String) (params : JSON)
    (w : World) (r : JSON) (X : String)
    (hcase :
      (∃ fields cfields, r = JSON.dict fields ∧
        lookupField "content" fields = some (JSON.dict cfields) ∧
        lookupField "actionId" cfields = some (JSON.str X)) ∨
      (X = "" ∧ ((∃ e, r.Get "content" = Except.error e) ∨
        (∃ c, r.Get "content" = Except.ok c ∧ c.Contains "actionId" = false)))) :
    extractActionID r = X ∧
    (∀ async : Bool,
      (env.jsonRequest (w.perform env
        (Event.jsonRequest "POST" urlStr (some params))).trace).err = none →
      (env.jsonRequest (w.perform env
        (Event.jsonRequest "POST" urlStr (some params))).trace).resp = some r →
      httpPost env cli urlStr params async w =
        if async then
          Outcome.ret { actionID := X,
                        header := (env.jsonRequest (w.perform env
                          (Event.jsonRequest "POST" urlStr (some params))).trace).respHeader,
                        body := some r, err := none,
                        world := w.perform env (Event.jsonRequest "POST" urlStr (some params)) }
        else
          (httpWait env cli
            (env.jsonRequest (w.perform env
              (Event.jsonRequest "POST" urlStr (some params))).trace).header
            "POST" urlStr params X
            (w.perform env (Event.jsonRequest "POST" urlStr (some params)))).map
            (HttpResult.ofWait X)) ∧
    (∀ async : Bool,
      (env.jsonRequest (w.perform env
        (Event.jsonRequest "PUT" urlStr (some params))).trace).err = none →
      (env.jsonRequest (w.perform env
        (Event.jsonRequest "PUT" urlStr (some params))).trace).resp = some r →
      httpPut env cli urlStr params async w =
        if async then
          Outcome.ret { actionID := X,
                        header := (env.jsonRequest (w.perform env
                          (Event.jsonRequest "PUT" urlStr (some params))).trace).respHeader,
                        body := some r, err := none,
                        world := w.perform env (Event.jsonRequest "PUT" urlStr (some params)) }
        else
          (httpWait env cli
            (env.jsonRequest (w.perform env
              (Event.jsonRequest "PUT" urlStr (some params))).trace).header
            "PUT" urlStr params X
            (w.perform env (Event.jsonRequest "PUT" urlStr (some params)))).map
            (HttpResult.ofWait X)) ∧
    (∀ async : Bool,
      (env.jsonRequest (w.perform env
        (Event.jsonRequest "DELETE" urlStr none)).trace).err = none →
      (env.jsonRequest (w.perform env
        (Event.jsonRequest "DELETE" urlStr none)).trace).resp = some r →
      httpDelete env cli urlStr async w =
        if async then
          Outcome.ret { actionID := X,
                        header := (env.jsonRequest (w.perform env
                          (Event.jsonRequest "DELETE" urlStr none)).trace).respHeader,
                        body := some r, err := none,
                        world := w.perform env (Event.jsonRequest "DELETE" urlStr none) }
        else
          (httpWait env cli
            (env.jsonRequest (w.perform env
              (Event.jsonRequest "DELETE" urlStr none)).trace).header
            "DELETE" urlStr (JSON.dict []) X
            (w.perform env (Event.jsonRequest "DELETE" urlStr none))).map
            (HttpResult.ofWait X)) := by
  have hX : extractActionID r = X := by
    rcases hcase with ⟨fields, cfields, hr, hc, hid⟩ | ⟨hX, habsent⟩
    · exact extractActionID_of_field r fields cfields X hr hc hid
    · rw [hX]; exact extractActionID_of_absent r habsent
  refine ⟨hX, fun async herr hresp => ?_, fun async herr hresp => ?_,
    fun async herr hresp => ?_⟩
  · rw [httpPost_of_reply env cli urlStr params async w r herr hresp, hX]
  · rw [httpPut_of_reply env cli urlStr params async w r herr hresp, hX]
  · rw [httpDelete_of_reply env cli urlStr async w r herr hresp, hX]

/-- Witness of C6: the envelope of the sample backend, whose `content.actionId`
is `a-1`. -/
theorem actionID_round_trip_witness :
    extractActionID (JSON.dict [("content", JSON.dict [("actionId", JSON.str "a-1")])]) = "a-1" :=
  (actionID_round_trip (scriptedEnv (fun _ => 200)) (sampleConfig 2 150)
    "http://edge.local:80/ze/open-api/v1/cluster" (JSON.dict []) World.initial
    (JSON.dict [("content", JSON.dict [("actionId", JSON.str "a-1")])]) "a-1"
    (Or.inl ⟨_, _, rfl, rfl, rfl⟩)).1

/-! ## Decimal texts -/

theorem digitValue_digitChar (n : Nat) : digitValue (digitChar n) = some (n % 10) := by
  have h : ∀ m, m < 10 → digitValue (Char.ofNat (48 + m)) = some m := by decide
  exact h (n % 10) (Nat.mod_lt n (by decide))

theorem digitChar_ne_sign (n : Nat) : digitChar n ≠ '-' ∧ digitChar n ≠ '+' := by
  have h : ∀ m, m < 10 → Char.ofNat (48 + m) ≠ '-' ∧ Char.ofNat (48 + m) ≠ '+' := by decide
  exact h (n % 10) (Nat.mod_lt n (by decide))

theorem parseDigits_decimalDigits :
    ∀ (fuel n : Nat) (acc : List Char), n < fuel →
      parseDigits (decimalDigits fuel n acc) 0 = parseDigits acc n := by
  intro fuel
  induction fuel with
  | zero => intro n acc h; omega
  | succ f ih =>
    intro n acc h
    unfold decimalDigits
    by_cases hn : n < 10
    · simp only [hn, if_true]
      rw [parseDigits, digitValue_digitChar]
      simp [Nat.mod_eq_of_lt hn]
    · simp only [hn, if_false]
      rw [ih (n / 10) _ (by omega), parseDigits, digitValue_digitChar]
      have : n / 10 * 10 + n % 10 = n := by omega
      simp [this]

theorem decimalDigits_head :
    ∀ (fuel n : Nat) (acc : List Char),
      (0 < fuel ∨ ∃ d rest, acc = digitChar d :: rest) →
      ∃ d rest, decimalDigits fuel n acc = digitChar d :: rest := by
  intro fuel
  induction fuel with
  | zero =>
    intro n acc h
    rcases h with h | h
    · omega
    · simpa [decimalDigits] using h
  | succ f ih =>
    intro n acc _
    unfold decimalDigits
    by_cases hn : n < 10
    · simp only [hn, if_true]
      exact ⟨n, acc, rfl⟩
    · simp only [hn, if_false]
      exact ih (n / 10) _ (Or.inr ⟨n, acc, rfl⟩)

theorem parseDecimal_digits (d : Nat) (rest : List Char) :
    parseDecimal (digitChar d :: rest) =
      (parseDigits (digitChar d :: rest) 0).map (fun n => (n : Int)) := by
  have h := digitChar_ne_sign d
  unfold parseDecimal
  split
  · rename_i heq; cases heq
  · rename_i heq
    simp only [List.cons.injEq] at heq
    exact absurd heq.1 h.1
  · rename_i heq
    simp only [List.cons.injEq] at heq
    exact absurd heq.1 h.2
  · rename_i c cs _ _ heq
    simp only [List.cons.injEq] at heq
    rw [← heq.1, ← heq.2]

theorem parseDecimal_decimal (n : Int) : parseDecimal (decimal n).data = some n := by
  cases n with
  | ofNat m =>
    obtain ⟨d, rest, hd⟩ := decimalDigits_head (m + 1) m [] (Or.inl (Nat.succ_pos m))
    have hp := parseDigits_decimalDigits (m + 1) m [] (Nat.lt_succ_self m)
    simp only [decimal]
    rw [hd, parseDecimal_digits, ← hd, hp]
    simp [parseDigits]
  | negSucc m =>
    obtain ⟨d, rest, hd⟩ := decimalDigits_head (m + 2) (m + 1) [] (Or.inl (by omega))
    have hp := parseDigits_decimalDigits (m + 2) (m + 1) [] (by omega)
    simp only [decimal, parseDecimal]
    rw [hp]
    simp [hd, parseDigits, Int.negSucc_eq]

/-- The round trip of `%d` and `strconv.Atoi` on the values of a Go `int`. -/
theorem strconvAtoi_decimal (n : Int) (h : IsInt64 n) : strconvAtoi (decimal n) = (n, none) := by
  unfold IsInt64 at h
  unfold strconvAtoi
  rw [parseDecimal_decimal]
  have h1 : ¬ int64Bound ≤ n := by omega
  have h2 : ¬ n < -int64Bound := by omega
  simp [h1, h2]

/-! ## Pages -/

theorem Values.Get_Set (v : Values) (key value : String) :
    Values.Get (Values.Set v key value) key = value := by
  unfold Values.Set
  induction v with
  | nil => simp [Values.Get]
  | cons kv rest ih =>
    obtain ⟨k, vs⟩ := kv
    by_cases hk : k = key
    · have hb : (k != key) = false := by simp [hk]
      simpa [List.filter_cons, hb] using ih
    · have hb : (k != key) = true := by simp [hk]
      simpa [List.filter_cons, hb, Values.Get, hk] using ih

/-- C7: when the GET request of `Page` is answered with the envelope
`{"content": {"result": L, "totalCount": n}}`, `n` a Go `int`, `Page` returns
the total `n` and a nil error, and what it deserialises into `retVal` is the
list `L`, unchanged and in order; the one GET request is all it sends. -/
theorem Page_round_trip (env : Env) (cli : ZeConfig) (resource : String) (qp : QueryParam)
    (retVal : JSON) (w : World) (L : List JSON) (n : Int) (hn : IsInt64 n)
    (herr : (env.jsonRequest (w.trace ++ [pageEvent env cli resource qp])).err = none)
    (hresp : (env.jsonRequest (w.trace ++ [pageEvent env cli resource qp])).resp
      = some (pageEnvelope L n)) :
    ∃ r, Page env cli resource (some qp) retVal w = Outcome.ret r ∧
      r.total = n ∧ r.err = none ∧ r.retVal = JSON.arr L ∧
      r.world.trace = w.trace ++ [pageEvent env cli resource qp] := by
  have hget : httpGet env (getGetURL env cli resource "" "" (qp.ReplyWithCount true).values) w =
      Outcome.ret { header := (env.jsonRequest
                      (w.trace ++ [pageEvent env cli resource qp])).respHeader,
                    body := some (pageEnvelope L n), err := none,
                    world := w.perform env (pageEvent env cli resource qp) } := by
    have hlt : (0 : Int) < 5 * timeMinute := by decide
    unfold pageEvent at herr hresp ⊢
    simp [httpGet, httpGetFuel, httpGetLoop, World.perform, herr, hresp, hlt]
  have hflag : ((qp.ReplyWithCount true).values.Get "replyWithCount").length > 0 := by
    simp only [QueryParam.ReplyWithCount, Values.Get_Set]
    decide
  have htotal : (pageEnvelope L n).GetString ["content", "totalCount"]
      = Except.ok (decimal n) := by
    simp [pageEnvelope, JSON.GetString, JSON.GetPath, JSON.Get, lookupField]
  have hlist : (pageEnvelope L n).Unmarshal retVal ["content", "result"]
      = (JSON.arr L, none) := by
    simp [pageEnvelope, JSON.Unmarshal, JSON.GetPath, JSON.Get, lookupField]
  refine ⟨{ total := n, err := none, retVal := JSON.arr L,
            params := some { values :=
              (qp.ReplyWithCount true).values.Set "totalCount" (decimal n) },
            world := w.perform env (pageEvent env cli resource qp) }, ?_, rfl, rfl, rfl, ?_⟩
  · simp only [Page, PageWithRespKey, ListWithRespKey, ListWithSpec, hget, Outcome.bind,
      finishList]
    have hkey : ("content" : String).length ≠ 0 := by decide
    simp [hkey, hflag, htotal, hlist, Outcome.map, finishPage, Values.Get_Set,
      strconvAtoi_decimal n hn]
  · simp [World.perform]

/-- Witness of C7: a page of two clusters out of 42. -/
theorem Page_round_trip_witness :
    ∃ r, Page (pageEnv [JSON.str "cluster-a", JSON.str "cluster-b"] 42) (sampleConfig 2 150)
        "/open-api/v1/cluster" (some { values := [] }) JSON.null World.initial = Outcome.ret r ∧
      r.total = 42 ∧ r.err = none ∧
      r.retVal = JSON.arr [JSON.str "cluster-a", JSON.str "cluster-b"] ∧
      r.world.trace = World.initial.trace ++
        [pageEvent (pageEnv [JSON.str "cluster-a", JSON.str "cluster-b"] 42) (sampleConfig 2 150)
          "/open-api/v1/cluster" { values := [] }] :=
  Page_round_trip (pageEnv [JSON.str "cluster-a", JSON.str "cluster-b"] 42) (sampleConfig 2 150)
    "/open-api/v1/cluster" { values := [] } JSON.null World.initial
    [JSON.str "cluster-a", JSON.str "cluster-b"] 42 (by decide) rfl rfl

/-! ## The request signer -/

theorem headerGet_headerSet_same (h : Header) (key value : String) :
    headerGet (headerSet h key value) key = value := by
  unfold headerSet
  induction h with
  | nil => simp [headerGet]
  | cons kv rest ih =>
    obtain ⟨k, v⟩ := kv
    by_cases hk : k = key
    · have hb : (k != key) = false := by simp [hk]
      simpa [List.filter_cons, hb] using ih
    · have hb : (k != key) = true := by simp [hk]
      simpa [List.filter_cons, hb, headerGet, hk] using ih

theorem headerGet_headerSet_other (h : Header) (key value other : String) (hne : other ≠ key) :
    headerGet (headerSet h key value) other = headerGet h other := by
  unfold headerSet
  induction h with
  | nil => simp [headerGet, Ne.symm hne]
  | cons kv rest ih =>
    obtain ⟨k, v⟩ := kv
    by_cases hk : k = key
    · have hb : (k != key) = false := by simp [hk]
      have hko : k ≠ other := by rw [hk]; exact Ne.symm hne
      simpa [List.filter_cons, hb, headerGet, hko] using ih
    · have hb : (k != key) = true := by simp [hk]
      by_cases hko : k = other
      · subst hko
        simp [List.filter_cons, hb, headerGet]
      · simpa [List.filter_cons, hb, headerGet, hko] using ih

/-- C9: `RoundTrip` reads the clock once, formats it as `d`, and forwards to the
wrapped round-tripper the request whose header `Date` is `d` and whose header
`Authorization` is `Zstack Ak:` followed by the base64 text of the HMAC-SHA1,
under the key `Sk`, of `Method`, `d` and the URI on three lines, the URI being
the request path with the context path cut out; nothing else of the request
changes. The signature is a function of `Sk`, `Method`, the URI and `d`: two
invocations that agree on these four compute the same signature. -/
theorem RoundTrip_signs_and_forwards {α : Type} (std : Crypto) (t : ZeAuthProviderTransport)
    (inner : HttpRequest → World → α × World) (req : HttpRequest) (w : World) :
    ∃ signed : HttpRequest, RoundTrip std t inner req w = inner signed w ∧
      headerGet signed.header "Date" = std.formatRFC1123Z w.now ∧
      headerGet signed.header "Authorization" =
        "Zstack " ++ t.Ak ++ ":" ++ std.base64 (std.hmacSha1 t.Sk
          (req.method ++ "\n" ++ std.formatRFC1123Z w.now ++ "\n"
            ++ stringsRemoveFirst req.urlPath t.ContextPath)) ∧
      signed.method = req.method ∧ signed.urlPath = req.urlPath ∧ signed.url = req.url ∧
      signed.body = req.body ∧
      (∀ key, key ≠ "Date" → key ≠ "Authorization" →
        headerGet signed.header key = headerGet req.header key) ∧
      (∀ (t2 : ZeAuthProviderTransport) (req2 : HttpRequest) (w2 : World),
        t2.Sk = t.Sk → req2.method = req.method → signedURI t2 req2 = signedURI t req →
        std.formatRFC1123Z w2.now = std.formatRFC1123Z w.now →
        signature std t2.Sk req2.method (std.formatRFC1123Z w2.now) (signedURI t2 req2) =
          signature std t.Sk req.method (std.formatRFC1123Z w.now) (signedURI t req)) := by
  refine ⟨signRequest std t w.now req, rfl, ?_, ?_, rfl, rfl, rfl, rfl, ?_, ?_⟩
  · simp [signRequest, headerGet_headerSet_same]
  · have hne : ("Authorization" : String) ≠ "Date" := by decide
    simp only [signRequest]
    rw [headerGet_headerSet_other _ _ _ _ hne, headerGet_headerSet_same]
    rfl
  · intro key h1 h2
    simp only [signRequest]
    rw [headerGet_headerSet_other _ _ _ _ h1, headerGet_headerSet_other _ _ _ _ h2]
  · intro t2 req2 w2 h1 h2 h3 h4
    rw [h1, h2, h3, h4]

/-- Two signed messages whose methods have the same length and whose dates have
the same length are equal only when method, date and URI are: a change of one
character in one of the three changes the signed message. -/
theorem signedMessage_injective_of_lengths (m d u m2 d2 u2 : String)
    (hm : m.length = m2.length) (hd : d.length = d2.length)
    (h : signedMessage m d u = signedMessage m2 d2 u2) :
    m = m2 ∧ d = d2 ∧ u = u2 := by
  have hdata : m.data ++ ('\n' :: (d.data ++ ('\n' :: u.data)))
      = m2.data ++ ('\n' :: (d2.data ++ ('\n' :: u2.data))) := by
    have := congrArg String.data h
    simpa [signedMessage, String.data_append] using this
  obtain ⟨h1, h2⟩ := List.append_inj hdata (show m.data.length = m2.data.length from hm)
  simp only [List.cons.injEq, true_and] at h2
  obtain ⟨h3, h4⟩ := List.append_inj h2 (show d.data.length = d2.data.length from hd)
  simp only [List.cons.injEq, true_and] at h4
  exact ⟨String.ext h1, String.ext h3, String.ext h4⟩

/-! ## The signed URI -/

theorem startsWithChars_append (p r : List Char) : startsWithChars p (p ++ r) = true := by
  induction p with
  | nil => simp [startsWithChars]
  | cons a p ih => simp [startsWithChars, ih]

theorem removeFirstChars_append (old rest : List Char) :
    removeFirstChars old (old ++ rest) = rest := by
  cases h : old ++ rest with
  | nil =>
    have hr : rest = [] := (List.append_eq_nil.mp h).2
    simp [removeFirstChars, hr]
  | cons c s =>
    have hs : startsWithChars old (c :: s) = true := by
      rw [← h]; exact startsWithChars_append old rest
    simp only [removeFirstChars, hs, if_true]
    rw [← h]
    simp

theorem removeFirstChars_of_not_contains (old : List Char) :
    ∀ s : List Char, containsChars old s = false → removeFirstChars old s = s := by
  intro s
  induction s with
  | nil => intro _; simp [removeFirstChars]
  | cons c s ih =>
    intro h
    simp only [containsChars, Bool.or_eq_false_iff] at h
    simp [removeFirstChars, h.1, ih h.2]

theorem getURL_eq_path (cli : ZeConfig) (resource resourceId spec : String) :
    getURL cli resource resourceId spec =
      cli.protocol ++ "://" ++ cli.hostname ++ ":" ++ decimal cli.port
        ++ getURLPath cli resource resourceId spec := by
  unfold getURL getRequestURL getURLPath
  by_cases h1 : resourceId.length > 0
  · by_cases h2 : spec.length > 0
    · simp [h1, h2, String.append_assoc]
    · simp [h1, h2, String.append_assoc]
  · simp [h1, String.append_assoc]

/-- C11, the claim as stated fails: a path that does not begin with the context
path but holds it further inside is not signed unchanged; its first occurrence
of the context path is cut out. -/
theorem signedURI_cuts_inner_context_path :
    startsWithChars "/ze".data "/open-api/ze/v1".data = false ∧
    signedURI { Ak := "ak", Sk := "sk", ContextPath := "/ze" }
      (bareRequest "GET" "/open-api/ze/v1") = "/open-api/v1" := by
  decide

/-- C11 as amended: the URI that `RoundTrip` signs is the request path without
its first occurrence of the context path. For a path that begins with the
context path it is the remainder after that prefix; so for a request whose path
is the text that `getURL` puts after host and port, which is the path of the
URL when resource, ID and spec hold no percent escape, `?` or `#`, it is
`resource[/resourceId[/spec]]`; for a path that does not contain the context
path it is the path unchanged. -/
theorem signedURI_strips_context_path :
    (∀ (t : ZeAuthProviderTransport) (req : HttpRequest) (rest : String),
      req.urlPath = t.ContextPath ++ rest → signedURI t req = rest) ∧
    (∀ (t : ZeAuthProviderTransport) (cli : ZeConfig) (req : HttpRequest)
        (resource resourceId spec : String),
      t.ContextPath = cli.contextPath →
      req.urlPath = getURLPath cli resource resourceId spec →
      getURL cli resource resourceId spec =
        cli.protocol ++ "://" ++ cli.hostname ++ ":" ++ decimal cli.port ++ req.urlPath ∧
      signedURI t req =
        (if resourceId.length > 0 then
          (if spec.length > 0 then resource ++ "/" ++ resourceId ++ "/" ++ spec
           else resource ++ "/" ++ resourceId)
         else resource)) ∧
    (∀ (t : ZeAuthProviderTransport) (req : HttpRequest),
      stringsContains req.urlPath t.ContextPath = false → signedURI t req = req.urlPath) := by
  have key : ∀ (t : ZeAuthProviderTransport) (req : HttpRequest) (rest : String),
      req.urlPath = t.ContextPath ++ rest → signedURI t req = rest := by
    intro t req rest h
    unfold signedURI stringsRemoveFirst
    rw [h, String.data_append, removeFirstChars_append]
  refine ⟨key, ?_, ?_⟩
  · intro t cli req resource resourceId spec hctx hpath
    refine ⟨by rw [hpath]; exact getURL_eq_path cli resource resourceId spec, ?_⟩
    apply key
    rw [hpath, hctx]
    rfl
  · intro t req h
    unfold signedURI stringsRemoveFirst
    rw [removeFirstChars_of_not_contains _ _ (by simpa [stringsContains] using h)]

/-- Witness of the amended C11: the path of the URL of a cluster on the default
configuration. -/
theorem signedURI_strips_context_path_witness :
    signedURI { Ak := "ak", Sk := "sk", ContextPath := "/ze" }
      (bareRequest "DELETE" "/ze/open-api/v1/cluster/7") = "/open-api/v1/cluster/7" :=
  signedURI_strips_context_path.1 { Ak := "ak", Sk := "sk", ContextPath := "/ze" }
    (bareRequest "DELETE" "/ze/open-api/v1/cluster/7") "/open-api/v1/cluster/7" (by decide)

/-! ## The configuration -/

/-- C12: for all arguments `NewZeConfig` returns a configuration with retry
interval 2 (seconds), 150 retries and a timeout of 60 seconds, whose protocol,
hostname, port and context path are the arguments; and `DefaultZeConfig
hostname` is `NewZeConfig "http" hostname 80 "/ze"`. -/
theorem NewZeConfig_defaults (protocol hostname : String) (port : Int) (contextPath : String) :
    (NewZeConfig protocol hostname port contextPath).retryInterval = 2 ∧
    (NewZeConfig protocol hostname port contextPath).retryTimes = 150 ∧
    (NewZeConfig protocol hostname port contextPath).timeout = 60 * timeSecond ∧
    (NewZeConfig protocol hostname port contextPath).protocol = protocol ∧
    (NewZeConfig protocol hostname port contextPath).hostname = hostname ∧
    (NewZeConfig protocol hostname port contextPath).port = port ∧
    (NewZeConfig protocol hostname port contextPath).contextPath = contextPath ∧
    DefaultZeConfig hostname = NewZeConfig "http" hostname 80 "/ze" :=
  ⟨rfl, rfl, rfl, rfl, rfl, rfl, rfl, rfl⟩

/-! ## The budget of the high-latency operations -/

theorem finishCall_none (responseKey : String) (r : HttpResult) :
    finishCall responseKey none false r =
      Outcome.ret { location := r.actionID, err := r.err, retVal := none, world := r.world } := by
  unfold finishCall
  cases h : r.err <;> simp

theorem finishDelete_none (r : HttpResult) :
    finishDelete none false r =
      Outcome.ret { location := r.actionID, err := r.err, retVal := none, world := r.world } := by
  unfold finishDelete
  cases h : r.err <;> simp

theorem Outcome.bind_map_ret {α β γ : Type} (o : Outcome α) (f : α → β) (g : β → γ) :
    (o.map f).bind (fun b => Outcome.ret (g b)) = o.map (fun a => g (f a)) := by
  cases o <;> rfl

theorem PostWithAsync_sync_accepted (env : Env) (cli : ZeConfig)
    (resource resourceId spec responseKey : String) (params : JSON) (w : World) (r : JSON)
    (herr : (env.jsonRequest (w.perform env (Event.jsonRequest "POST"
      (getPostURL cli resource resourceId spec) (some params))).trace).err = none)
    (hresp : (env.jsonRequest (w.perform env (Event.jsonRequest "POST"
      (getPostURL cli resource resourceId spec) (some params))).trace).resp = some r) :
    PostWithAsync env cli resource resourceId spec responseKey params none false w =
      (waitAfter env cli
        (Event.jsonRequest "POST" (getPostURL cli resource resourceId spec) (some params))
        "POST" (getPostURL cli resource resourceId spec) params r
        cli.retryInterval cli.retryTimes w).map (afterWait r) := by
  unfold PostWithAsync
  simp only []
  rw [httpPost_of_reply env cli _ params false w r herr hresp]
  have hfin : finishCall responseKey none false = fun hr =>
      Outcome.ret { location := hr.actionID, err := hr.err, retVal := none, world := hr.world } :=
    funext (finishCall_none responseKey)
  simp only [Bool.false_eq_true, if_false, hfin, Outcome.bind_map_ret]
  rfl

theorem DeleteWithAsync_sync_accepted (env : Env) (cli : ZeConfig)
    (resource resourceId spec paramsStr : String) (w : World) (r : JSON)
    (herr : (env.jsonRequest (w.perform env (Event.jsonRequest "DELETE"
      (getDeleteURL cli resource resourceId spec paramsStr) none)).trace).err = none)
    (hresp : (env.jsonRequest (w.perform env (Event.jsonRequest "DELETE"
      (getDeleteURL cli resource resourceId spec paramsStr) none)).trace).resp = some r) :
    DeleteWithAsync env cli resource resourceId spec paramsStr none false w =
      (waitAfter env cli
        (Event.jsonRequest "DELETE" (getDeleteURL cli resource resourceId spec paramsStr) none)
        "DELETE" (getDeleteURL cli resource resourceId spec paramsStr) (JSON.dict []) r
        cli.retryInterval cli.retryTimes w).map (afterWait r) := by
  unfold DeleteWithAsync
  simp only []
  rw [httpDelete_of_reply env cli _ false w r herr hresp]
  have hfin : finishDelete none false = fun hr =>
      Outcome.ret { location := hr.actionID, err := hr.err, retVal := none, world := hr.world } :=
    funext finishDelete_none
  simp only [Bool.false_eq_true, if_false, hfin, Outcome.bind_map_ret]
  rfl

/-- C13: whatever retry budget the client holds, `CreateCluster`,
`RecreateCluster` and `DeleteCluster` called with `async = false`, once their
request is accepted with a JSON body, run the poll loop with interval 10
(seconds) and `retryTimes` 500, and leave these two values in the client. -/
theorem cluster_operations_poll_with_10_500 (env : Env) (m : Marshaller) (std : Crypto)
    (cph : Cipher) (cli : ZeConfig) (params : ClusterCreateParam) (clusterId : Int) (w : World) :
    (∀ r : JSON,
      (env.jsonRequest (w.perform env
        (createClusterEvent cli (m.cluster (clusterPayload std cph cli params)))).trace).err
        = none →
      (env.jsonRequest (w.perform env
        (createClusterEvent cli (m.cluster (clusterPayload std cph cli params)))).trace).resp
        = some r →
      CreateCluster env m std cph cli params false w =
        ({ cli with retryInterval := 10, retryTimes := 500 },
         (waitAfter env { cli with retryInterval := 10, retryTimes := 500 }
            (createClusterEvent cli (m.cluster (clusterPayload std cph cli params))) "POST"
            (getPostURL { cli with retryInterval := 10, retryTimes := 500 }
              "/open-api/v1/cluster" "" "")
            (m.cluster (clusterPayload std cph cli params)) r 10 500 w).map (afterWait r))) ∧
    (∀ r : JSON,
      (env.jsonRequest (w.perform env (recreateClusterEvent m cli clusterId)).trace).err = none →
      (env.jsonRequest (w.perform env (recreateClusterEvent m cli clusterId)).trace).resp
        = some r →
      RecreateCluster env m cli clusterId false w =
        ({ cli with retryInterval := 10, retryTimes := 500 },
         (waitAfter env { cli with retryInterval := 10, retryTimes := 500 }
            (recreateClusterEvent m cli clusterId) "POST"
            (getPostURL { cli with retryInterval := 10, retryTimes := 500 }
              ("/open-api/v1/cluster/" ++ decimal clusterId ++ "/recreate") "" "")
            m.nil r 10 500 w).map (afterWait r))) ∧
    (∀ r : JSON,
      (env.jsonRequest (w.perform env (deleteClusterEvent cli clusterId)).trace).err = none →
      (env.jsonRequest (w.perform env (deleteClusterEvent cli clusterId)).trace).resp = some r →
      DeleteCluster env cli clusterId false w =
        ({ cli with retryInterval := 10, retryTimes := 500 },
         (waitAfter env { cli with retryInterval := 10, retryTimes := 500 }
            (deleteClusterEvent cli clusterId) "DELETE"
            (getDeleteURL { cli with retryInterval := 10, retryTimes := 500 }
              "/open-api/v1/cluster" (decimal clusterId) "" "")
            (JSON.dict []) r 10 500 w).map (afterWait r))) := by
  refine ⟨fun r herr hresp => ?_, fun r herr hresp => ?_, fun r herr hresp => ?_⟩
  · exact congrArg (Prod.mk _)
      (PostWithAsync_sync_accepted env { cli with retryInterval := 10, retryTimes := 500 }
        "/open-api/v1/cluster" "" "" "" (m.cluster (clusterPayload std cph cli params)) w r
        herr hresp)
  · exact congrArg (Prod.mk _)
      (PostWithAsync_sync_accepted env { cli with retryInterval := 10, retryTimes := 500 }
        ("/open-api/v1/cluster/" ++ decimal clusterId ++ "/recreate") "" "" "" m.nil w r
        herr hresp)
  · exact congrArg (Prod.mk _)
      (DeleteWithAsync_sync_accepted env { cli with retryInterval := 10, retryTimes := 500 }
        "/open-api/v1/cluster" (decimal clusterId) "" "" w r herr hresp)

/-- Witness of C13: a synchronous `DeleteCluster` on the sample backend with the
default budget of 2 seconds and 150 retries. -/
theorem cluster_operations_poll_with_10_500_witness :
    DeleteCluster (scriptedEnv (fun _ => 200)) (sampleConfig 2 150) 7 false World.initial =
      ({ sampleConfig 2 150 with retryInterval := 10, retryTimes := 500 },
       (waitAfter (scriptedEnv (fun _ => 200))
          { sampleConfig 2 150 with retryInterval := 10, retryTimes := 500 }
          (deleteClusterEvent (sampleConfig 2 150) 7) "DELETE"
          (getDeleteURL { sampleConfig 2 150 with retryInterval := 10, retryTimes := 500 }
            "/open-api/v1/cluster" (decimal 7) "" "")
          (JSON.dict [])
          (JSON.dict [("content", JSON.dict [("actionId", JSON.str "a-1")])])
          10 500 World.initial).map
        (afterWait (JSON.dict [("content", JSON.dict [("actionId", JSON.str "a-1")])]))) :=
  (cluster_operations_poll_with_10_500 (scriptedEnv (fun _ => 200)) sampleMarshaller sampleCrypto
    sampleCipher (sampleConfig 2 150) sampleCluster 7 World.initial).2.2 _ rfl rfl

/-- C14, the claim as stated fails: on a fresh client with the default budget a
synchronous `AddNode`, and likewise `DeleteNode`, whose first poll is answered
202 sleeps 2 seconds before the next poll, not 10. -/
theorem node_operations_keep_interval_2 :
    (AddNode (scriptedEnv (fun i => if i = 0 then 202 else 200)) sampleMarshaller sampleCrypto
        sampleCipher (DefaultZeConfig "edge.local") 7 sampleNode false World.initial).2.map
      (fun c => sleepDurations c.world.trace) = Outcome.ret [2 * timeSecond] ∧
    (DeleteNode (scriptedEnv (fun i => if i = 0 then 202 else 200)) (DefaultZeConfig "edge.local")
        7 ["k8s-node2"] World.initial).2.map
      (fun c => sleepDurations c.world.trace) = Outcome.ret [2 * timeSecond] := by
  decide

/-- C14 as amended: `AddNode` called with `async = false`, and `DeleteNode`,
once their request is accepted with a JSON body, run the poll loop with
`retryTimes` 300 and with the interval that the client holds at the call,
whatever it is; they assign 300 to `retryTimes` and leave the interval of the
client as it is. On a client as `NewZeConfig` builds it that interval is 2
seconds. -/
theorem node_operations_poll_with_300 (env : Env) (m : Marshaller) (std : Crypto)
    (cph : Cipher) (cli : ZeConfig) (params : NodeAddParamOpenApi) (clusterId : Int)
    (nodenames : List String) (w : World) :
    (∀ r : JSON,
      (env.jsonRequest (w.perform env
        (addNodeEvent cli clusterId (m.node (nodePayload std cph cli params)))).trace).err
        = none →
      (env.jsonRequest (w.perform env
        (addNodeEvent cli clusterId (m.node (nodePayload std cph cli params)))).trace).resp
        = some r →
      AddNode env m std cph cli clusterId params false w =
        ({ cli with retryTimes := 300 },
         (waitAfter env { cli with retryTimes := 300 }
            (addNodeEvent cli clusterId (m.node (nodePayload std cph cli params))) "POST"
            (getPostURL { cli with retryTimes := 300 }
              ("/open-api/v1/cluster/" ++ decimal clusterId ++ "/node") "" "")
            (m.node (nodePayload std cph cli params)) r cli.retryInterval 300 w).map
          (afterWait r))) ∧
    (∀ r : JSON,
      (env.jsonRequest (w.perform env (deleteNodeEvent cli clusterId nodenames)).trace).err
        = none →
      (env.jsonRequest (w.perform env (deleteNodeEvent cli clusterId nodenames)).trace).resp
        = some r →
      DeleteNode env cli clusterId nodenames w =
        ({ cli with retryTimes := 300 },
         (waitAfter env { cli with retryTimes := 300 }
            (deleteNodeEvent cli clusterId nodenames) "DELETE"
            (deleteNodeURL cli clusterId nodenames)
            (JSON.dict []) r cli.retryInterval 300 w).map (afterWait r))) ∧
    (∀ (protocol hostname : String) (port : Int) (contextPath : String),
      (NewZeConfig protocol hostname port contextPath).retryInterval = 2) := by
  refine ⟨fun r herr hresp => ?_, fun r herr hresp => ?_, fun _ _ _ _ => rfl⟩
  · exact congrArg (Prod.mk _)
      (PostWithAsync_sync_accepted env { cli with retryTimes := 300 }
        ("/open-api/v1/cluster/" ++ decimal clusterId ++ "/node") "" "" ""
        (m.node (nodePayload std cph cli params)) w r herr hresp)
  · exact congrArg (Prod.mk _)
      (DeleteWithAsync_sync_accepted env { cli with retryTimes := 300 }
        ("/open-api/v1/cluster/" ++ decimal clusterId ++ "/node") "" ""
        ("nodenames=" ++ joinStrings nodenames) w r herr hresp)

/-- Witness of the amended C14: a synchronous `DeleteNode` on the sample backend
with the default budget. -/
theorem node_operations_poll_with_300_witness :
    DeleteNode (scriptedEnv (fun _ => 200)) (sampleConfig 2 150) 7 ["k8s-node2"] World.initial =
      ({ sampleConfig 2 150 with retryTimes := 300 },
       (waitAfter (scriptedEnv (fun _ => 200)) { sampleConfig 2 150 with retryTimes := 300 }
          (deleteNodeEvent (sampleConfig 2 150) 7 ["k8s-node2"]) "DELETE"
          (deleteNodeURL (sampleConfig 2 150) 7 ["k8s-node2"])
          (JSON.dict [])
          (JSON.dict [("content", JSON.dict [("actionId", JSON.str "a-1")])])
          (sampleConfig 2 150).retryInterval 300 World.initial).map
        (afterWait (JSON.dict [("content", JSON.dict [("actionId", JSON.str "a-1")])]))) :=
  (node_operations_poll_with_300 (scriptedEnv (fun _ => 200)) sampleMarshaller sampleCrypto
    sampleCipher (sampleConfig 2 150) sampleNode 7 ["k8s-node2"] World.initial).2.1 _ rfl rfl

/-- C15, the claim as stated fails: on a fresh client a synchronous
`CreateCluster` leaves the budget 10 seconds and 500 retries in the client, and
the `DeleteProject` that follows on the same client sleeps 10 seconds between
its two polls, not the 2 seconds of the default. -/
theorem override_outlives_the_call :
    ((CreateCluster (scriptedEnv (fun i => if i % 2 = 0 then 202 else 200)) sampleMarshaller
        sampleCrypto sampleCipher (DefaultZeConfig "edge.local") sampleCluster false
        World.initial).1.retryInterval,
     (CreateCluster (scriptedEnv (fun i => if i % 2 = 0 then 202 else 200)) sampleMarshaller
        sampleCrypto sampleCipher (DefaultZeConfig "edge.local") sampleCluster false
        World.initial).1.retryTimes) = (10, 500) ∧
    ((CreateCluster (scriptedEnv (fun i => if i % 2 = 0 then 202 else 200)) sampleMarshaller
        sampleCrypto sampleCipher (DefaultZeConfig "edge.local") sampleCluster false
        World.initial).2.bind
      (fun created =>
        (DeleteProject (scriptedEnv (fun i => if i % 2 = 0 then 202 else 200))
          (CreateCluster (scriptedEnv (fun i => if i % 2 = 0 then 202 else 200)) sampleMarshaller
            sampleCrypto sampleCipher (DefaultZeConfig "edge.local") sampleCluster false
            World.initial).1
          "project-1" created.world).2.map
          (fun c => sleepDurations (c.world.trace.drop created.world.trace.length))))
      = Outcome.ret [10 * timeSecond] := by
  decide

/-- C15 as amended: the override of the retry budget is an assignment to the
fields of the client and stays after the call. `CreateCluster`,
`RecreateCluster` and `DeleteCluster` leave interval 10 and `retryTimes` 500 in
the client, `AddNode` and `DeleteNode` leave `retryTimes` 300; an operation that
sets no budget of its own (`DeleteProject`, `CreateExternalNetwork`) changes
nothing in the client and polls with the budget the client holds when it is
called, so after a cluster operation on the same client it polls with interval
10 and `retryTimes` 500. -/
theorem retry_budget_override_is_global (env : Env) (m : Marshaller) (std : Crypto)
    (cph : Cipher) (cli : ZeConfig) (params : ClusterCreateParam)
    (nodeParams : NodeAddParamOpenApi) (clusterId : Int) (nodenames : List String)
    (async : Bool) (w : World) :
    (CreateCluster env m std cph cli params async w).1 = afterClusterOperation cli ∧
    (RecreateCluster env m cli clusterId async w).1 = afterClusterOperation cli ∧
    (DeleteCluster env cli clusterId async w).1 = afterClusterOperation cli ∧
    (AddNode env m std cph cli clusterId nodeParams async w).1 = { cli with retryTimes := 300 } ∧
    (DeleteNode env cli clusterId nodenames w).1 = { cli with retryTimes := 300 } ∧
    (∀ (held : ZeConfig) (uuid : String) (w2 : World) (r : JSON),
      (env.jsonRequest (w2.perform env (deleteProjectEvent held uuid)).trace).err = none →
      (env.jsonRequest (w2.perform env (deleteProjectEvent held uuid)).trace).resp = some r →
      DeleteProject env held uuid w2 =
        (held,
         (waitAfter env held (deleteProjectEvent held uuid) "DELETE"
            (getDeleteURL held "/open-api/v1/cloud/projects" uuid "" ("deleteMode=" ++ ""))
            (JSON.dict []) r held.retryInterval held.retryTimes w2).map (afterWait r))) ∧
    (∀ (held : ZeConfig) (p : ExternalNetworkCreateParam) (w2 : World) (r : JSON),
      (env.jsonRequest (w2.perform env
        (createExternalNetworkEvent held p.ClusterID (m.externalNetwork p))).trace).err = none →
      (env.jsonRequest (w2.perform env
        (createExternalNetworkEvent held p.ClusterID (m.externalNetwork p))).trace).resp
        = some r →
      CreateExternalNetwork env m held p w2 =
        (held,
         ((waitAfter env held (createExternalNetworkEvent held p.ClusterID (m.externalNetwork p))
            "POST"
            (getPostURL held ("/open-api/v1/external-network/" ++ decimal p.ClusterID) "" "")
            (m.externalNetwork p) r held.retryInterval held.retryTimes w2).map
            (HttpResult.ofWait (extractActionID r))).bind
          (finishCall "" (some (JSON.str "")) false))) ∧
    (∀ (uuid : String) (w2 : World) (r : JSON),
      (env.jsonRequest (w2.perform env
        (deleteProjectEvent (afterClusterOperation cli) uuid)).trace).err = none →
      (env.jsonRequest (w2.perform env
        (deleteProjectEvent (afterClusterOperation cli) uuid)).trace).resp = some r →
      (DeleteProject env (CreateCluster env m std cph cli params async w).1 uuid w2).2 =
        (waitAfter env (afterClusterOperation cli)
          (deleteProjectEvent (afterClusterOperation cli) uuid) "DELETE"
          (getDeleteURL (afterClusterOperation cli) "/open-api/v1/cloud/projects" uuid ""
            ("deleteMode=" ++ ""))
          (JSON.dict []) r 10 500 w2).map (afterWait r)) := by
  have hdelete : ∀ (held : ZeConfig) (uuid : String) (w2 : World) (r : JSON),
      (env.jsonRequest (w2.perform env (deleteProjectEvent held uuid)).trace).err = none →
      (env.jsonRequest (w2.perform env (deleteProjectEvent held uuid)).trace).resp = some r →
      DeleteProject env held uuid w2 =
        (held,
         (waitAfter env held (deleteProjectEvent held uuid) "DELETE"
            (getDeleteURL held "/open-api/v1/cloud/projects" uuid "" ("deleteMode=" ++ ""))
            (JSON.dict []) r held.retryInterval held.retryTimes w2).map (afterWait r)) := by
    intro held uuid w2 r herr hresp
    exact congrArg (Prod.mk _)
      (DeleteWithAsync_sync_accepted env held "/open-api/v1/cloud/projects" uuid ""
        ("deleteMode=" ++ "") w2 r herr hresp)
  refine ⟨rfl, rfl, rfl, rfl, rfl, hdelete, ?_, ?_⟩
  · intro held p w2 r herr hresp
    refine congrArg (Prod.mk _) ?_
    show (httpPost env held _ (m.externalNetwork p) false w2).bind _ = _
    rw [httpPost_of_reply env held _ (m.externalNetwork p) false w2 r herr hresp]
    rfl
  · intro uuid w2 r herr hresp
    have h := hdelete (afterClusterOperation cli) uuid w2 r herr hresp
    exact congrArg Prod.snd h

/-- Witness of the amended C15: a `DeleteProject` on a client that holds the
budget 10 seconds and 500 retries polls with that budget. -/
theorem retry_budget_override_is_global_witness :
    DeleteProject (scriptedEnv (fun _ => 200)) (sampleConfig 10 500) "project-1" World.initial =
      (sampleConfig 10 500,
       (waitAfter (scriptedEnv (fun _ => 200)) (sampleConfig 10 500)
          (deleteProjectEvent (sampleConfig 10 500) "project-1") "DELETE"
          (getDeleteURL (sampleConfig 10 500) "/open-api/v1/cloud/projects" "project-1" ""
            ("deleteMode=" ++ ""))
          (JSON.dict [])
          (JSON.dict [("content", JSON.dict [("actionId", JSON.str "a-1")])])
          (sampleConfig 10 500).retryInterval (sampleConfig 10 500).retryTimes
          World.initial).map
        (afterWait (JSON.dict [("content", JSON.dict [("actionId", JSON.str "a-1")])]))) :=
  (retry_budget_override_is_global (scriptedEnv (fun _ => 200)) sampleMarshaller sampleCrypto
    sampleCipher (sampleConfig 2 150) sampleCluster sampleNode 7 ["k8s-node2"] false
    World.initial).2.2.2.2.2.1 (sampleConfig 10 500) "project-1" World.initial _ rfl rfl

/-! ## What a call sends -/

/-- The requests and sleeps of a wait: with a budget that is not negative,
`httpWait` returns, and what it adds to the history is some number of polls,
each followed by a sleep, and a last poll. -/
theorem httpWait_trace (env : Env) (cli : ZeConfig) (header : Option Header)
    (action requestURL : String) (params : JSON) (actionID : String) (w : World)
    (h0 : 0 ≤ cli.retryTimes) (hint : cli.retryTimes < int64Bound) :
    ∃ (run : RetryRun) (k : Nat),
      httpWait env cli header action requestURL params actionID w = Outcome.ret run ∧
      (k : Int) ≤ cli.retryTimes ∧
      run.world.trace = w.trace ++ waitHistory (pollEvent env cli header actionID)
        (secondsDuration cli.retryInterval) k ++ [pollEvent env cli header actionID] := by
  obtain ⟨k, hk, hrun, hstop⟩ := exists_stop_index (httpWaitPoll env cli header actionID)
    (secondsDuration cli.retryInterval) cli.retryTimes.toNat w
  have hkle : (k : Int) ≤ cli.retryTimes := by omega
  have hfuel : k < retryFuel := by
    unfold retryFuel; unfold int64Bound at hint; omega
  have hstop2 : (pollAt (httpWaitPoll env cli header actionID)
      (secondsDuration cli.retryInterval) k w).stillRunning = false ∨ cli.retryTimes = k := by
    rcases hstop with h | h
    · exact Or.inl h
    · exact Or.inr (by omega)
  refine ⟨_, k, retryLoop_stops_at _ cli.retryInterval k retryFuel cli.retryTimes w hfuel hkle
    hint hrun hstop2, hkle, ?_⟩
  simp [stoppedRun, pollEnd_httpWaitPoll_trace]

theorem finishCall_no_target (responseKey : String) (async : Bool) (r : HttpResult) :
    finishCall responseKey none async r =
      Outcome.ret { location := r.actionID, err := r.err, retVal := none, world := r.world } := by
  unfold finishCall
  cases h : r.err <;> cases async <;> simp

theorem PostWithAsync_trace (env : Env) (cli : ZeConfig)
    (resource resourceId spec responseKey : String) (params : JSON) (async : Bool) (w : World)
    (h0 : 0 ≤ cli.retryTimes) (hint : cli.retryTimes < int64Bound) :
    ∃ c rest, PostWithAsync env cli resource resourceId spec responseKey params none async w
        = Outcome.ret c ∧
      c.world.trace = w.trace ++
        Event.jsonRequest "POST" (getPostURL cli resource resourceId spec) (some params)
          :: rest ∧
      IsWaitTail env cli rest := by
  unfold PostWithAsync
  simp only []
  generalize hurl : getPostURL cli resource resourceId spec = urlStr
  cases herr : (env.jsonRequest (w.perform env
      (Event.jsonRequest "POST" urlStr (some params))).trace).err with
  | some e =>
    refine ⟨⟨"", some (GoError.wrap e ("POST" ++ " " ++ urlStr ++ " " ++ env.jsonString params)),
      none, w.perform env (Event.jsonRequest "POST" urlStr (some params))⟩, [], ?_, ?_,
      Or.inl rfl⟩
    · simp [httpPost, herr, Outcome.bind, finishCall_no_target]
    · simp [World.perform]
  | none =>
    cases hresp : (env.jsonRequest (w.perform env
        (Event.jsonRequest "POST" urlStr (some params))).trace).resp with
    | none =>
      refine ⟨⟨"", none, none, w.perform env (Event.jsonRequest "POST" urlStr (some params))⟩,
        [], ?_, ?_, Or.inl rfl⟩
      · simp [httpPost, herr, hresp, Outcome.bind, finishCall_no_target]
      · simp [World.perform]
    | some r =>
      rw [httpPost_of_reply env cli _ params async w r herr hresp]
      cases async with
      | true =>
        refine ⟨⟨extractActionID r, none, none,
          w.perform env (Event.jsonRequest "POST" urlStr (some params))⟩, [], ?_, ?_,
          Or.inl rfl⟩
        · simp [Outcome.bind, finishCall_no_target]
        · simp [World.perform]
      | false =>
        obtain ⟨run, k, hrun, -, htrace⟩ := httpWait_trace env cli
          (env.jsonRequest (w.perform env
            (Event.jsonRequest "POST" urlStr (some params))).trace).header
          "POST" urlStr params (extractActionID r)
          (w.perform env (Event.jsonRequest "POST" urlStr (some params))) h0 hint
        refine ⟨⟨extractActionID r, run.err, none, run.world⟩,
          waitHistory (pollEvent env cli
            (env.jsonRequest (w.perform env
              (Event.jsonRequest "POST" urlStr (some params))).trace).header
            (extractActionID r)) (secondsDuration cli.retryInterval) k
          ++ [pollEvent env cli
            (env.jsonRequest (w.perform env
              (Event.jsonRequest "POST" urlStr (some params))).trace).header
            (extractActionID r)], ?_, ?_,
          Or.inr ⟨(env.jsonRequest (w.perform env
            (Event.jsonRequest "POST" urlStr (some params))).trace).header,
            extractActionID r, k, rfl⟩⟩
        · simp [hrun, Outcome.map, Outcome.bind, finishCall_no_target, HttpResult.ofWait]
        · simp [htrace, World.perform]

theorem utf8ByteSize_go_replicate (n : Nat) :
    String.utf8ByteSize.go (List.replicate n 'A') = n := by
  induction n with
  | zero => rfl
  | succ n ih =>
    rw [List.replicate_succ, String.utf8ByteSize.go, ih]
    rfl

theorem utf8ByteSize_replicate (n : Nat) :
    (String.mk (List.replicate n 'A')).utf8ByteSize = n :=
  utf8ByteSize_go_replicate n

/-- The text that `EncryptByAccessKey` returns is longer than the text it
encrypts, when the ciphertext has the length of the padded source and its base64
text four characters for every three bytes. -/
theorem EncryptByAccessKey_ne (std : Crypto) (cph : Cipher) (key value : String)
    (hAes : ∀ src, (cph.aesCBCEncrypt src (cph.md5Hex key)
      (String.mk ((cph.md5Hex key).data.take 16))).length = 16 * (src.utf8ByteSize / 16 + 1))
    (hB64 : ∀ bytes, (std.base64 bytes).utf8ByteSize = 4 * ((bytes.length + 2) / 3)) :
    EncryptByAccessKey std cph key value ≠ value := by
  intro h
  have hlen := congrArg String.utf8ByteSize h
  simp only [EncryptByAccessKey, hB64, hAes] at hlen
  omega

/-- C16: the one request that `CreateCluster` (respectively `AddNode`) sends
besides the polls of its wait carries the payload that equals the parameters
of the caller in every field except `Password`, which is
`EncryptByAccessKey(accessKeySecret, Password)`. That text is never the plain
password: the ciphertext under the key derived from the secret has the length of
the padded source, and its base64 text, four characters for every three bytes,
is longer than the source. The parameters are passed by value, so the assignment to `Password`
changes the copy of the callee and not the struct of the caller. -/
theorem passwords_are_encrypted_before_transmission (env : Env) (m : Marshaller) (std : Crypto)
    (cph : Cipher) (cli : ZeConfig) (params : ClusterCreateParam)
    (nodeParams : NodeAddParamOpenApi) (clusterId : Int) (async : Bool) (w : World)
    (hAes : ∀ src, (cph.aesCBCEncrypt src (cph.md5Hex cli.accessKeySecret)
      (String.mk ((cph.md5Hex cli.accessKeySecret).data.take 16))).length
      = 16 * (src.utf8ByteSize / 16 + 1))
    (hB64 : ∀ bytes, (std.base64 bytes).utf8ByteSize = 4 * ((bytes.length + 2) / 3)) :
    (∃ c rest, (CreateCluster env m std cph cli params async w).2 = Outcome.ret c ∧
      c.world.trace = w.trace ++
        createClusterEvent cli (m.cluster (clusterPayload std cph cli params)) :: rest ∧
      IsWaitTail env (afterClusterOperation cli) rest) ∧
    clusterPayload std cph cli params =
      { params with
        Password := EncryptByAccessKey std cph cli.accessKeySecret params.Password } ∧
    (clusterPayload std cph cli params).Password ≠ params.Password ∧
    (∃ c rest, (AddNode env m std cph cli clusterId nodeParams async w).2 = Outcome.ret c ∧
      c.world.trace = w.trace ++
        addNodeEvent cli clusterId (m.node (nodePayload std cph cli nodeParams)) :: rest ∧
      IsWaitTail env { cli with retryTimes := 300 } rest) ∧
    nodePayload std cph cli nodeParams =
      { nodeParams with
        Password := EncryptByAccessKey std cph cli.accessKeySecret nodeParams.Password } ∧
    (nodePayload std cph cli nodeParams).Password ≠ nodeParams.Password := by
  refine ⟨?_, rfl, EncryptByAccessKey_ne std cph _ _ hAes hB64, ?_, rfl,
    EncryptByAccessKey_ne std cph _ _ hAes hB64⟩
  · exact PostWithAsync_trace env (afterClusterOperation cli) "/open-api/v1/cluster" "" "" ""
      (m.cluster (clusterPayload std cph cli params)) async w
      (show (0 : Int) ≤ 500 by decide) (show (500 : Int) < int64Bound by decide)
  · exact PostWithAsync_trace env { cli with retryTimes := 300 }
      ("/open-api/v1/cluster/" ++ decimal clusterId ++ "/node") "" "" ""
      (m.node (nodePayload std cph cli nodeParams)) async w
      (show (0 : Int) ≤ 300 by decide) (show (300 : Int) < int64Bound by decide)

/-- Witness of C16: the sample cluster, whose password is `secret`, created on
the sample backend with the stand-in primitives. -/
theorem passwords_are_encrypted_before_transmission_witness :
    (clusterPayload sampleCrypto sampleCipher (sampleConfig 2 150) sampleCluster).Password
      ≠ sampleCluster.Password ∧
    (nodePayload sampleCrypto sampleCipher (sampleConfig 2 150) sampleNode).Password
      ≠ sampleNode.Password :=
  ⟨(passwords_are_encrypted_before_transmission (scriptedEnv (fun _ => 200)) sampleMarshaller
      sampleCrypto sampleCipher (sampleConfig 2 150) sampleCluster sampleNode 7 false
      World.initial (fun _ => List.length_replicate _ _)
      (fun _ => utf8ByteSize_replicate _)).2.2.1,
   (passwords_are_encrypted_before_transmission (scriptedEnv (fun _ => 200)) sampleMarshaller
      sampleCrypto sampleCipher (sampleConfig 2 150) sampleCluster sampleNode 7 false
      World.initial (fun _ => List.length_replicate _ _)
      (fun _ => utf8ByteSize_replicate _)).2.2.2.2.2⟩

/-! ## Transport errors -/

/-- C17: when the request of `httpGet`, `httpPost`, `httpPut` or `httpDelete`
fails with an error that is not a header timeout, the call returns after that
one request, without a poll, and the error it returns wraps the original error
with the HTTP method and the request URL (for POST and PUT followed by the
serialised parameters). -/
theorem transport_error_is_wrapped_and_fatal (env : Env) (cli : ZeConfig) (urlStr : String)
    (params : JSON) (async : Bool) (w : World) (e : GoError)
    (hnot : stringsContains e.Error "exceeded while awaiting headers" = false) :
    ((env.jsonRequest (w.trace ++ [Event.jsonRequest "GET" urlStr none])).err = some e →
      httpGet env urlStr w =
        Outcome.ret { header := none, body := none,
                      err := some (GoError.wrap e ("GET" ++ " " ++ urlStr)),
                      world := { trace := w.trace ++ [Event.jsonRequest "GET" urlStr none],
                                 now := w.now + (env.elapsed
                                   (w.trace ++ [Event.jsonRequest "GET" urlStr none]) : Int) } }) ∧
    ((env.jsonRequest (w.trace ++ [Event.jsonRequest "POST" urlStr (some params)])).err
        = some e →
      httpPost env cli urlStr params async w =
        Outcome.ret { actionID := "", header := none, body := none,
                      err := some (GoError.wrap e
                        ("POST" ++ " " ++ urlStr ++ " " ++ env.jsonString params)),
                      world := { trace := w.trace ++
                                   [Event.jsonRequest "POST" urlStr (some params)],
                                 now := w.now + (env.elapsed (w.trace ++
                                   [Event.jsonRequest "POST" urlStr (some params)]) : Int) } }) ∧
    ((env.jsonRequest (w.trace ++ [Event.jsonRequest "PUT" urlStr (some params)])).err
        = some e →
      httpPut env cli urlStr params async w =
        Outcome.ret { actionID := "", header := none, body := none,
                      err := some (GoError.wrap e
                        ("PUT" ++ " " ++ urlStr ++ " " ++ env.jsonString params)),
                      world := { trace := w.trace ++
                                   [Event.jsonRequest "PUT" urlStr (some params)],
                                 now := w.now + (env.elapsed (w.trace ++
                                   [Event.jsonRequest "PUT" urlStr (some params)]) : Int) } }) ∧
    ((env.jsonRequest (w.trace ++ [Event.jsonRequest "DELETE" urlStr none])).err = some e →
      httpDelete env cli urlStr async w =
        Outcome.ret { actionID := "", header := none, body := none,
                      err := some (GoError.wrap e ("DELETE" ++ " " ++ urlStr)),
                      world := { trace := w.trace ++ [Event.jsonRequest "DELETE" urlStr none],
                                 now := w.now + (env.elapsed
                                   (w.trace ++ [Event.jsonRequest "DELETE" urlStr none])
                                   : Int) } }) ∧
    (GoError.wrap e ("GET" ++ " " ++ urlStr)).Error = "GET" ++ " " ++ urlStr ++ ": " ++ e.Error := by
  refine ⟨fun h => ?_, fun h => ?_, fun h => ?_, fun h => ?_, rfl⟩
  · have hlt : (0 : Int) < 5 * timeMinute := by decide
    simp [httpGet, httpGetFuel, httpGetLoop, World.perform, h, hnot, hlt]
  · simp [httpPost, World.perform, h]
  · simp [httpPut, World.perform, h]
  · simp [httpDelete, World.perform, h]

/-- Witness of C17: a backend that refuses the connection. -/
theorem transport_error_is_wrapped_and_fatal_witness :
    httpDelete (failingEnv connectionRefused) (sampleConfig 2 150)
        "http://edge.local:80/ze/open-api/v1/cluster/7" false World.initial =
      Outcome.ret { actionID := "", header := none, body := none,
                    err := some (GoError.wrap connectionRefused
                      ("DELETE" ++ " " ++ "http://edge.local:80/ze/open-api/v1/cluster/7")),
                    world := { trace := World.initial.trace ++
                                 [Event.jsonRequest "DELETE"
                                   "http://edge.local:80/ze/open-api/v1/cluster/7" none],
                               now := World.initial.now + ((failingEnv connectionRefused).elapsed
                                 (World.initial.trace ++ [Event.jsonRequest "DELETE"
                                   "http://edge.local:80/ze/open-api/v1/cluster/7" none])
                                 : Int) } } :=
  (transport_error_is_wrapped_and_fatal (failingEnv connectionRefused) (sampleConfig 2 150)
    "http://edge.local:80/ze/open-api/v1/cluster/7" (JSON.dict []) false World.initial
    connectionRefused (by decide)).2.2.2.1 rfl

/-! ## The wall-clock ceiling of `httpGet` -/

theorem World.sleep_now (d : Int) (w : World) : (w.sleep d).now = w.now + max d 0 := rfl

theorem World.perform_now (env : Env) (e : Event) (w : World) :
    (w.perform env e).now = w.now + (env.elapsed (w.trace ++ [e]) : Int) := rfl

theorem httpGetLoop_expired (env : Env) (urlStr : String) (startTime : Int) (f : Nat)
    (w : World) (hc : ¬ (w.now - startTime < 5 * timeMinute)) :
    httpGetLoop env urlStr startTime (f + 1) w =
      Outcome.ret { header := none, body := none, err := none, world := w } := by
  simp [httpGetLoop, hc]

theorem httpGetLoop_answer (env : Env) (urlStr : String) (startTime : Int) (f : Nat)
    (w : World) (hc : w.now - startTime < 5 * timeMinute)
    (herr : (env.jsonRequest (w.perform env (Event.jsonRequest "GET" urlStr none)).trace).err
      = none) :
    httpGetLoop env urlStr startTime (f + 1) w =
      Outcome.ret
        { header := (env.jsonRequest
            (w.perform env (Event.jsonRequest "GET" urlStr none)).trace).respHeader,
          body := (env.jsonRequest
            (w.perform env (Event.jsonRequest "GET" urlStr none)).trace).resp,
          err := none, world := w.perform env (Event.jsonRequest "GET" urlStr none) } := by
  simp [httpGetLoop, hc, herr]

theorem httpGetLoop_fatal (env : Env) (urlStr : String) (startTime : Int) (f : Nat)
    (w : World) (e : GoError) (hc : w.now - startTime < 5 * timeMinute)
    (herr : (env.jsonRequest (w.perform env (Event.jsonRequest "GET" urlStr none)).trace).err
      = some e)
    (ht : ¬ stringsContains e.Error "exceeded while awaiting headers" = true) :
    httpGetLoop env urlStr startTime (f + 1) w =
      Outcome.ret
        { header := none, body := none, err := some (GoError.wrap e ("GET" ++ " " ++ urlStr)),
          world := w.perform env (Event.jsonRequest "GET" urlStr none) } := by
  simp [httpGetLoop, hc, herr, ht]

theorem httpGetLoop_retry (env : Env) (urlStr : String) (startTime : Int) (f : Nat)
    (w : World) (e : GoError) (hc : w.now - startTime < 5 * timeMinute)
    (herr : (env.jsonRequest (w.perform env (Event.jsonRequest "GET" urlStr none)).trace).err
      = some e)
    (ht : stringsContains e.Error "exceeded while awaiting headers" = true) :
    httpGetLoop env urlStr startTime (f + 1) w =
      httpGetLoop env urlStr startTime f
        ((w.perform env (Event.jsonRequest "GET" urlStr none)).sleep (timeSecond * 5)) := by
  conv_lhs => unfold httpGetLoop
  simp [hc, herr, ht]

theorem httpGetLoop_returns (env : Env) (urlStr : String) (startTime : Int) :
    ∀ (f : Nat) (w : World), 5 * timeMinute - (w.now - startTime) ≤ timeSecond * 5 * f →
      ∃ r, httpGetLoop env urlStr startTime (f + 1) w = Outcome.ret r ∧
        ((∀ history, ∃ e, (env.jsonRequest history).err = some e ∧
            stringsContains e.Error "exceeded while awaiting headers" = true) →
          r.header = none ∧ r.body = none ∧ r.err = none) := by
  intro f
  induction f with
  | zero =>
    intro w h
    have hc : ¬ (w.now - startTime < 5 * timeMinute) := by
      simp only [Nat.cast_zero, mul_zero] at h
      omega
    exact ⟨_, httpGetLoop_expired env urlStr startTime 0 w hc, fun _ => ⟨rfl, rfl, rfl⟩⟩
  | succ f ih =>
    intro w h
    by_cases hc : w.now - startTime < 5 * timeMinute
    · cases herr : (env.jsonRequest
          (w.perform env (Event.jsonRequest "GET" urlStr none)).trace).err with
      | none =>
        refine ⟨_, httpGetLoop_answer env urlStr startTime _ w hc herr, fun hall => ?_⟩
        obtain ⟨e, he, -⟩ := hall (w.perform env (Event.jsonRequest "GET" urlStr none)).trace
        rw [herr] at he
        cases he
      | some e =>
        by_cases ht : stringsContains e.Error "exceeded while awaiting headers" = true
        · have hnow : 5 * timeMinute -
              (((w.perform env (Event.jsonRequest "GET" urlStr none)).sleep (timeSecond * 5)).now
                - startTime) ≤ timeSecond * 5 * f := by
            rw [World.sleep_now, World.perform_now]
            have hpos : (0 : Int) ≤ (env.elapsed
              (w.trace ++ [Event.jsonRequest "GET" urlStr none]) : Int) := Int.natCast_nonneg _
            have hmax : max (timeSecond * 5) 0 = timeSecond * 5 := by decide
            rw [hmax]
            push_cast at h
            unfold timeSecond at *
            omega
          obtain ⟨r, hr, hall⟩ := ih _ hnow
          exact ⟨r, by rw [httpGetLoop_retry env urlStr startTime _ w e hc herr ht, hr], hall⟩
        · refine ⟨_, httpGetLoop_fatal env urlStr startTime _ w e hc herr ht, fun hall => ?_⟩
          obtain ⟨e2, he2, ht2⟩ :=
            hall (w.perform env (Event.jsonRequest "GET" urlStr none)).trace
          rw [herr] at he2
          cases he2
          exact absurd ht2 ht
    · exact ⟨_, httpGetLoop_expired env urlStr startTime _ w hc, fun _ => ⟨rfl, rfl, rfl⟩⟩

/-- The loop of `httpGet` ends: after sixty header timeouts five minutes have
passed. When every attempt is a header timeout, what it returns is no header, no
response and a nil error. -/
theorem httpGet_returns (env : Env) (urlStr : String) (w : World) :
    ∃ r, httpGet env urlStr w = Outcome.ret r ∧
      ((∀ history, ∃ e, (env.jsonRequest history).err = some e ∧
          stringsContains e.Error "exceeded while awaiting headers" = true) →
        r.header = none ∧ r.body = none ∧ r.err = none) :=
  httpGetLoop_returns env urlStr w.now 60 w (by
    have h : (5 : Int) * timeMinute = timeSecond * 5 * ((60 : Nat) : Int) := by decide
    rw [h]
    omega)

set_option maxRecDepth 100000 in
/-- C18, the code at the failing input: on a backend whose every answer is a
header timeout, `httpGet` makes sixty attempts, five seconds apart, and then
returns a nil error together with no header and no response. -/
theorem httpGet_ceiling_returns_nil_error :
    (httpGet (failingEnv headerTimeout) "http://edge.local:80/ze/open-api/v1/cluster"
        World.initial).map
      (fun r => (r.err.isNone, r.body.isNone, r.header.isNone,
        countJSONRequests r.world.trace, r.world.now))
      = Outcome.ret (true, true, true, 60, 5 * timeMinute) := by
  decide

/-! ## The errors of a wait -/

theorem retryLoop_result_of_poll (fn : World → PollResult × World) (interval : Int) :
    ∀ (fuel : Nat) (retryTimes : Int) (w : World) (run : RetryRun),
      retryLoop fn interval fuel retryTimes w = Outcome.ret run →
      ∃ w2, run.err = (fn w2).1.err ∧ run.header = (fn w2).1.header ∧
        run.body = (fn w2).1.body := by
  intro fuel
  induction fuel with
  | zero =>
    intro retryTimes w run h
    simp [retryLoop] at h
  | succ f ih =>
    intro retryTimes w run h
    by_cases hs : (fn w).1.stillRunning = true ∧ retryTimes ≠ 0
    · rw [retryLoop_retry fn interval f retryTimes w hs.1 hs.2] at h
      cases hin : retryLoop fn interval f (wrapInt64 (retryTimes - 1))
          ((fn w).2.sleep (secondsDuration interval)) with
      | ret run1 =>
        rw [hin] at h
        simp only [Outcome.map, Outcome.ret.injEq] at h
        subst h
        exact ih _ _ run1 hin
      | panic what => rw [hin] at h; simp [Outcome.map] at h
      | outOfFuel => rw [hin] at h; simp [Outcome.map] at h
    · have hstop : (fn w).1.stillRunning = false ∨ retryTimes = 0 := by
        by_cases h1 : (fn w).1.stillRunning = true
        · right
          by_contra h2
          exact hs ⟨h1, h2⟩
        · left
          simpa using h1
      rw [retryLoop_stop fn interval f retryTimes w hstop] at h
      simp only [Outcome.ret.injEq] at h
      subst h
      exact ⟨w, rfl, rfl, rfl⟩

theorem httpWaitPoll_error_forms (env : Env) (cli : ZeConfig) (header : Option Header)
    (actionID : String) (w : World) (e : GoError)
    (h : (httpWaitPoll env cli header actionID w).1.err = some e) :
    (∃ cause, e = GoError.wrap cause ("wait location " ++ waitLocation env cli actionID)) ∨
    e = GoError.jobRunning "StatusCode: 202, Job Still Running" ∨
    (∃ resp : HttpResponse, e = GoError.plain
      ("StatusCode: " ++ decimal resp.statusCode ++ ", Reponse: "
        ++ fmtJSON env (parseJSONResponseForHttpWait env resp).body
        ++ ", Error: " ++ fmtError (parseJSONResponseForHttpWait env resp).err)) ∨
    (∃ resp : HttpResponse, (env.parseJSONResponse resp).err = some e) := by
  cases hreq : env.request (w.trace ++ [pollEvent env cli header actionID]) with
  | error cause =>
    have hreq2 : env.request (w.perform env
        (Event.request "GET" (waitLocation env cli actionID) header)).trace
        = Except.error cause := by
      simpa [World.perform, pollEvent] using hreq
    simp only [httpWaitPoll, hreq2, Option.some.injEq] at h
    exact Or.inl ⟨cause, h.symm⟩
  | ok resp =>
    obtain ⟨h1, h2, h3⟩ := httpWaitPoll_result env cli header actionID w resp hreq
    by_cases h200 : resp.statusCode = 200
    · right; right; right
      refine ⟨resp, ?_⟩
      rw [h2 h200] at h
      unfold parseJSONResponseForHttpWait at h
      cases hp : (env.parseJSONResponse resp).err with
      | none => simp [hp] at h
      | some e2 => simpa [hp] using h
    · by_cases h202 : resp.statusCode = 202
      · right; left
        rw [h1 h202, h202] at h
        simp only [Option.some.injEq] at h
        rw [← h]
        rfl
      · right; right; left
        rw [h3 h200 h202] at h
        simp only [Option.some.injEq] at h
        exact ⟨resp, h.symm⟩

/-- C19, the claim as stated fails: the error that `httpWait` returns after the
budget is used up, and the one it returns for a status 500, carry neither the
method nor the request URL of the operation that waits. -/
theorem httpWait_errors_lack_operation_context :
    (httpWait (scriptedEnv (fun _ => 202)) (sampleConfig 2 1) none "DELETE"
        "http://edge.local:80/ze/open-api/v1/cluster/7" (JSON.dict []) "a-1" World.initial).map
      (fun run => run.err.map (fun e => (e.Error, stringsContains e.Error "DELETE",
        stringsContains e.Error "http://edge.local:80/ze/open-api/v1/cluster/7")))
      = Outcome.ret (some ("StatusCode: 202, Job Still Running", false, false)) ∧
    (httpWait (scriptedEnv (fun _ => 500)) (sampleConfig 2 1) none "DELETE"
        "http://edge.local:80/ze/open-api/v1/cluster/7" (JSON.dict []) "a-1" World.initial).map
      (fun run => run.err.map (fun e => (e.Error, stringsContains e.Error "DELETE",
        stringsContains e.Error "http://edge.local:80/ze/open-api/v1/cluster/7")))
      = Outcome.ret (some ("StatusCode: 500, Reponse: {}, Error: <nil>", false, false)) := by
  decide

/-- C19 as amended: `httpWait` returns the error of its last poll as it is. That
error is a transport failure wrapped with the wait location (the URL of the
result endpoint), the job-still-running error of a 202, the status error of
another status with the parsed response and the parse error, or the parse error
of a 200 answer. The method, the request URL and the parameters of the operation
that waits go to the debug log only: the result of the wait does not depend on
them. -/
theorem httpWait_returns_poll_error_unchanged (env : Env) (cli : ZeConfig)
    (header : Option Header) (action requestURL : String) (params : JSON) (actionID : String)
    (w : World) :
    ∃ run, httpWait env cli header action requestURL params actionID w = Outcome.ret run ∧
      (∀ (action2 requestURL2 : String) (params2 : JSON),
        httpWait env cli header action2 requestURL2 params2 actionID w = Outcome.ret run) ∧
      (∃ w2, run.err = (httpWaitPoll env cli header actionID w2).1.err) ∧
      (∀ e, run.err = some e →
        (∃ cause, e = GoError.wrap cause ("wait location " ++ waitLocation env cli actionID)) ∨
        e = GoError.jobRunning "StatusCode: 202, Job Still Running" ∨
        (∃ resp : HttpResponse, e = GoError.plain
          ("StatusCode: " ++ decimal resp.statusCode ++ ", Reponse: "
            ++ fmtJSON env (parseJSONResponseForHttpWait env resp).body
            ++ ", Error: " ++ fmtError (parseJSONResponseForHttpWait env resp).err)) ∨
        (∃ resp : HttpResponse, (env.parseJSONResponse resp).err = some e)) := by
  obtain ⟨run, hrun⟩ := retryCallback_returns (httpWaitPoll env cli header actionID) action
    requestURL (env.jsonString params) cli.retryInterval cli.retryTimes w
  obtain ⟨w2, herr, -, -⟩ := retryLoop_result_of_poll (httpWaitPoll env cli header actionID)
    cli.retryInterval retryFuel cli.retryTimes w run hrun
  refine ⟨run, hrun, fun _ _ _ => hrun, ⟨w2, herr⟩, fun e he => ?_⟩
  exact httpWaitPoll_error_forms env cli header actionID w2 e (by rw [← herr]; exact he)

/-! ## The mutators of the configuration -/

theorem ConfigHeap.store_same (h : ConfigHeap) (p : ConfigRef) (c : ZeConfig) :
    h.store p c p = c := by
  simp [ConfigHeap.store]

theorem ConfigHeap.store_other (h : ConfigHeap) (p q : ConfigRef) (c : ZeConfig) (hq : q ≠ p) :
    h.store p c q = h q := by
  simp [ConfigHeap.store, hq]

/-- C20: each mutator of `ZeConfig` returns the pointer it was called on, and
in memory it changes the field it names (`AccessKey`: the key ID and the
secret) of that one configuration and nothing else: the other fields of the
configuration and every other configuration stay. `GetAccessKeySecret` returns
the secret that `AccessKey` set last, whatever other mutators were called
since, and being a read it changes nothing. -/
theorem config_mutators_are_fluent (config : ConfigRef) (h : ConfigHeap) (flag : Bool)
    (accessKeyId accessKeySecret : String) (n : Int) :
    ((ZeConfig.InsecureSkipVerify config flag h).1 = config ∧
      (ZeConfig.InsecureSkipVerify config flag h).2 config
        = { h config with insecureSkipVerify := flag } ∧
      ∀ q, q ≠ config → (ZeConfig.InsecureSkipVerify config flag h).2 q = h q) ∧
    ((ZeConfig.AccessKey config accessKeyId accessKeySecret h).1 = config ∧
      (ZeConfig.AccessKey config accessKeyId accessKeySecret h).2 config
        = { h config with accessKeyId := accessKeyId, accessKeySecret := accessKeySecret } ∧
      ∀ q, q ≠ config → (ZeConfig.AccessKey config accessKeyId accessKeySecret h).2 q = h q) ∧
    ((ZeConfig.RetryInterval config n h).1 = config ∧
      (ZeConfig.RetryInterval config n h).2 config = { h config with retryInterval := n } ∧
      ∀ q, q ≠ config → (ZeConfig.RetryInterval config n h).2 q = h q) ∧
    ((ZeConfig.RetryTimes config n h).1 = config ∧
      (ZeConfig.RetryTimes config n h).2 config = { h config with retryTimes := n } ∧
      ∀ q, q ≠ config → (ZeConfig.RetryTimes config n h).2 q = h q) ∧
    ((ZeConfig.Timeout config n h).1 = config ∧
      (ZeConfig.Timeout config n h).2 config = { h config with timeout := n } ∧
      ∀ q, q ≠ config → (ZeConfig.Timeout config n h).2 q = h q) ∧
    ((ZeConfig.Debug config flag h).1 = config ∧
      (ZeConfig.Debug config flag h).2 config = { h config with debug := flag } ∧
      ∀ q, q ≠ config → (ZeConfig.Debug config flag h).2 q = h q) ∧
    ZeConfig.GetAccessKeySecret config
      (ZeConfig.AccessKey config accessKeyId accessKeySecret h).2 = accessKeySecret ∧
    ZeConfig.GetAccessKeySecret config (ZeConfig.InsecureSkipVerify config flag h).2
      = ZeConfig.GetAccessKeySecret config h ∧
    ZeConfig.GetAccessKeySecret config (ZeConfig.RetryInterval config n h).2
      = ZeConfig.GetAccessKeySecret config h ∧
    ZeConfig.GetAccessKeySecret config (ZeConfig.RetryTimes config n h).2
      = ZeConfig.GetAccessKeySecret config h ∧
    ZeConfig.GetAccessKeySecret config (ZeConfig.Timeout config n h).2
      = ZeConfig.GetAccessKeySecret config h ∧
    ZeConfig.GetAccessKeySecret config (ZeConfig.Debug config flag h).2
      = ZeConfig.GetAccessKeySecret config h := by
  refine ⟨⟨rfl, ConfigHeap.store_same _ _ _, fun q hq => ConfigHeap.store_other _ _ _ _ hq⟩,
    ⟨rfl, ConfigHeap.store_same _ _ _, fun q hq => ConfigHeap.store_other _ _ _ _ hq⟩,
    ⟨rfl, ConfigHeap.store_same _ _ _, fun q hq => ConfigHeap.store_other _ _ _ _ hq⟩,
    ⟨rfl, ConfigHeap.store_same _ _ _, fun q hq => ConfigHeap.store_other _ _ _ _ hq⟩,
    ⟨rfl, ConfigHeap.store_same _ _ _, fun q hq => ConfigHeap.store_other _ _ _ _ hq⟩,
    ⟨rfl, ConfigHeap.store_same _ _ _, fun q hq => ConfigHeap.store_other _ _ _ _ hq⟩,
    ?_, ?_, ?_, ?_, ?_, ?_⟩ <;>
  simp [ZeConfig.GetAccessKeySecret, ZeConfig.AccessKey, ZeConfig.InsecureSkipVerify,
    ZeConfig.RetryInterval, ZeConfig.RetryTimes, ZeConfig.Timeout, ZeConfig.Debug,
    ConfigHeap.store]

/-! ## The URLs of the client -/

/-- C21: for every configuration and all texts, `getURL` is protocol, `://`,
hostname, `:`, the decimal port, the context path and the resource, followed by
`/` and the resource ID exactly when the ID is not empty, and then by `/` and
the spec exactly when ID and spec are both not empty (a spec with an empty ID is
dropped); `getGetURL` adds `?` and the encoded query exactly when the query
values are not empty. -/
theorem getURL_shape (env : Env) (cli : ZeConfig) (resource resourceId spec : String)
    (urlValues : Values) :
    getURL cli resource resourceId spec =
      cli.protocol ++ "://" ++ cli.hostname ++ ":" ++ decimal cli.port ++ cli.contextPath
        ++ resource
        ++ (if resourceId ≠ "" then "/" ++ resourceId else "")
        ++ (if resourceId ≠ "" ∧ spec ≠ "" then "/" ++ spec else "") ∧
    getGetURL env cli resource resourceId spec urlValues =
      getURL cli resource resourceId spec
        ++ (if urlValues ≠ [] then "?" ++ env.encodeValues urlValues else "") := by
  have hlen : ∀ s : String, (s.length > 0) ↔ s ≠ "" := by
    intro s
    rw [gt_iff_lt, String.length, List.length_pos, ne_eq, ne_eq]
    constructor
    · intro h hs; exact h (by rw [hs])
    · intro h hs; exact h (String.ext hs)
  constructor
  · unfold getURL getRequestURL
    by_cases hid : resourceId = ""
    · subst hid
      simp
    · have h1 : resourceId.length > 0 := (hlen _).2 hid
      by_cases hs : spec = ""
      · subst hs
        simp [h1, hid, String.append_assoc]
      · have h2 : spec.length > 0 := (hlen _).2 hs
        simp [h1, h2, hid, hs, String.append_assoc]
  · unfold getGetURL
    by_cases hv : urlValues = []
    · subst hv
      simp
    · have h1 : urlValues.length > 0 := List.length_pos.2 hv
      simp [h1, hv, String.append_assoc]

/-! ## Lists with and without a count -/

theorem QueryParam.ReplyWithCount_get (qp : QueryParam) (b : Bool) :
    (qp.ReplyWithCount b).values.Get "replyWithCount" = if b then "true" else "false" := by
  unfold QueryParam.ReplyWithCount
  exact Values.Get_Set _ _ _

/-- After `ReplyWithCount(b)`, with `b` true or false alike, `ListWithSpec` with
a response key that is not empty reads `totalCount` under the response key and
fills the target from the nested `result`. -/
theorem finishList_reads_count (responseKey : String) (qp : QueryParam) (retVal : JSON)
    (r : GetResult) (resp : JSON) (b : Bool) (hkey : responseKey.length ≠ 0)
    (herr : r.err = none) (hbody : r.body = some resp) :
    finishList responseKey (some (qp.ReplyWithCount b)) retVal r =
      match resp.GetString [responseKey, "totalCount"] with
      | Except.error err =>
        Outcome.ret { err := some err, retVal := retVal, params := some (qp.ReplyWithCount b),
                      world := r.world }
      | Except.ok total =>
        Outcome.ret { err := (resp.Unmarshal retVal [responseKey, "result"]).2,
                      retVal := (resp.Unmarshal retVal [responseKey, "result"]).1,
                      params := some { values := (qp.ReplyWithCount b).values.Set "totalCount" total },
                      world := r.world } := by
  have hlen : ((qp.ReplyWithCount b).values.Get "replyWithCount").length > 0 := by
    rw [QueryParam.ReplyWithCount_get]
    cases b <;> decide
  unfold finishList
  simp only [herr, hbody, hkey, if_false, hlen, if_true]

/-- Without parameters, or with parameters that hold no `replyWithCount`,
`ListWithSpec` with a response key that is not empty fills the target from the
value directly under the response key and leaves the parameters as they are. -/
theorem finishList_without_count (responseKey : String) (params : Option QueryParam)
    (retVal : JSON) (r : GetResult) (resp : JSON) (hkey : responseKey.length ≠ 0)
    (herr : r.err = none) (hbody : r.body = some resp)
    (hparams : params = none ∨ ∃ qp, params = some qp ∧ qp.values.Get "replyWithCount" = "") :
    finishList responseKey params retVal r =
      Outcome.ret { err := (resp.Unmarshal retVal [responseKey]).2,
                    retVal := (resp.Unmarshal retVal [responseKey]).1,
                    params := params, world := r.world } := by
  unfold finishList
  rcases hparams with h | ⟨qp, h, hget⟩
  · subst h
    simp only [herr, hbody, hkey, if_false]
  · subst h
    have hlen : ¬ ((qp.values.Get "replyWithCount").length > 0) := by
      rw [hget]
      decide
    simp only [herr, hbody, hkey, if_false, hlen]

/-- C22, the code departs from the claim: with `ReplyWithCount(false)` the
parameters carry `replyWithCount = false`, a text that is not empty, so
`ListWithSpec` still reads `totalCount`. On the envelope of a plain list, the
list directly under `content`, it returns the key-not-found error and leaves the
target as it was, where the claim has it deserialise the list. -/
theorem ListWithSpec_reads_count_after_ReplyWithCount_false :
    ∃ r, ListWithSpec (plainListEnv [JSON.str "cluster-a", JSON.str "cluster-b"])
        (sampleConfig 2 150) "/open-api/v1/cluster" "" "" "content"
        (some (NewQueryParam.ReplyWithCount false)) JSON.null World.initial = Outcome.ret r ∧
      r.err = some (GoError.plain "key not found: totalCount") ∧
      r.retVal = JSON.null :=
  ⟨_, rfl, rfl, rfl⟩

/-! ## The sort order of a query -/

theorem Values.Get_Set_other (v : Values) (key value other : String) (hne : other ≠ key) :
    Values.Get (Values.Set v key value) other = Values.Get v other := by
  unfold Values.Set
  induction v with
  | nil =>
    have hk : ¬ key = other := fun h => hne h.symm
    simp [Values.Get, hk]
  | cons kv rest ih =>
    obtain ⟨k, vs⟩ := kv
    by_cases hk : k = key
    · have hb : (k != key) = false := by simp [hk]
      have hko : ¬ k = other := by rw [hk]; exact fun h => hne h.symm
      simpa [List.filter_cons, hb, Values.Get, hko] using ih
    · have hb : (k != key) = true := by simp [hk]
      by_cases hko : k = other
      · subst hko
        simp [List.filter_cons, hb, Values.Get]
      · simpa [List.filter_cons, hb, Values.Get, hko] using ih

theorem Values.Get_Set_Set (v : Values) (k1 v1 k2 v2 : String) (hne : k1 ≠ k2) :
    Values.Get ((v.Set k1 v1).Set k2 v2) k1 = v1 ∧
    Values.Get ((v.Set k1 v1).Set k2 v2) k2 = v2 := by
  constructor
  · rw [Values.Get_Set_other _ _ _ _ hne, Values.Get_Set]
  · exact Values.Get_Set _ _ _

/-- C23, the code departs from the claim in its `-` branch: `Sort("-" + f)`
stores the text as it came, sign included (`sort = "-" + f`), with
`sortDirection = "desc"`; only the `+` branch cuts the sign off
(`Sort("+" + f)` stores `sort = f`, ascending), and a text without a sign is
stored as it is, ascending. -/
theorem Sort_keeps_the_minus_sign (params : QueryParam) (f : String) :
    ((params.Sort ("-" ++ f)).values.Get "sort" = "-" ++ f ∧
      (params.Sort ("-" ++ f)).values.Get "sortDirection" = "desc") ∧
    ((params.Sort ("+" ++ f)).values.Get "sort" = f ∧
      (params.Sort ("+" ++ f)).values.Get "sortDirection" = "asc") ∧
    (stringsHasPrefix f "+" = false → stringsHasPrefix f "-" = false →
      (params.Sort f).values.Get "sort" = f ∧
      (params.Sort f).values.Get "sortDirection" = "asc") ∧
    (NewQueryParam.Sort "-name").values = [("sortDirection", ["desc"]), ("sort", ["-name"])] := by
  have hne : ("sortDirection" : String) ≠ "sort" := by decide
  have hminus : ("-" ++ f).data = '-' :: f.data := rfl
  have hplus : ("+" ++ f).data = '+' :: f.data := rfl
  refine ⟨?_, ?_, ?_, by decide⟩
  · have h1 : stringsHasPrefix ("-" ++ f) "+" = false := by
      simp [stringsHasPrefix, hminus, startsWithChars]
    have h2 : stringsHasPrefix ("-" ++ f) "-" = true := by
      simp [stringsHasPrefix, hminus, startsWithChars]
    have := Values.Get_Set_Set params.values "sortDirection" "desc" "sort" ("-" ++ f) hne
    simp only [QueryParam.Sort, h1, h2, if_true, if_false, Bool.false_eq_true]
    exact ⟨this.2, this.1⟩
  · have h1 : stringsHasPrefix ("+" ++ f) "+" = true := by
      simp [stringsHasPrefix, hplus, startsWithChars]
    have := Values.Get_Set_Set params.values "sortDirection" "asc" "sort"
      (String.mk (("+" ++ f).data.drop 1)) hne
    simp only [QueryParam.Sort, h1, if_true]
    refine ⟨?_, this.1⟩
    rw [this.2, hplus]
    rfl
  · intro h1 h2
    have := Values.Get_Set_Set params.values "sortDirection" "asc" "sort" f hne
    simp only [QueryParam.Sort, h1, h2, if_false, Bool.false_eq_true]
    exact ⟨this.2, this.1⟩

/-! ## The shape of every run of the poll loop -/

/-- Whatever the budget, a run of the poll loop that returns ended with some
poll number `k`: the polls before it reported a running job and were each
followed by one sleep, and the run returns what poll `k` gave. -/
theorem retryLoop_shape (fn : World → PollResult × World) (interval : Int) :
    ∀ (fuel : Nat) (retryTimes : Int) (w : World) (run : RetryRun),
      retryLoop fn interval fuel retryTimes w = Outcome.ret run →
      ∃ k : Nat, run.polls = k + 1 ∧
        run.sleeps = List.replicate k (secondsDuration interval) ∧
        run.world = pollEnd fn (secondsDuration interval) k w ∧
        run.err = (pollAt fn (secondsDuration interval) k w).err ∧
        run.header = (pollAt fn (secondsDuration interval) k w).header ∧
        run.body = (pollAt fn (secondsDuration interval) k w).body ∧
        (∀ i, i < k → (pollAt fn (secondsDuration interval) i w).stillRunning = true) := by
  intro fuel
  induction fuel with
  | zero =>
    intro retryTimes w run h
    simp [retryLoop] at h
  | succ f ih =>
    intro retryTimes w run h
    by_cases hs : (fn w).1.stillRunning = true ∧ retryTimes ≠ 0
    · rw [retryLoop_retry fn interval f retryTimes w hs.1 hs.2] at h
      cases hin : retryLoop fn interval f (wrapInt64 (retryTimes - 1))
          ((fn w).2.sleep (secondsDuration interval)) with
      | ret run1 =>
        rw [hin] at h
        simp only [Outcome.map, Outcome.ret.injEq] at h
        subst h
        obtain ⟨k, hp, hsl, hw, he, hh, hb, hrun⟩ := ih _ _ run1 hin
        refine ⟨k + 1, ?_, ?_, ?_, ?_, ?_, ?_, ?_⟩
        · simp [RetryRun.afterRetry, hp]
        · simp [RetryRun.afterRetry, hsl, List.replicate_succ]
        · simpa [RetryRun.afterRetry, pollEnd, pollStart] using hw
        · simpa [RetryRun.afterRetry, pollAt, pollStart] using he
        · simpa [RetryRun.afterRetry, pollAt, pollStart] using hh
        · simpa [RetryRun.afterRetry, pollAt, pollStart] using hb
        · intro i hi
          cases i with
          | zero => simpa [pollAt, pollStart] using hs.1
          | succ j => simpa [pollAt, pollStart] using hrun j (by omega)
      | panic what => rw [hin] at h; simp [Outcome.map] at h
      | outOfFuel => rw [hin] at h; simp [Outcome.map] at h
    · have hstop : (fn w).1.stillRunning = false ∨ retryTimes = 0 := by
        by_cases h1 : (fn w).1.stillRunning = true
        · right
          by_contra h2
          exact hs ⟨h1, h2⟩
        · left
          simpa using h1
      rw [retryLoop_stop fn interval f retryTimes w hstop] at h
      simp only [Outcome.ret.injEq] at h
      subst h
      exact ⟨0, rfl, rfl, rfl, rfl, rfl, rfl, fun i hi => absurd hi (Nat.not_lt_zero i)⟩

/-- Whatever the budget, `httpWait` returns, and what it adds to the history is
some number of polls of the result endpoint, each followed by a sleep, and a
last poll. -/
theorem httpWait_shape (env : Env) (cli : ZeConfig) (header : Option Header)
    (action requestURL : String) (params : JSON) (actionID : String) (w : World) :
    ∃ (run : RetryRun) (k : Nat),
      httpWait env cli header action requestURL params actionID w = Outcome.ret run ∧
      run.polls = k + 1 ∧
      run.world.trace = w.trace ++ waitHistory (pollEvent env cli header actionID)
        (secondsDuration cli.retryInterval) k ++ [pollEvent env cli header actionID] := by
  obtain ⟨run, hrun⟩ := retryCallback_returns (httpWaitPoll env cli header actionID)
    action requestURL (env.jsonString params) cli.retryInterval cli.retryTimes w
  obtain ⟨k, hp, -, hw, -⟩ := retryLoop_shape _ _ _ _ _ _ hrun
  exact ⟨run, k, hrun, hp, by rw [hw, pollEnd_httpWaitPoll_trace]⟩

/-! ## A response without an action ID -/

theorem waitLocation_empty (env : Env) (cli : ZeConfig) :
    waitLocation env cli "" =
      cli.protocol ++ "://" ++ cli.hostname ++ ":" ++ decimal cli.port ++ cli.contextPath
        ++ "/open-api/v1/result" := by
  simp [waitLocation, getGetURL, getURL, getRequestURL]

/-- C24: for each of `httpPost`, `httpPut` and `httpDelete` on its own, when the
request of the synchronous call is accepted with a JSON response `r` that
carries no `content.actionId`, the action ID stays the empty text and the wait
is entered with it all the same: the call is the poll loop of `httpWait` for
the empty ID, which polls, at least once, the URL protocol://host:port +
contextPath + `/open-api/v1/result` without an ID segment, and the call returns
what that loop returns, with the empty ID. -/
theorem sync_call_without_actionID_still_waits (env : Env) (cli : ZeConfig) (urlStr : String)
    (params : JSON) (w : World) :
    (∀ header, pollEvent env cli header "" =
      Event.request "GET" (cli.protocol ++ "://" ++ cli.hostname ++ ":" ++ decimal cli.port
        ++ cli.contextPath ++ "/open-api/v1/result") header) ∧
    (∀ r : JSON,
      (env.jsonRequest (w.perform env (Event.jsonRequest "POST" urlStr (some params))).trace).err = none →
      (env.jsonRequest (w.perform env (Event.jsonRequest "POST" urlStr (some params))).trace).resp = some r →
      ((∃ e, r.Get "content" = Except.error e) ∨
        (∃ c, r.Get "content" = Except.ok c ∧ c.Contains "actionId" = false)) →
      ∃ (run : RetryRun) (k : Nat),
        httpWait env cli (env.jsonRequest (w.perform env (Event.jsonRequest "POST" urlStr (some params))).trace).header
          "POST" urlStr params ""
          (w.perform env (Event.jsonRequest "POST" urlStr (some params))) = Outcome.ret run ∧
        httpPost env cli urlStr params false w = Outcome.ret (HttpResult.ofWait "" run) ∧
        run.polls = k + 1 ∧
        run.world.trace = w.trace ++ [Event.jsonRequest "POST" urlStr (some params)]
          ++ waitHistory (pollEvent env cli (env.jsonRequest (w.perform env
              (Event.jsonRequest "POST" urlStr (some params))).trace).header "")
            (secondsDuration cli.retryInterval) k
          ++ [pollEvent env cli (env.jsonRequest (w.perform env
              (Event.jsonRequest "POST" urlStr (some params))).trace).header ""]) ∧
    (∀ r : JSON,
      (env.jsonRequest (w.perform env (Event.jsonRequest "PUT" urlStr (some params))).trace).err = none →
      (env.jsonRequest (w.perform env (Event.jsonRequest "PUT" urlStr (some params))).trace).resp = some r →
      ((∃ e, r.Get "content" = Except.error e) ∨
        (∃ c, r.Get "content" = Except.ok c ∧ c.Contains "actionId" = false)) →
      ∃ (run : RetryRun) (k : Nat),
        httpWait env cli (env.jsonRequest (w.perform env (Event.jsonRequest "PUT" urlStr (some params))).trace).header
          "PUT" urlStr params ""
          (w.perform env (Event.jsonRequest "PUT" urlStr (some params))) = Outcome.ret run ∧
        httpPut env cli urlStr params false w = Outcome.ret (HttpResult.ofWait "" run) ∧
        run.polls = k + 1 ∧
        run.world.trace = w.trace ++ [Event.jsonRequest "PUT" urlStr (some params)]
          ++ waitHistory (pollEvent env cli (env.jsonRequest (w.perform env
              (Event.jsonRequest "PUT" urlStr (some params))).trace).header "")
            (secondsDuration cli.retryInterval) k
          ++ [pollEvent env cli (env.jsonRequest (w.perform env
              (Event.jsonRequest "PUT" urlStr (some params))).trace).header ""]) ∧
    (∀ r : JSON,
      (env.jsonRequest (w.perform env (Event.jsonRequest "DELETE" urlStr none)).trace).err = none →
      (env.jsonRequest (w.perform env (Event.jsonRequest "DELETE" urlStr none)).trace).resp = some r →
      ((∃ e, r.Get "content" = Except.error e) ∨
        (∃ c, r.Get "content" = Except.ok c ∧ c.Contains "actionId" = false)) →
      ∃ (run : RetryRun) (k : Nat),
        httpWait env cli (env.jsonRequest (w.perform env (Event.jsonRequest "DELETE" urlStr none)).trace).header
          "DELETE" urlStr (JSON.dict []) ""
          (w.perform env (Event.jsonRequest "DELETE" urlStr none)) = Outcome.ret run ∧
        httpDelete env cli urlStr false w = Outcome.ret (HttpResult.ofWait "" run) ∧
        run.polls = k + 1 ∧
        run.world.trace = w.trace ++ [Event.jsonRequest "DELETE" urlStr none]
          ++ waitHistory (pollEvent env cli (env.jsonRequest (w.perform env
              (Event.jsonRequest "DELETE" urlStr none)).trace).header "")
            (secondsDuration cli.retryInterval) k
          ++ [pollEvent env cli (env.jsonRequest (w.perform env
              (Event.jsonRequest "DELETE" urlStr none)).trace).header ""]) := by
  refine ⟨fun header => ?_, ?_, ?_, ?_⟩
  · rw [pollEvent, waitLocation_empty]
  · intro r herr hresp habsent
    have hid : extractActionID r = "" := extractActionID_of_absent r habsent
    obtain ⟨run, k, hrun, hp, htrace⟩ := httpWait_shape env cli
      (env.jsonRequest (w.perform env (Event.jsonRequest "POST" urlStr (some params))).trace).header
      "POST" urlStr params "" (w.perform env (Event.jsonRequest "POST" urlStr (some params)))
    refine ⟨run, k, hrun, ?_, hp, ?_⟩
    · rw [httpPost_of_reply env cli urlStr params false w r herr hresp, hid]
      simp [hrun, Outcome.map]
    · rw [htrace]
      simp [World.perform]
  · intro r herr hresp habsent
    have hid : extractActionID r = "" := extractActionID_of_absent r habsent
    obtain ⟨run, k, hrun, hp, htrace⟩ := httpWait_shape env cli
      (env.jsonRequest (w.perform env (Event.jsonRequest "PUT" urlStr (some params))).trace).header
      "PUT" urlStr params "" (w.perform env (Event.jsonRequest "PUT" urlStr (some params)))
    refine ⟨run, k, hrun, ?_, hp, ?_⟩
    · rw [httpPut_of_reply env cli urlStr params false w r herr hresp, hid]
      simp [hrun, Outcome.map]
    · rw [htrace]
      simp [World.perform]
  · intro r herr hresp habsent
    have hid : extractActionID r = "" := extractActionID_of_absent r habsent
    obtain ⟨run, k, hrun, hp, htrace⟩ := httpWait_shape env cli
      (env.jsonRequest (w.perform env (Event.jsonRequest "DELETE" urlStr none)).trace).header
      "DELETE" urlStr (JSON.dict []) "" (w.perform env (Event.jsonRequest "DELETE" urlStr none))
    refine ⟨run, k, hrun, ?_, hp, ?_⟩
    · rw [httpDelete_of_reply env cli urlStr false w r herr hresp, hid]
      simp [hrun, Outcome.map]
    · rw [htrace]
      simp [World.perform]

/-- Witness of C24: a backend that accepts a POST with an empty `content` and
refuses PUT and DELETE. -/
theorem sync_call_without_actionID_still_waits_witness :
    ∃ (run : RetryRun) (k : Nat),
      httpWait (postOnlyEnv (some (JSON.dict [("content", JSON.dict [])])) 200)
        (sampleConfig 2 150) none "POST"
        "http://edge.local:80/ze/open-api/v1/cluster" (JSON.dict []) ""
        (World.initial.perform (postOnlyEnv (some (JSON.dict [("content", JSON.dict [])])) 200)
          (Event.jsonRequest "POST"
            "http://edge.local:80/ze/open-api/v1/cluster" (some (JSON.dict [])))) = Outcome.ret run ∧
      httpPost (postOnlyEnv (some (JSON.dict [("content", JSON.dict [])])) 200)
        (sampleConfig 2 150)
        "http://edge.local:80/ze/open-api/v1/cluster" (JSON.dict []) false World.initial
        = Outcome.ret (HttpResult.ofWait "" run) ∧
      run.polls = k + 1 ∧
      run.world.trace = World.initial.trace ++ [Event.jsonRequest "POST"
          "http://edge.local:80/ze/open-api/v1/cluster" (some (JSON.dict []))]
        ++ waitHistory (pollEvent (postOnlyEnv (some (JSON.dict [("content", JSON.dict [])])) 200)
            (sampleConfig 2 150) none "")
          (secondsDuration 2) k
        ++ [pollEvent (postOnlyEnv (some (JSON.dict [("content", JSON.dict [])])) 200)
            (sampleConfig 2 150) none ""] :=
  (sync_call_without_actionID_still_waits
    (postOnlyEnv (some (JSON.dict [("content", JSON.dict [])])) 200) (sampleConfig 2 150)
    "http://edge.local:80/ze/open-api/v1/cluster" (JSON.dict []) World.initial).2.1
    (JSON.dict [("content", JSON.dict [])]) rfl rfl (Or.inr ⟨JSON.dict [], rfl, rfl⟩)

/-! ## Bounds on polls and sleeps -/

/-- C25, the claim as stated fails for a large interval: with an interval of
9223372037 seconds the duration `time.Duration(interval) * time.Second` does not
fit 64 bits and wraps to a negative number of nanoseconds, so the one sleep of a
run with budget 1 returns at once (the clock has not moved) and does not last
9223372037 seconds. -/
theorem retryCallback_sleep_wraps_for_large_interval :
    (retryCallback pollAlwaysRunning "POST" "http://edge.local:80/ze/open-api/v1/cluster"
        "{}" 9223372037 1 World.initial).map
      (fun run => (run.polls, run.sleeps, run.world.now))
      = Outcome.ret (2, [-9223372036709551616], 0) := by
  decide

/-- C25 as amended: for every retry budget `n >= 0` (a Go `int`), every interval
`i >= 0` whose seconds fit the 64-bit duration (`i * 10^9 < 2^63`) and every
poll function, `retryCallback` returns after at least one and at most `n + 1`
polls and at most `n` sleeps, one after every poll but the last, each of
exactly `i` seconds (`i * 10^9` nanoseconds), so all sleeps together take at
most `n * i` seconds; with `n = 0` it polls exactly once and never sleeps. -/
theorem retryCallback_polls_and_sleeps_bounded (fn : World → PollResult × World)
    (action requestURL params : String) (i n : Int) (w : World)
    (hn0 : 0 ≤ n) (hn : n < int64Bound) (hi0 : 0 ≤ i) (hi : i * timeSecond < int64Bound) :
    ∃ (run : RetryRun) (k : Nat),
      retryCallback fn action requestURL params i n w = Outcome.ret run ∧
      run.polls = k + 1 ∧ 1 ≤ run.polls ∧ (run.polls : Int) ≤ n + 1 ∧
      run.sleeps = List.replicate k (i * timeSecond) ∧
      (run.sleeps.length : Int) ≤ n ∧
      run.sleeps.sum ≤ n * (i * timeSecond) ∧
      (n = 0 → run.polls = 1 ∧ run.sleeps = []) := by
  obtain ⟨k, hk, hrun, hstop⟩ := exists_stop_index fn (secondsDuration i) n.toNat w
  have hkle : (k : Int) ≤ n := by omega
  have hfuel : k < retryFuel := by
    unfold retryFuel; unfold int64Bound at hn; omega
  have hstop2 : (pollAt fn (secondsDuration i) k w).stillRunning = false ∨ n = k := by
    rcases hstop with h | h
    · exact Or.inl h
    · exact Or.inr (by omega)
  have hd : secondsDuration i = i * timeSecond := by
    apply secondsDuration_of_isInt64
    have hpos : 0 ≤ i * timeSecond := Int.mul_nonneg hi0 (by decide)
    exact ⟨by unfold int64Bound; omega, hi⟩
  have hpos : 0 ≤ i * timeSecond := Int.mul_nonneg hi0 (by decide)
  refine ⟨_, k, retryLoop_stops_at fn i k retryFuel n w hfuel hkle hn hrun hstop2, rfl,
    ?_, ?_, ?_, ?_, ?_, ?_⟩
  · show 1 ≤ k + 1
    omega
  · show ((k + 1 : Nat) : Int) ≤ n + 1
    push_cast
    omega
  · show List.replicate k (secondsDuration i) = _
    rw [hd]
  · show ((List.replicate k (secondsDuration i)).length : Int) ≤ n
    simpa using hkle
  · show (List.replicate k (secondsDuration i)).sum ≤ _
    rw [List.sum_replicate, hd, nsmul_eq_mul]
    exact Int.mul_le_mul_of_nonneg_right hkle hpos
  · intro h0
    have hk0 : k = 0 := by omega
    subst hk0
    exact ⟨rfl, rfl⟩

/-- Witness of the amended C25: a poll function that always reports a running
job, polled every two seconds with a budget of three retries. -/
theorem retryCallback_polls_and_sleeps_bounded_witness :
    ∃ (run : RetryRun) (k : Nat),
      retryCallback pollAlwaysRunning "POST" "http://edge.local:80/ze/open-api/v1/cluster"
        "{}" 2 3 World.initial = Outcome.ret run ∧
      run.polls = k + 1 ∧ 1 ≤ run.polls ∧ (run.polls : Int) ≤ 3 + 1 ∧
      run.sleeps = List.replicate k (2 * timeSecond) ∧
      (run.sleeps.length : Int) ≤ 3 ∧
      run.sleeps.sum ≤ 3 * (2 * timeSecond) ∧
      ((3 : Int) = 0 → run.polls = 1 ∧ run.sleeps = []) :=
  retryCallback_polls_and_sleeps_bounded pollAlwaysRunning "POST"
    "http://edge.local:80/ze/open-api/v1/cluster" "{}" 2 3 World.initial
    (by decide) (by decide) (by decide) (by decide)

/-! ## The mutating request is sent once -/

theorem countJSONRequests_append (a b : List Event) :
    countJSONRequests (a ++ b) = countJSONRequests a + countJSONRequests b := by
  induction a with
  | nil => simp [countJSONRequests]
  | cons e rest ih =>
    cases e <;> simp [countJSONRequests, ih]
    omega

theorem countJSONRequests_waitHistory (env : Env) (cli : ZeConfig) (header : Option Header)
    (actionID : String) (d : Int) (k : Nat) :
    countJSONRequests (waitHistory (pollEvent env cli header actionID) d k) = 0 := by
  induction k with
  | zero => rfl
  | succ k ih => simpa [waitHistory, pollEvent, countJSONRequests] using ih

theorem countJSONRequests_waitTail (env : Env) (cli : ZeConfig) (rest : List Event)
    (h : IsWaitTail env cli rest) : countJSONRequests rest = 0 := by
  rcases h with h | ⟨header, actionID, k, h⟩
  · subst h; rfl
  · subst h
    rw [countJSONRequests_append, countJSONRequests_waitHistory]
    rfl

theorem finishCall_world (responseKey : String) (retVal : Option JSON) (async : Bool)
    (r : HttpResult) (c : CallResult) (h : finishCall responseKey retVal async r = Outcome.ret c) :
    c.world = r.world := by
  unfold finishCall at h
  cases herr : r.err with
  | some e =>
    simp only [herr, Outcome.ret.injEq] at h
    subst h; rfl
  | none =>
    cases async with
    | true =>
      simp only [herr, Outcome.ret.injEq] at h
      subst h; rfl
    | false =>
      cases retVal with
      | none =>
        simp only [herr, Outcome.ret.injEq] at h
        subst h; rfl
      | some target =>
        cases hb : r.body with
        | none => simp [herr, hb] at h
        | some resp =>
          simp only [herr, hb, Outcome.ret.injEq] at h
          subst h; rfl

theorem finishDelete_world (retVal : Option JSON) (async : Bool)
    (r : HttpResult) (c : CallResult) (h : finishDelete retVal async r = Outcome.ret c) :
    c.world = r.world := by
  unfold finishDelete at h
  cases herr : r.err with
  | some e =>
    simp only [herr, Outcome.ret.injEq] at h
    subst h; rfl
  | none =>
    cases async with
    | true =>
      simp only [herr, Outcome.ret.injEq] at h
      subst h; rfl
    | false =>
      cases retVal with
      | none =>
        simp only [herr, Outcome.ret.injEq] at h
        subst h; rfl
      | some target =>
        cases hb : r.body with
        | none => simp [herr, hb] at h
        | some resp =>
          simp only [herr, hb, Outcome.ret.injEq] at h
          subst h; rfl

/-- Whatever the backend answers and whatever the budget, `httpPost` returns,
and what it adds to the history is its one POST request and then nothing, or
the polls and sleeps of one wait. -/
theorem httpPost_history (env : Env) (cli : ZeConfig) (urlStr : String) (params : JSON)
    (async : Bool) (w : World) :
    ∃ r rest, httpPost env cli urlStr params async w = Outcome.ret r ∧
      r.world.trace = w.trace ++ Event.jsonRequest "POST" urlStr (some params) :: rest ∧
      IsWaitTail env cli rest := by
  cases herr : (env.jsonRequest (w.perform env
      (Event.jsonRequest "POST" urlStr (some params))).trace).err with
  | some e =>
    refine ⟨⟨"", none, none, some (GoError.wrap e ("POST" ++ " " ++ urlStr ++ " " ++ env.jsonString params)),
      w.perform env (Event.jsonRequest "POST" urlStr (some params))⟩, [], ?_, ?_, Or.inl rfl⟩
    · simp [httpPost, herr]
    · simp [World.perform]
  | none =>
    cases hresp : (env.jsonRequest (w.perform env
        (Event.jsonRequest "POST" urlStr (some params))).trace).resp with
    | none =>
      refine ⟨⟨"", (env.jsonRequest (w.perform env
        (Event.jsonRequest "POST" urlStr (some params))).trace).respHeader, none, none,
        w.perform env (Event.jsonRequest "POST" urlStr (some params))⟩, [], ?_, ?_, Or.inl rfl⟩
      · simp [httpPost, herr, hresp]
      · simp [World.perform]
    | some r =>
      rw [httpPost_of_reply env cli _ params async w r herr hresp]
      cases async with
      | true =>
        refine ⟨⟨extractActionID r, (env.jsonRequest (w.perform env
          (Event.jsonRequest "POST" urlStr (some params))).trace).respHeader, some r, none,
          w.perform env (Event.jsonRequest "POST" urlStr (some params))⟩, [], ?_, ?_, Or.inl rfl⟩
        · simp
        · simp [World.perform]
      | false =>
        obtain ⟨run, k, hrun, -, htrace⟩ := httpWait_shape env cli
          (env.jsonRequest (w.perform env
            (Event.jsonRequest "POST" urlStr (some params))).trace).header
          "POST" urlStr params (extractActionID r)
          (w.perform env (Event.jsonRequest "POST" urlStr (some params)))
        refine ⟨HttpResult.ofWait (extractActionID r) run,
          waitHistory (pollEvent env cli
            (env.jsonRequest (w.perform env
              (Event.jsonRequest "POST" urlStr (some params))).trace).header
            (extractActionID r)) (secondsDuration cli.retryInterval) k
          ++ [pollEvent env cli
            (env.jsonRequest (w.perform env
              (Event.jsonRequest "POST" urlStr (some params))).trace).header
            (extractActionID r)], ?_, ?_,
          Or.inr ⟨(env.jsonRequest (w.perform env
            (Event.jsonRequest "POST" urlStr (some params))).trace).header,
            extractActionID r, k, rfl⟩⟩
        · simp [hrun, Outcome.map]
        · simp [HttpResult.ofWait, htrace, World.perform]

theorem httpPut_history (env : Env) (cli : ZeConfig) (urlStr : String) (params : JSON)
    (async : Bool) (w : World) :
    ∃ r rest, httpPut env cli urlStr params async w = Outcome.ret r ∧
      r.world.trace = w.trace ++ Event.jsonRequest "PUT" urlStr (some params) :: rest ∧
      IsWaitTail env cli rest := by
  cases herr : (env.jsonRequest (w.perform env
      (Event.jsonRequest "PUT" urlStr (some params))).trace).err with
  | some e =>
    refine ⟨⟨"", none, none, some (GoError.wrap e ("PUT" ++ " " ++ urlStr ++ " " ++ env.jsonString params)),
      w.perform env (Event.jsonRequest "PUT" urlStr (some params))⟩, [], ?_, ?_, Or.inl rfl⟩
    · simp [httpPut, herr]
    · simp [World.perform]
  | none =>
    cases hresp : (env.jsonRequest (w.perform env
        (Event.jsonRequest "PUT" urlStr (some params))).trace).resp with
    | none =>
      refine ⟨⟨"", (env.jsonRequest (w.perform env
        (Event.jsonRequest "PUT" urlStr (some params))).trace).respHeader, none, none,
        w.perform env (Event.jsonRequest "PUT" urlStr (some params))⟩, [], ?_, ?_, Or.inl rfl⟩
      · simp [httpPut, herr, hresp]
      · simp [World.perform]
    | some r =>
      rw [httpPut_of_reply env cli _ params async w r herr hresp]
      cases async with
      | true =>
        refine ⟨⟨extractActionID r, (env.jsonRequest (w.perform env
          (Event.jsonRequest "PUT" urlStr (some params))).trace).respHeader, some r, none,
          w.perform env (Event.jsonRequest "PUT" urlStr (some params))⟩, [], ?_, ?_, Or.inl rfl⟩
        · simp
        · simp [World.perform]
      | false =>
        obtain ⟨run, k, hrun, -, htrace⟩ := httpWait_shape env cli
          (env.jsonRequest (w.perform env
            (Event.jsonRequest "PUT" urlStr (some params))).trace).header
          "PUT" urlStr params (extractActionID r)
          (w.perform env (Event.jsonRequest "PUT" urlStr (some params)))
        refine ⟨HttpResult.ofWait (extractActionID r) run,
          waitHistory (pollEvent env cli
            (env.jsonRequest (w.perform env
              (Event.jsonRequest "PUT" urlStr (some params))).trace).header
            (extractActionID r)) (secondsDuration cli.retryInterval) k
          ++ [pollEvent env cli
            (env.jsonRequest (w.perform env
              (Event.jsonRequest "PUT" urlStr (some params))).trace).header
            (extractActionID r)], ?_, ?_,
          Or.inr ⟨(env.jsonRequest (w.perform env
            (Event.jsonRequest "PUT" urlStr (some params))).trace).header,
            extractActionID r, k, rfl⟩⟩
        · simp [hrun, Outcome.map]
        · simp [HttpResult.ofWait, htrace, World.perform]

theorem httpDelete_history (env : Env) (cli : ZeConfig) (urlStr : String)
    (async : Bool) (w : World) :
    ∃ r rest, httpDelete env cli urlStr async w = Outcome.ret r ∧
      r.world.trace = w.trace ++ Event.jsonRequest "DELETE" urlStr none :: rest ∧
      IsWaitTail env cli rest := by
  cases herr : (env.jsonRequest (w.perform env
      (Event.jsonRequest "DELETE" urlStr none)).trace).err with
  | some e =>
    refine ⟨⟨"", none, none, some (GoError.wrap e ("DELETE" ++ " " ++ urlStr)),
      w.perform env (Event.jsonRequest "DELETE" urlStr none)⟩, [], ?_, ?_, Or.inl rfl⟩
    · simp [httpDelete, herr]
    · simp [World.perform]
  | none =>
    cases hresp : (env.jsonRequest (w.perform env
        (Event.jsonRequest "DELETE" urlStr none)).trace).resp with
    | none =>
      refine ⟨⟨"", (env.jsonRequest (w.perform env
        (Event.jsonRequest "DELETE" urlStr none)).trace).respHeader, none, none,
        w.perform env (Event.jsonRequest "DELETE" urlStr none)⟩, [], ?_, ?_, Or.inl rfl⟩
      · simp [httpDelete, herr, hresp]
      · simp [World.perform]
    | some r =>
      rw [httpDelete_of_reply env cli _ async w r herr hresp]
      cases async with
      | true =>
        refine ⟨⟨extractActionID r, (env.jsonRequest (w.perform env
          (Event.jsonRequest "DELETE" urlStr none)).trace).respHeader, some r, none,
          w.perform env (Event.jsonRequest "DELETE" urlStr none)⟩, [], ?_, ?_, Or.inl rfl⟩
        · simp
        · simp [World.perform]
      | false =>
        obtain ⟨run, k, hrun, -, htrace⟩ := httpWait_shape env cli
          (env.jsonRequest (w.perform env
            (Event.jsonRequest "DELETE" urlStr none)).trace).header
          "DELETE" urlStr (JSON.dict []) (extractActionID r)
          (w.perform env (Event.jsonRequest "DELETE" urlStr none))
        refine ⟨HttpResult.ofWait (extractActionID r) run,
          waitHistory (pollEvent env cli
            (env.jsonRequest (w.perform env
              (Event.jsonRequest "DELETE" urlStr none)).trace).header
            (extractActionID r)) (secondsDuration cli.retryInterval) k
          ++ [pollEvent env cli
            (env.jsonRequest (w.perform env
              (Event.jsonRequest "DELETE" urlStr none)).trace).header
            (extractActionID r)], ?_, ?_,
          Or.inr ⟨(env.jsonRequest (w.perform env
            (Event.jsonRequest "DELETE" urlStr none)).trace).header,
            extractActionID r, k, rfl⟩⟩
        · simp [hrun, Outcome.map]
        · simp [HttpResult.ofWait, htrace, World.perform]

/-- C26: every call of `PostWithAsync`, `PutWithAsync` or `DeleteWithAsync`,
whatever the backend answers (an error of the transport, a header timeout among
them, or any sequence of poll results), in asynchronous and synchronous mode
and with every budget, sends its POST, PUT or DELETE request exactly once: the
request part of the call returns, what it adds to the history is that one
request followed by nothing or by the polls (GET on the result endpoint) and
sleeps of one wait, so the history holds one more `JSONRequest` than before,
and the rest of the call only reads the result and adds nothing to it. -/
theorem mutating_request_is_sent_once (env : Env) (cli : ZeConfig)
    (resource resourceId spec responseKey paramsStr : String) (params : JSON)
    (retVal : Option JSON) (async : Bool) (w : World) :
    (∃ r rest,
      httpPost env cli (getPostURL cli resource resourceId spec) params async w
        = Outcome.ret r ∧
      PostWithAsync env cli resource resourceId spec responseKey params retVal async w
        = finishCall responseKey retVal async r ∧
      (∀ c, finishCall responseKey retVal async r = Outcome.ret c → c.world = r.world) ∧
      r.world.trace = w.trace ++
        Event.jsonRequest "POST" (getPostURL cli resource resourceId spec) (some params)
          :: rest ∧
      IsWaitTail env cli rest ∧
      countJSONRequests r.world.trace = countJSONRequests w.trace + 1) ∧
    (∃ r rest,
      httpPut env cli (getPutURL cli resource resourceId spec) params async w
        = Outcome.ret r ∧
      PutWithAsync env cli resource resourceId spec responseKey params retVal async w
        = finishCall responseKey retVal async r ∧
      (∀ c, finishCall responseKey retVal async r = Outcome.ret c → c.world = r.world) ∧
      r.world.trace = w.trace ++
        Event.jsonRequest "PUT" (getPutURL cli resource resourceId spec) (some params)
          :: rest ∧
      IsWaitTail env cli rest ∧
      countJSONRequests r.world.trace = countJSONRequests w.trace + 1) ∧
    (∃ r rest,
      httpDelete env cli (getDeleteURL cli resource resourceId spec paramsStr) async w
        = Outcome.ret r ∧
      DeleteWithAsync env cli resource resourceId spec paramsStr retVal async w
        = finishDelete retVal async r ∧
      (∀ c, finishDelete retVal async r = Outcome.ret c → c.world = r.world) ∧
      r.world.trace = w.trace ++
        Event.jsonRequest "DELETE" (getDeleteURL cli resource resourceId spec paramsStr) none
          :: rest ∧
      IsWaitTail env cli rest ∧
      countJSONRequests r.world.trace = countJSONRequests w.trace + 1) := by
  refine ⟨?_, ?_, ?_⟩
  · obtain ⟨r, rest, hr, htrace, htail⟩ :=
      httpPost_history env cli (getPostURL cli resource resourceId spec) params async w
    refine ⟨r, rest, hr, ?_, finishCall_world responseKey retVal async r, htrace, htail, ?_⟩
    · simp [PostWithAsync, hr, Outcome.bind]
    · rw [htrace, countJSONRequests_append]
      simp [countJSONRequests, countJSONRequests_waitTail env cli rest htail]
  · obtain ⟨r, rest, hr, htrace, htail⟩ :=
      httpPut_history env cli (getPutURL cli resource resourceId spec) params async w
    refine ⟨r, rest, hr, ?_, finishCall_world responseKey retVal async r, htrace, htail, ?_⟩
    · simp [PutWithAsync, hr, Outcome.bind]
    · rw [htrace, countJSONRequests_append]
      simp [countJSONRequests, countJSONRequests_waitTail env cli rest htail]
  · obtain ⟨r, rest, hr, htrace, htail⟩ :=
      httpDelete_history env cli (getDeleteURL cli resource resourceId spec paramsStr) async w
    refine ⟨r, rest, hr, ?_, finishDelete_world retVal async r, htrace, htail, ?_⟩
    · simp [DeleteWithAsync, hr, Outcome.bind]
    · rw [htrace, countJSONRequests_append]
      simp [countJSONRequests, countJSONRequests_waitTail env cli rest htail]

/-! ## The budget after a wait -/

/-- With a budget that is not negative the loop of `retryCallback` ends with
some poll number `k` within the budget: the polls before it reported a running
job, and poll `k` reports something else or finds the budget used up. -/
theorem retryCallback_stops (fn : World → PollResult × World)
    (action requestURL params : String) (interval retryTimes : Int) (w : World)
    (h0 : 0 ≤ retryTimes) (hint : retryTimes < int64Bound) :
    ∃ k : Nat, (k : Int) ≤ retryTimes ∧
      (∀ i, i < k → (pollAt fn (secondsDuration interval) i w).stillRunning = true) ∧
      ((pollAt fn (secondsDuration interval) k w).stillRunning = false ∨ retryTimes = k) ∧
      retryCallback fn action requestURL params interval retryTimes w =
        Outcome.ret (stoppedRun fn (secondsDuration interval) k retryTimes w) := by
  obtain ⟨k, hk, hrun, hstop⟩ :=
    exists_stop_index fn (secondsDuration interval) retryTimes.toNat w
  have hkle : (k : Int) ≤ retryTimes := by omega
  have hfuel : k < retryFuel := by
    unfold retryFuel; unfold int64Bound at hint; omega
  have hstop2 : (pollAt fn (secondsDuration interval) k w).stillRunning = false
      ∨ retryTimes = k := by
    rcases hstop with h | h
    · exact Or.inl h
    · exact Or.inr (by omega)
  exact ⟨k, hkle, hrun, hstop2,
    retryLoop_stops_at fn interval k retryFuel retryTimes w hfuel hkle hint hrun hstop2⟩

theorem retryLoopAt_httpWaitPollAt (env : Env) (cli : ConfigRef) (header : Option Header)
    (actionID : String) (interval : Int) :
    ∀ (fuel : Nat) (retryTimes : Int) (h : ConfigHeap) (w : World),
      retryLoopAt (httpWaitPollAt env cli header actionID) interval fuel retryTimes h w =
        (retryLoop (httpWaitPoll env (h cli) header actionID) interval fuel retryTimes w).map
          (fun run => (run, h)) := by
  intro fuel
  induction fuel with
  | zero => intro retryTimes h w; rfl
  | succ f ih =>
    intro retryTimes h w
    unfold retryLoopAt retryLoop
    simp only [httpWaitPollAt]
    cases herr : (httpWaitPoll env (h cli) header actionID w).1.err with
    | none => simp [Outcome.map]
    | some e =>
      by_cases h0 : retryTimes = 0
      · simp [h0, Outcome.map]
      · cases hc : IsJobRunningError e with
        | false => simp [h0, hc, Outcome.map]
        | true =>
          simp only [h0, hc, if_false, Bool.not_true, Bool.false_eq_true]
          have := ih (wrapInt64 (retryTimes - 1)) h
            ((httpWaitPoll env (h cli) header actionID w).2.sleep (secondsDuration interval))
          simp only [httpWaitPollAt] at this
          rw [this]
          cases retryLoop (httpWaitPoll env (h cli) header actionID) interval f
            (wrapInt64 (retryTimes - 1))
            ((httpWaitPoll env (h cli) header actionID w).2.sleep (secondsDuration interval))
            <;> rfl

theorem httpWaitAt_eq (env : Env) (cli : ConfigRef) (header : Option Header)
    (action requestURL : String) (params : JSON) (actionID : String) (h : ConfigHeap)
    (w : World) :
    httpWaitAt env cli header action requestURL params actionID h w =
      (httpWait env (h cli) header action requestURL params actionID w).map
        (fun run => (run, h)) :=
  retryLoopAt_httpWaitPollAt env cli header actionID _ _ _ _ _

/-- C27: whatever budget the client holds and however the wait ends, `httpWait`
on a client in memory returns and leaves the memory as it found it: the fields
`retryInterval` and `retryTimes` of the client hold the values they had when the
wait began. What the loop took down is its own counter: with a budget that is
not negative it stands at `retryTimes - k` after `k` retries. The next wait on
the client reads the same two values again, so it starts with the full budget:
when all its polls report a running job it makes `retryTimes + 1` polls, whether
or not the first wait used its budget up. -/
theorem httpWait_counts_down_a_private_copy (env : Env) (cli : ConfigRef) (h : ConfigHeap)
    (header1 header2 : Option Header) (action1 action2 requestURL1 requestURL2 : String)
    (params1 params2 : JSON) (actionID1 actionID2 : String) (w : World) :
    ∃ (run1 : RetryRun) (h1 : ConfigHeap),
      httpWaitAt env cli header1 action1 requestURL1 params1 actionID1 h w
        = Outcome.ret (run1, h1) ∧
      (h1 cli).retryInterval = (h cli).retryInterval ∧
      (h1 cli).retryTimes = (h cli).retryTimes ∧
      h1 = h ∧
      httpWait env (h cli) header1 action1 requestURL1 params1 actionID1 w = Outcome.ret run1 ∧
      (0 ≤ (h cli).retryTimes → (h cli).retryTimes < int64Bound →
        ∃ k : Nat, run1.polls = k + 1 ∧ run1.remaining = (h cli).retryTimes - k) ∧
      httpWaitAt env cli header2 action2 requestURL2 params2 actionID2 h1 run1.world =
        retryCallbackAt (httpWaitPollAt env cli header2 actionID2) action2 requestURL2
          (env.jsonString params2) (h cli).retryInterval (h cli).retryTimes h1 run1.world ∧
      ∃ (run2 : RetryRun) (h2 : ConfigHeap),
        httpWaitAt env cli header2 action2 requestURL2 params2 actionID2 h1 run1.world
          = Outcome.ret (run2, h2) ∧
        (h2 cli).retryInterval = (h cli).retryInterval ∧
        (h2 cli).retryTimes = (h cli).retryTimes ∧
        (0 ≤ (h cli).retryTimes → (h cli).retryTimes < int64Bound →
          (∀ i, (pollAt (httpWaitPoll env (h cli) header2 actionID2)
            (secondsDuration (h cli).retryInterval) i run1.world).stillRunning = true) →
          (run2.polls : Int) = (h cli).retryTimes + 1) := by
  obtain ⟨run1, hrun1⟩ := retryCallback_returns (httpWaitPoll env (h cli) header1 actionID1)
    action1 requestURL1 (env.jsonString params1) (h cli).retryInterval (h cli).retryTimes w
  obtain ⟨run2, hrun2⟩ := retryCallback_returns (httpWaitPoll env (h cli) header2 actionID2)
    action2 requestURL2 (env.jsonString params2) (h cli).retryInterval (h cli).retryTimes
    run1.world
  have hw1 : httpWait env (h cli) header1 action1 requestURL1 params1 actionID1 w
      = Outcome.ret run1 := hrun1
  have hw2 : httpWait env (h cli) header2 action2 requestURL2 params2 actionID2 run1.world
      = Outcome.ret run2 := hrun2
  refine ⟨run1, h, ?_, rfl, rfl, rfl, hw1, fun h0 hint => ?_, rfl, run2, h, ?_, rfl, rfl,
    fun h0 hint hall => ?_⟩
  · rw [httpWaitAt_eq, hw1]; rfl
  · obtain ⟨k, -, -, -, hstop⟩ := retryCallback_stops
      (httpWaitPoll env (h cli) header1 actionID1) action1 requestURL1
      (env.jsonString params1) (h cli).retryInterval (h cli).retryTimes w h0 hint
    rw [hrun1] at hstop
    simp only [Outcome.ret.injEq] at hstop
    subst hstop
    exact ⟨k, rfl, rfl⟩
  · rw [httpWaitAt_eq, hw2]; rfl
  · obtain ⟨k, -, -, hcond, hstop⟩ := retryCallback_stops
      (httpWaitPoll env (h cli) header2 actionID2) action2 requestURL2
      (env.jsonString params2) (h cli).retryInterval (h cli).retryTimes run1.world h0 hint
    rw [hrun2] at hstop
    simp only [Outcome.ret.injEq] at hstop
    subst hstop
    show ((k + 1 : Nat) : Int) = (h cli).retryTimes + 1
    rcases hcond with hc | hc
    · rw [hall k] at hc
      cases hc
    · push_cast
      omega

/-- Witness of C27: every poll reports a running job and the client holds a
budget of two retries every two seconds. The wait uses its budget up, three
polls and a counter at zero, and the client still holds two and two. -/
theorem httpWait_counts_down_a_private_copy_witness :
    ∃ (run1 : RetryRun) (h1 : ConfigHeap),
      httpWaitAt (scriptedEnv (fun _ => 202)) 0 none "POST"
        "http://edge.local:80/ze/open-api/v1/cluster" (JSON.dict []) "a-1"
        (fun _ => sampleConfig 2 2) World.initial = Outcome.ret (run1, h1) ∧
      (h1 0).retryInterval = 2 ∧ (h1 0).retryTimes = 2 ∧
      run1.polls = 3 ∧ run1.remaining = 0 := by
  obtain ⟨run1, h1, hrun, hi, ht, -, hval, -⟩ :=
    httpWait_counts_down_a_private_copy (scriptedEnv (fun _ => 202)) 0
      (fun _ => sampleConfig 2 2) none none "POST" "DELETE"
      "http://edge.local:80/ze/open-api/v1/cluster"
      "http://edge.local:80/ze/open-api/v1/cluster/7" (JSON.dict []) (JSON.dict []) "a-1" "a-2"
      World.initial
  have hd : (httpWait (scriptedEnv (fun _ => 202)) (sampleConfig 2 2) none "POST"
      "http://edge.local:80/ze/open-api/v1/cluster" (JSON.dict []) "a-1" World.initial).map
      (fun r => (r.polls, r.remaining)) = Outcome.ret (3, 0) := by decide
  rw [show httpWait (scriptedEnv (fun _ => 202)) (sampleConfig 2 2) none "POST"
      "http://edge.local:80/ze/open-api/v1/cluster" (JSON.dict []) "a-1" World.initial
      = Outcome.ret run1 from hval] at hd
  simp only [Outcome.map, Outcome.ret.injEq, Prod.mk.injEq] at hd
  exact ⟨run1, h1, hrun, hi, ht, hd.1, hd.2⟩

/-! ## A response without a body -/

/-- C28: for each of POST, PUT and DELETE on its own, when the request is
answered without an error of the transport and without a JSON body, the
synchronous call without a target (`async = false`, `retVal = nil`) returns the
empty action ID and a nil error, and its one request is all it adds to the
history: the result endpoint is not polled at all. -/
theorem sync_call_without_body_skips_the_wait (env : Env) (cli : ZeConfig)
    (resource resourceId spec responseKey paramsStr : String) (params : JSON) (w : World) :
    ((env.jsonRequest (w.perform env (Event.jsonRequest "POST"
        (getPostURL cli resource resourceId spec) (some params))).trace).err = none →
      (env.jsonRequest (w.perform env (Event.jsonRequest "POST"
        (getPostURL cli resource resourceId spec) (some params))).trace).resp = none →
      ∃ c, PostWithAsync env cli resource resourceId spec responseKey params none false w
          = Outcome.ret c ∧
        c.location = "" ∧ c.err = none ∧
        c.world.trace = w.trace ++
          [Event.jsonRequest "POST" (getPostURL cli resource resourceId spec) (some params)] ∧
        countRequests c.world.trace = countRequests w.trace) ∧
    ((env.jsonRequest (w.perform env (Event.jsonRequest "PUT"
        (getPutURL cli resource resourceId spec) (some params))).trace).err = none →
      (env.jsonRequest (w.perform env (Event.jsonRequest "PUT"
        (getPutURL cli resource resourceId spec) (some params))).trace).resp = none →
      ∃ c, PutWithAsync env cli resource resourceId spec responseKey params none false w
          = Outcome.ret c ∧
        c.location = "" ∧ c.err = none ∧
        c.world.trace = w.trace ++
          [Event.jsonRequest "PUT" (getPutURL cli resource resourceId spec) (some params)] ∧
        countRequests c.world.trace = countRequests w.trace) ∧
    ((env.jsonRequest (w.perform env (Event.jsonRequest "DELETE"
        (getDeleteURL cli resource resourceId spec paramsStr) none)).trace).err = none →
      (env.jsonRequest (w.perform env (Event.jsonRequest "DELETE"
        (getDeleteURL cli resource resourceId spec paramsStr) none)).trace).resp = none →
      ∃ c, DeleteWithAsync env cli resource resourceId spec paramsStr none false w
          = Outcome.ret c ∧
        c.location = "" ∧ c.err = none ∧
        c.world.trace = w.trace ++
          [Event.jsonRequest "DELETE" (getDeleteURL cli resource resourceId spec paramsStr) none] ∧
        countRequests c.world.trace = countRequests w.trace) := by
  have hcount : ∀ (t : List Event) (m u : String) (b : Option JSON),
      countRequests (t ++ [Event.jsonRequest m u b]) = countRequests t := by
    intro t m u b
    induction t with
    | nil => rfl
    | cons e rest ih => cases e <;> simp [countRequests, ih]
  refine ⟨?_, ?_, ?_⟩
  · intro herr hresp
    refine ⟨⟨"", none, none, w.perform env (Event.jsonRequest "POST"
      (getPostURL cli resource resourceId spec) (some params))⟩, ?_, rfl, rfl, ?_, ?_⟩
    · simp [PostWithAsync, httpPost, herr, hresp, Outcome.bind, finishCall_none]
    · simp [World.perform]
    · simp [World.perform, hcount]
  · intro herr hresp
    refine ⟨⟨"", none, none, w.perform env (Event.jsonRequest "PUT"
      (getPutURL cli resource resourceId spec) (some params))⟩, ?_, rfl, rfl, ?_, ?_⟩
    · simp [PutWithAsync, httpPut, herr, hresp, Outcome.bind, finishCall_none]
    · simp [World.perform]
    · simp [World.perform, hcount]
  · intro herr hresp
    refine ⟨⟨"", none, none, w.perform env (Event.jsonRequest "DELETE"
      (getDeleteURL cli resource resourceId spec paramsStr) none)⟩, ?_, rfl, rfl, ?_, ?_⟩
    · simp [DeleteWithAsync, httpDelete, herr, hresp, Outcome.bind, finishDelete_none]
    · simp [World.perform]
    · simp [World.perform, hcount]

/-- Witness of C28: a backend that accepts a POST without a JSON body and
refuses PUT and DELETE. -/
theorem sync_call_without_body_skips_the_wait_witness :
    ∃ c, PostWithAsync (postOnlyEnv none 200) (sampleConfig 2 150) "/open-api/v1/cluster" "" ""
        "" (JSON.dict []) none false World.initial = Outcome.ret c ∧
      c.location = "" ∧ c.err = none ∧
      c.world.trace = World.initial.trace ++
        [Event.jsonRequest "POST" (getPostURL (sampleConfig 2 150) "/open-api/v1/cluster" "" "")
          (some (JSON.dict []))] ∧
      countRequests c.world.trace = countRequests World.initial.trace :=
  (sync_call_without_body_skips_the_wait (postOnlyEnv none 200) (sampleConfig 2 150)
    "/open-api/v1/cluster" "" "" "" "" (JSON.dict []) World.initial).1 rfl rfl

/-! ## The padding of the cipher -/

/-- C30: for every byte string `d` and every block size `b` with
`1 <= b <= 255`, `PKCS5Padding(d, b)` returns `d` followed by `n` bytes that
each have the value `n`, with `1 <= n <= b`, its length is a multiple of `b`,
and `PKCS5UnPadding` of it returns `d`. -/
theorem PKCS5Padding_round_trip (d : List Nat) (b : Int) (h1 : 1 ≤ b) (h255 : b ≤ 255) :
    ∃ (p : List Nat) (n : Nat), PKCS5Padding d b = Outcome.ret p ∧
      p = d ++ List.replicate n n ∧ 1 ≤ n ∧ (n : Int) ≤ b ∧
      p.length = d.length + n ∧ (p.length : Int) % b = 0 ∧
      PKCS5UnPadding p = Outcome.ret d := by
  have hb0 : b ≠ 0 := by omega
  have hlen0 : (0 : Int) ≤ (d.length : Int) := Int.natCast_nonneg _
  have hmod : Int.tmod (d.length : Int) b = (d.length : Int) % b :=
    Int.tmod_eq_emod hlen0 (by omega)
  have hr0 : 0 ≤ (d.length : Int) % b := Int.emod_nonneg _ hb0
  have hrb : (d.length : Int) % b < b := Int.emod_lt_of_pos _ (by omega)
  obtain ⟨n, hn⟩ : ∃ n : Nat, (n : Int) = b - (d.length : Int) % b :=
    ⟨(b - (d.length : Int) % b).toNat, by omega⟩
  have hn1 : 1 ≤ n := by omega
  have hnb : (n : Int) ≤ b := by omega
  have hpad : PKCS5Padding d b = Outcome.ret (d ++ List.replicate n n) := by
    unfold PKCS5Padding
    have hneg : ¬ (b - (d.length : Int) % b < 0) := by omega
    have h256 : ((b - (d.length : Int) % b) % 256).toNat = n := by omega
    have htn : (b - (d.length : Int) % b).toNat = n := by omega
    simp only [hb0, if_false, hmod, hneg, h256, htn]
  refine ⟨d ++ List.replicate n n, n, hpad, rfl, hn1, hnb, by simp, ?_, ?_⟩
  · have hdiv := Int.emod_add_ediv (d.length : Int) b
    have hsum : (((d ++ List.replicate n n).length : Nat) : Int)
        = b * ((d.length : Int) / b + 1) := by
      simp only [List.length_append, List.length_replicate]
      push_cast
      rw [hn, mul_add, mul_one]
      omega
    rw [hsum]
    exact Int.mul_emod_right _ _
  · unfold PKCS5UnPadding
    have hlast : (d ++ List.replicate n n).getLast? = some n := by
      rw [List.getLast?_append, List.getLast?_replicate]
      have : n ≠ 0 := by omega
      simp [this]
    have hnot : ¬ ((((d ++ List.replicate n n).length : Nat) : Int) - (n : Int) < 0) := by
      simp only [List.length_append, List.length_replicate]
      push_cast
      omega
    have htake : ((((d ++ List.replicate n n).length : Nat) : Int) - (n : Int)).toNat
        = d.length := by
      simp only [List.length_append, List.length_replicate]
      push_cast
      omega
    simp only [hlast, hnot, if_false, htake, List.take_left]

/-- Witness of C30: five bytes padded to the block size 8. -/
theorem PKCS5Padding_round_trip_witness :
    ∃ (p : List Nat) (n : Nat), PKCS5Padding [104, 101, 108, 108, 111] 8 = Outcome.ret p ∧
      p = [104, 101, 108, 108, 111] ++ List.replicate n n ∧ 1 ≤ n ∧ (n : Int) ≤ 8 ∧
      p.length = [104, 101, 108, 108, 111].length + n ∧ (p.length : Int) % 8 = 0 ∧
      PKCS5UnPadding p = Outcome.ret [104, 101, 108, 108, 111] :=
  PKCS5Padding_round_trip [104, 101, 108, 108, 111] 8 (by decide) (by decide)

/-! ## The cluster resource -/

theorem mutatingCalls_readCluster (sdk : Sdk) (calls : List SdkCall) (taskID : String)
    (clusterID : Int) :
    mutatingCalls (ClusterResource.readCluster sdk calls taskID clusterID).calls
      = mutatingCalls calls := by
  unfold ClusterResource.readCluster
  simp only []
  split <;> simp [mutatingCalls, SdkCall.mutates]

theorem mutatingCalls_adopt (sdk : Sdk) (name : String) (calls : List SdkCall)
    (taskID : String) :
    mutatingCalls (ClusterResource.adopt sdk name calls taskID).calls = mutatingCalls calls := by
  unfold ClusterResource.adopt
  simp only []
  split
  · simp [mutatingCalls, SdkCall.mutates]
  · split
    · simp [mutatingCalls, SdkCall.mutates]
    · rw [mutatingCalls_readCluster]
      simp [mutatingCalls, SdkCall.mutates]

theorem adopt_calls_prefix (sdk : Sdk) (name : String) (calls : List SdkCall)
    (taskID : String) :
    ∃ more, (ClusterResource.adopt sdk name calls taskID).calls = calls ++ more := by
  unfold ClusterResource.adopt
  simp only []
  split
  · exact ⟨_, rfl⟩
  · split
    · exact ⟨_, rfl⟩
    · unfold ClusterResource.readCluster
      simp only []
      split
      · exact ⟨_, List.append_assoc _ _ _⟩
      · exact ⟨_, List.append_assoc _ _ _⟩

/-- C29: `ClusterResource.Create` makes at most one SDK call that changes the
backend, and the lookup by name that it starts with decides which: when the
lookup fails there is none and an error is reported; when it returns no cluster
the call is `CreateCluster` with the planned parameters; when the first cluster
it returns has the status `Status_Cluster_Create_Failed` the call is
`RecreateCluster` on the ID of that cluster; with any other status of the first
cluster there is none. A plan that cannot be decoded ends `Create` before any
call. -/
theorem Create_makes_at_most_one_mutating_call (sdk : Sdk)
    (plan : Except (List Diagnostic) ClusterCreateParam) :
    (mutatingCalls (ClusterResource.Create sdk plan).calls).length ≤ 1 ∧
    (∀ diags, plan = Except.error diags → (ClusterResource.Create sdk plan).calls = []) ∧
    (∀ createParam, plan = Except.ok createParam →
      (ClusterResource.Create sdk plan).calls.head? = some (lookupByName createParam.Name) ∧
      (∀ err, (sdk.PageCluster [lookupByName createParam.Name]).2.2 = some err →
        mutatingCalls (ClusterResource.Create sdk plan).calls = [] ∧
        (ClusterResource.Create sdk plan).calls = [lookupByName createParam.Name] ∧
        (ClusterResource.Create sdk plan).diagnostics.length = 1 ∧
        (ClusterResource.Create sdk plan).state = none) ∧
      ((sdk.PageCluster [lookupByName createParam.Name]).2.2 = none →
        ((sdk.PageCluster [lookupByName createParam.Name]).1 = [] →
          mutatingCalls (ClusterResource.Create sdk plan).calls
            = [SdkCall.CreateCluster createParam false]) ∧
        (∀ first rest, (sdk.PageCluster [lookupByName createParam.Name]).1 = first :: rest →
          (first.Status = "Status_Cluster_Create_Failed" →
            mutatingCalls (ClusterResource.Create sdk plan).calls
              = [SdkCall.RecreateCluster first.ID false]) ∧
          (first.Status ≠ "Status_Cluster_Create_Failed" →
            mutatingCalls (ClusterResource.Create sdk plan).calls = [])))) := by
  cases plan with
  | error diags =>
    refine ⟨by simp [ClusterResource.Create, mutatingCalls], fun _ _ => rfl, ?_⟩
    intro createParam h
    cases h
  | ok createParam =>
    have hmain :
        (∀ err, (sdk.PageCluster [lookupByName createParam.Name]).2.2 = some err →
          (ClusterResource.Create sdk (Except.ok createParam)).calls
            = [lookupByName createParam.Name] ∧
          (ClusterResource.Create sdk (Except.ok createParam)).diagnostics.length = 1 ∧
          (ClusterResource.Create sdk (Except.ok createParam)).state = none) ∧
        ((sdk.PageCluster [lookupByName createParam.Name]).2.2 = none →
          ((sdk.PageCluster [lookupByName createParam.Name]).1 = [] →
            mutatingCalls (ClusterResource.Create sdk (Except.ok createParam)).calls
              = [SdkCall.CreateCluster createParam false]) ∧
          (∀ first rest, (sdk.PageCluster [lookupByName createParam.Name]).1 = first :: rest →
            (first.Status = "Status_Cluster_Create_Failed" →
              mutatingCalls (ClusterResource.Create sdk (Except.ok createParam)).calls
                = [SdkCall.RecreateCluster first.ID false]) ∧
            (first.Status ≠ "Status_Cluster_Create_Failed" →
              mutatingCalls (ClusterResource.Create sdk (Except.ok createParam)).calls = []))) := by
      refine ⟨fun err herr => ?_, fun hok => ⟨fun hnil => ?_, fun first rest hcons => ⟨?_, ?_⟩⟩⟩
      · have herr2 := herr
        unfold lookupByName at herr2
        simp [ClusterResource.Create, herr2, lookupByName]
      · have hok2 := hok
        have hnil2 := hnil
        unfold lookupByName at hok2 hnil2
        simp only [ClusterResource.Create, hok2, hnil2]
        split
        · simp [mutatingCalls, SdkCall.mutates]
        · rw [mutatingCalls_adopt]
          simp [mutatingCalls, SdkCall.mutates]
      · intro hfailed
        have hok2 := hok
        have hcons2 := hcons
        unfold lookupByName at hok2 hcons2
        simp only [ClusterResource.Create, hok2, hcons2, hfailed, if_true]
        split
        · simp [mutatingCalls, SdkCall.mutates]
        · rw [mutatingCalls_adopt]
          simp [mutatingCalls, SdkCall.mutates]
      · intro hother
        have hok2 := hok
        have hcons2 := hcons
        unfold lookupByName at hok2 hcons2
        simp only [ClusterResource.Create, hok2, hcons2, hother, if_false]
        rw [mutatingCalls_adopt]
        simp [mutatingCalls, SdkCall.mutates]
    have hhead : (ClusterResource.Create sdk (Except.ok createParam)).calls.head?
        = some (lookupByName createParam.Name) := by
      have hadopt : ∀ (more : List SdkCall) (taskID : String),
          (ClusterResource.adopt sdk createParam.Name (lookupByName createParam.Name :: more)
            taskID).calls.head? = some (lookupByName createParam.Name) := by
        intro more taskID
        obtain ⟨m, hm⟩ := adopt_calls_prefix sdk createParam.Name
          (lookupByName createParam.Name :: more) taskID
        rw [hm]
        rfl
      unfold ClusterResource.Create
      simp only []
      split
      · rfl
      · split
        · split
          · split
            · rfl
            · exact hadopt _ _
          · exact hadopt _ _
        · split
          · rfl
          · exact hadopt _ _
    refine ⟨?_, (fun diags h => by cases h), ?_⟩
    · cases herr : (sdk.PageCluster [lookupByName createParam.Name]).2.2 with
      | some err =>
        rw [(hmain.1 err herr).1]
        simp [mutatingCalls, lookupByName, SdkCall.mutates]
      | none =>
        cases hlist : (sdk.PageCluster [lookupByName createParam.Name]).1 with
        | nil =>
          rw [(hmain.2 herr).1 hlist]
          simp
        | cons first rest =>
          by_cases hst : first.Status = "Status_Cluster_Create_Failed"
          · rw [((hmain.2 herr).2 first rest hlist).1 hst]
            simp
          · rw [((hmain.2 herr).2 first rest hlist).2 hst]
            simp
    · intro cp h
      cases h
      refine ⟨hhead, fun err herr => ?_, hmain.2⟩
      obtain ⟨h1, h2, h3⟩ := hmain.1 err herr
      exact ⟨by rw [h1]; simp [mutatingCalls, lookupByName, SdkCall.mutates], h1, h2, h3⟩

/-! ## The error of an exhausted wait -/

theorem retryCallback_last_error (fn : World → PollResult × World)
    (action requestURL params : String) (interval retryTimes : Int) (w : World) :
    ∃ run, retryCallback fn action requestURL params interval retryTimes w = Outcome.ret run ∧
      run.ReturnsLastError fn (secondsDuration interval) w := by
  obtain ⟨run, hrun⟩ := retryCallback_returns fn action requestURL params interval retryTimes w
  have key := retryLoop_running_error_remaining fn interval retryFuel retryTimes w run hrun
  obtain ⟨k, hp, -, -, he, -⟩ := retryLoop_shape fn interval retryFuel retryTimes w run hrun
  refine ⟨run, hrun, k, hp, he, key, fun hne e hsome => ?_⟩
  cases hc : IsJobRunningError e with
  | false => rfl
  | true => exact absurd (key e hsome hc) hne

theorem finishCall_of_error (responseKey : String) (retVal : Option JSON) (async : Bool)
    (r : HttpResult) (e : GoError) (h : r.err = some e) :
    finishCall responseKey retVal async r =
      Outcome.ret { location := r.actionID, err := some e, retVal := retVal,
                    world := r.world } := by
  simp [finishCall, h]

theorem finishDelete_of_error (retVal : Option JSON) (async : Bool)
    (r : HttpResult) (e : GoError) (h : r.err = some e) :
    finishDelete retVal async r =
      Outcome.ret { location := r.actionID, err := some e, retVal := retVal,
                    world := r.world } := by
  simp [finishDelete, h]

/-- C8 as amended: for every poll function, interval and budget `retryCallback`
returns, the error it returns is the error of its last poll, and it is of the
job-still-running class only when the budget is used up: the counter is zero at
the return; with budget left the error is never a job-still-running error. The
same holds of `httpWait`, and once the request of a synchronous `PostWithAsync`,
`PutWithAsync` or `DeleteWithAsync` is accepted with a JSON body, the error of
the last poll of its wait, a job-still-running error on exhaustion, is the error
that `httpPost`, `httpPut` or `httpDelete` and the call itself return. -/
theorem retryCallback_running_error_only_when_exhausted (fn : World → PollResult × World)
    (action requestURL text : String) (interval retryTimes : Int) (w : World)
    (env : Env) (cli : ZeConfig) (header : Option Header) (params : JSON) (actionID : String)
    (resource resourceId spec responseKey paramsStr : String) (retVal : Option JSON) :
    (∃ run, retryCallback fn action requestURL text interval retryTimes w = Outcome.ret run ∧
      run.ReturnsLastError fn (secondsDuration interval) w) ∧
    (∃ run, httpWait env cli header action requestURL params actionID w = Outcome.ret run ∧
      run.ReturnsLastError (httpWaitPoll env cli header actionID)
        (secondsDuration cli.retryInterval) w) ∧
    (∀ r : JSON,
      (env.jsonRequest (w.perform env (Event.jsonRequest "POST"
        (getPostURL cli resource resourceId spec) (some params))).trace).err = none →
      (env.jsonRequest (w.perform env (Event.jsonRequest "POST"
        (getPostURL cli resource resourceId spec) (some params))).trace).resp = some r →
      ∃ run,
        httpWait env cli (env.jsonRequest (w.perform env (Event.jsonRequest "POST"
            (getPostURL cli resource resourceId spec) (some params))).trace).header
          "POST" (getPostURL cli resource resourceId spec) params (extractActionID r)
          (w.perform env (Event.jsonRequest "POST"
            (getPostURL cli resource resourceId spec) (some params))) = Outcome.ret run ∧
        run.ReturnsLastError
          (httpWaitPoll env cli (env.jsonRequest (w.perform env (Event.jsonRequest "POST"
            (getPostURL cli resource resourceId spec) (some params))).trace).header
            (extractActionID r))
          (secondsDuration cli.retryInterval)
          (w.perform env (Event.jsonRequest "POST"
            (getPostURL cli resource resourceId spec) (some params))) ∧
        httpPost env cli (getPostURL cli resource resourceId spec) params false w
          = Outcome.ret (HttpResult.ofWait (extractActionID r) run) ∧
        (∀ e, run.err = some e →
          PostWithAsync env cli resource resourceId spec responseKey params retVal false w
            = Outcome.ret { location := extractActionID r, err := some e, retVal := retVal,
                            world := run.world })) ∧
    (∀ r : JSON,
      (env.jsonRequest (w.perform env (Event.jsonRequest "PUT"
        (getPutURL cli resource resourceId spec) (some params))).trace).err = none →
      (env.jsonRequest (w.perform env (Event.jsonRequest "PUT"
        (getPutURL cli resource resourceId spec) (some params))).trace).resp = some r →
      ∃ run,
        httpWait env cli (env.jsonRequest (w.perform env (Event.jsonRequest "PUT"
            (getPutURL cli resource resourceId spec) (some params))).trace).header
          "PUT" (getPutURL cli resource resourceId spec) params (extractActionID r)
          (w.perform env (Event.jsonRequest "PUT"
            (getPutURL cli resource resourceId spec) (some params))) = Outcome.ret run ∧
        run.ReturnsLastError
          (httpWaitPoll env cli (env.jsonRequest (w.perform env (Event.jsonRequest "PUT"
            (getPutURL cli resource resourceId spec) (some params))).trace).header
            (extractActionID r))
          (secondsDuration cli.retryInterval)
          (w.perform env (Event.jsonRequest "PUT"
            (getPutURL cli resource resourceId spec) (some params))) ∧
        httpPut env cli (getPutURL cli resource resourceId spec) params false w
          = Outcome.ret (HttpResult.ofWait (extractActionID r) run) ∧
        (∀ e, run.err = some e →
          PutWithAsync env cli resource resourceId spec responseKey params retVal false w
            = Outcome.ret { location := extractActionID r, err := some e, retVal := retVal,
                            world := run.world })) ∧
    (∀ r : JSON,
      (env.jsonRequest (w.perform env (Event.jsonRequest "DELETE"
        (getDeleteURL cli resource resourceId spec paramsStr) none)).trace).err = none →
      (env.jsonRequest (w.perform env (Event.jsonRequest "DELETE"
        (getDeleteURL cli resource resourceId spec paramsStr) none)).trace).resp = some r →
      ∃ run,
        httpWait env cli (env.jsonRequest (w.perform env (Event.jsonRequest "DELETE"
            (getDeleteURL cli resource resourceId spec paramsStr) none)).trace).header
          "DELETE" (getDeleteURL cli resource resourceId spec paramsStr) (JSON.dict [])
          (extractActionID r)
          (w.perform env (Event.jsonRequest "DELETE"
            (getDeleteURL cli resource resourceId spec paramsStr) none)) = Outcome.ret run ∧
        run.ReturnsLastError
          (httpWaitPoll env cli (env.jsonRequest (w.perform env (Event.jsonRequest "DELETE"
            (getDeleteURL cli resource resourceId spec paramsStr) none)).trace).header
            (extractActionID r))
          (secondsDuration cli.retryInterval)
          (w.perform env (Event.jsonRequest "DELETE"
            (getDeleteURL cli resource resourceId spec paramsStr) none)) ∧
        httpDelete env cli (getDeleteURL cli resource resourceId spec paramsStr) false w
          = Outcome.ret (HttpResult.ofWait (extractActionID r) run) ∧
        (∀ e, run.err = some e →
          DeleteWithAsync env cli resource resourceId spec paramsStr retVal false w
            = Outcome.ret { location := extractActionID r, err := some e, retVal := retVal,
                            world := run.world })) := by
  refine ⟨retryCallback_last_error fn action requestURL text interval retryTimes w,
    retryCallback_last_error _ _ _ _ _ _ _, fun r herr hresp => ?_, fun r herr hresp => ?_,
    fun r herr hresp => ?_⟩
  · obtain ⟨run, hrun, hlast⟩ := retryCallback_last_error
      (httpWaitPoll env cli (env.jsonRequest (w.perform env (Event.jsonRequest "POST"
        (getPostURL cli resource resourceId spec) (some params))).trace).header
        (extractActionID r))
      "POST" (getPostURL cli resource resourceId spec) (env.jsonString params)
      cli.retryInterval cli.retryTimes
      (w.perform env (Event.jsonRequest "POST"
        (getPostURL cli resource resourceId spec) (some params)))
    have hpost : httpPost env cli (getPostURL cli resource resourceId spec) params false w
        = Outcome.ret (HttpResult.ofWait (extractActionID r) run) := by
      rw [httpPost_of_reply env cli _ params false w r herr hresp]
      simp only [Bool.false_eq_true, if_false]
      rw [show httpWait env cli _ "POST" (getPostURL cli resource resourceId spec) params
        (extractActionID r) _ = Outcome.ret run from hrun]
      rfl
    refine ⟨run, hrun, hlast, hpost, fun e he => ?_⟩
    unfold PostWithAsync
    simp only [hpost, Outcome.bind]
    exact finishCall_of_error responseKey retVal false _ e he
  · obtain ⟨run, hrun, hlast⟩ := retryCallback_last_error
      (httpWaitPoll env cli (env.jsonRequest (w.perform env (Event.jsonRequest "PUT"
        (getPutURL cli resource resourceId spec) (some params))).trace).header
        (extractActionID r))
      "PUT" (getPutURL cli resource resourceId spec) (env.jsonString params)
      cli.retryInterval cli.retryTimes
      (w.perform env (Event.jsonRequest "PUT"
        (getPutURL cli resource resourceId spec) (some params)))
    have hput : httpPut env cli (getPutURL cli resource resourceId spec) params false w
        = Outcome.ret (HttpResult.ofWait (extractActionID r) run) := by
      rw [httpPut_of_reply env cli _ params false w r herr hresp]
      simp only [Bool.false_eq_true, if_false]
      rw [show httpWait env cli _ "PUT" (getPutURL cli resource resourceId spec) params
        (extractActionID r) _ = Outcome.ret run from hrun]
      rfl
    refine ⟨run, hrun, hlast, hput, fun e he => ?_⟩
    unfold PutWithAsync
    simp only [hput, Outcome.bind]
    exact finishCall_of_error responseKey retVal false _ e he
  · obtain ⟨run, hrun, hlast⟩ := retryCallback_last_error
      (httpWaitPoll env cli (env.jsonRequest (w.perform env (Event.jsonRequest "DELETE"
        (getDeleteURL cli resource resourceId spec paramsStr) none)).trace).header
        (extractActionID r))
      "DELETE" (getDeleteURL cli resource resourceId spec paramsStr)
      (env.jsonString (JSON.dict []))
      cli.retryInterval cli.retryTimes
      (w.perform env (Event.jsonRequest "DELETE"
        (getDeleteURL cli resource resourceId spec paramsStr) none))
    have hdel : httpDelete env cli (getDeleteURL cli resource resourceId spec paramsStr) false w
        = Outcome.ret (HttpResult.ofWait (extractActionID r) run) := by
      rw [httpDelete_of_reply env cli _ false w r herr hresp]
      simp only [Bool.false_eq_true, if_false]
      rw [show httpWait env cli _ "DELETE" (getDeleteURL cli resource resourceId spec paramsStr)
        (JSON.dict []) (extractActionID r) _ = Outcome.ret run from hrun]
      rfl
    refine ⟨run, hrun, hlast, hdel, fun e he => ?_⟩
    unfold DeleteWithAsync
    simp only [hdel, Outcome.bind]
    exact finishDelete_of_error retVal false _ e he

end ZStackEdge
